import Mathlib

/-! # OpenDungeons server synchronisation layer

A shallow embedding of `source/Server.cpp`: the wire codec (`formatCommand`,
`parseCommand`), the broadcast (`sendToAllClients`), the notification dispatcher
(`serverNotificationProcessor`), the simulation loop (`creatureAIThread`) and
the connection handler (`clientHandlerThread`), with the hand operations of
`source/Player.cpp` the handler calls.

A `std::string` is a `List Char`.  Integer conversions are those of an LP64
platform: `int` is 32 bits wide in two's complement, `size_t` is 64 bits wide.
-/

namespace OpenDungeons

/-! ## Machine integers -/

/-- The value `std::string::npos`, the largest `size_t`. -/
def npos : Nat := 2 ^ 64 - 1

/-- The largest `int`. -/
def INT_MAX : Nat := 2 ^ 31 - 1

/-- The largest `ptrdiff_t`; no `std::string` is longer than this. -/
def PTRDIFF_MAX : Nat := 2 ^ 63 - 1

/-- Result of an `int` computation whose mathematical value is `i`:
reduction into the range `[-2^31, 2^31)`. -/
def wrapInt (i : Int) : Int := (i + 2 ^ 31) % 2 ^ 32 - 2 ^ 31

/-- Conversion of a `size_t` to `int`, as in `int index = command.find(..)`. -/
def toInt (n : Nat) : Int := wrapInt (n : Int)

/-- Conversion of an `int` to `size_t`, as when an `int` is passed to `substr`. -/
def toSize (i : Int) : Nat := (i % 2 ^ 64).toNat

/-! ## Strings -/

/-- Index of the first occurrence of `ch`, if there is one. -/
def findIdx (ch : Char) : List Char → Option Nat
  | [] => none
  | x :: xs => if x = ch then some 0 else (findIdx ch xs).map (· + 1)

/-- The call `s.find(needle)` for a one-character needle: the position of the
first occurrence, or `npos`. -/
def find (s : List Char) (ch : Char) : Nat :=
  match findIdx ch s with
  | some i => i
  | none => npos

/-- The call `s.substr(pos, n)`: `none` stands for the `std::out_of_range`
exception thrown when `pos > s.size()`. -/
def substr (s : List Char) (pos n : Nat) : Option (List Char) :=
  if pos > s.length then none else some ((s.drop pos).take n)

/-! ## Wire codec -/

/-- Packs a command and its arguments into a frame:
`"<" + command + ":" + arguments + ">"`. -/
def formatCommand (command arguments : List Char) : List Char :=
  '<' :: (command ++ ':' :: (arguments ++ ['>']))

/-- State of the three reference parameters of `parseCommand` when it is left,
with the value it returned; `returned = none` when `substr` threw. -/
structure ParseResult where
  returned : Option Bool
  command : List Char
  commandName : List Char
  arguments : List Char
  deriving DecidableEq, Repr

/-- The three assignments of `parseCommand`, in program order, given the
results of its three `substr` calls: an assignment is reached only when the
calls before it returned, and the first call that threw ends the function. -/
def parseCommandAssign (command commandName arguments : List Char)
    (r1 r2 r3 : Option (List Char)) : ParseResult :=
  match r1 with
  | none => ⟨none, command, commandName, arguments⟩
  | some commandName1 =>
    match r2 with
    | none => ⟨none, command, commandName1, arguments⟩
    | some arguments1 =>
      match r3 with
      | none => ⟨none, command, commandName1, arguments1⟩
      | some command1 => ⟨some (decide (command1.length > 0)), command1, commandName1, arguments1⟩

/-- Unpacks the first frame of the buffer `command` into `commandName` and
`arguments`, and leaves the rest of the buffer in `command`.

The locals of the source are written out where they are used: `index` is
`toInt (find command '<')` in the first `substr` and `toInt (find command ':')`
in the second (after `index = index2`); `index2` is `toInt (find command ':')`
in the first `substr` and `toInt (find command '>')` from the second on. -/
def parseCommand (command commandName arguments : List Char) : ParseResult :=
  parseCommandAssign command commandName arguments
    (substr command (toSize (wrapInt (toInt (find command '<') + 1)))
      (toSize (wrapInt (toInt (find command ':') - 1))))
    (substr command (toSize (wrapInt (toInt (find command ':') + 1)))
      (toSize (wrapInt (wrapInt (toInt (find command '>') - toInt (find command ':')) - 1))))
    (substr command (toSize (wrapInt (toInt (find command '>') + 1)))
      (toSize ((command.length : Int) - toInt (find command '>') + 1)))

/-! ## Text output of numbers -/

/-- Decimal text of an unsigned integer, as `operator<<` writes it. -/
def showNat (n : Nat) : List Char := Nat.toDigits 10 n

/-- Decimal text of a signed integer, as `operator<<` writes it. -/
def showInt : Int → List Char
  | Int.ofNat n => showNat n
  | Int.negSucc n => '-' :: showNat (n + 1)

/-- The integer nearest to `n / d`, ties going to the even one: the rounding
of the floating-point conversions. -/
def roundHalfEven (n d : Nat) : Nat :=
  if 2 * (n % d) < d then n / d
  else if d < 2 * (n % d) then n / d + 1
  else if (n / d) % 2 = 0 then n / d
  else n / d + 1

/-- The largest `e` with `b * 10 ^ e ≤ a`, for `b ≤ a`, searched upwards with
`fuel` steps. -/
def expUp : Nat → Nat → Nat → Nat
  | 0, _, _ => 0
  | fuel + 1, a, b => if b * 10 ≤ a then expUp fuel a (b * 10) + 1 else 0

/-- The least `k ≥ 1` with `b ≤ a * 10 ^ k`, for `0 < a < b`, searched upwards
with `fuel` steps. -/
def expDown : Nat → Nat → Nat → Nat
  | 0, _, _ => 1
  | fuel + 1, a, b => if b ≤ a * 10 then 1 else expDown fuel (a * 10) b + 1

/-- The decimal exponent of the positive number `a / b`: the `e` with
`10 ^ e ≤ a / b < 10 ^ (e + 1)`. -/
def decimalExponent (a b : Nat) : Int :=
  if b ≤ a then (expUp a a b : Int) else -(expDown b a b : Int)

/-- The number `a / b` scaled to six digits before the point, for the decimal
exponent `e`, and rounded to an integer. -/
def significand (a b : Nat) (e : Int) : Nat :=
  if e ≤ 5 then roundHalfEven (a * 10 ^ (5 - e).toNat) b
  else roundHalfEven a (b * 10 ^ (e - 5).toNat)

/-- A string without its trailing zeros. -/
def stripZeros (l : List Char) : List Char :=
  (l.reverse.dropWhile (fun c => c = '0')).reverse

/-- The fractional part `r / 10 ^ k` as text: nothing when it is zero,
otherwise the point and the `k` digits without the trailing zeros. -/
def fracText (k r : Nat) : List Char :=
  if r = 0 then []
  else '.' :: stripZeros (List.replicate (k - (showNat r).length) '0' ++ showNat r)

/-- The number `m / 10 ^ k` in fixed notation, trailing zeros removed. -/
def showFixed (m k : Nat) : List Char :=
  showNat (m / 10 ^ k) ++ fracText k (m % 10 ^ k)

/-- The number `m / 10 ^ 5 * 10 ^ x` in exponent notation: the exponent has a
sign and at least two digits. -/
def showExp (m : Nat) (x : Int) : List Char :=
  showFixed m 5
    ++ 'e' :: (if x < 0 then '-' else '+')
      :: (if x.natAbs < 10 then '0' :: showNat x.natAbs else showNat x.natAbs)

/-- Six significant digits `m` with decimal exponent `x`, as the conversion
`%g` writes them: fixed notation when `-4 ≤ x < 6`, exponent notation
otherwise. -/
def showSix (m : Nat) (x : Int) : List Char :=
  if -4 ≤ x ∧ x < 6 then showFixed m (5 - x).toNat else showExp m x

/-- The positive number `a / b` as `%g` writes it with precision 6; rounding
to six digits may carry into a seventh. -/
def showPos (a b : Nat) : List Char :=
  if significand a b (decimalExponent a b) = 10 ^ 6 then
    showSix (10 ^ 5) (decimalExponent a b + 1)
  else showSix (significand a b (decimalExponent a b)) (decimalExponent a b)

/-- Text written by `operator<<` for a floating-point value on a stream in
its default state: the conversion `%g` with precision 6.  The value is a
rational: infinities, not-a-number and the negative zero are not values of the
model. -/
def showReal (q : ℚ) : List Char :=
  if q.num = 0 then ['0']
  else if q.num < 0 then '-' :: showPos q.num.natAbs q.den
  else showPos q.num.natAbs q.den

/-! ## Game objects

Only the members that `Server.cpp` and `Player.cpp` read or write are kept.
Values of type `double` and `Ogre::Real` are rationals: they are stored,
compared and printed, never computed with. -/

/-- A seat at the game table; `getColor()` is the only member read. -/
structure Seat where
  color : Int
  deriving DecidableEq, Repr

/-- The class `Ogre::Vector3`. -/
structure Vector3 where
  x : ℚ
  y : ℚ
  z : ℚ
  deriving DecidableEq, Repr

/-- An `AnimatedObject`, known to the server code by its name. -/
structure AnimatedObject where
  name : List Char
  deriving DecidableEq, Repr

/-- A creature: its name, hit points (`getHP()`), `digRate` and position. -/
structure Creature where
  name : List Char
  hp : ℚ
  digRate : ℚ
  position : Vector3
  deriving DecidableEq, Repr

/-- The tile types named in the sources, and the others. -/
inductive TileType where
  | dirt
  | claimed
  | other (tag : Nat)
  deriving DecidableEq, Repr

/-- A map tile. -/
structure Tile where
  x : Int
  y : Int
  fullness : ℚ
  type : TileType
  color : Int
  deriving DecidableEq, Repr

/-- A map light, known by its name. -/
structure MapLight where
  name : List Char
  deriving DecidableEq, Repr

/-- A room, known by its name. -/
structure Room where
  name : List Char
  deriving DecidableEq, Repr

/-- A creature class description, known by its name. -/
structure CreatureClass where
  className : List Char
  deriving DecidableEq, Repr

/-- A player: `gameMapSet` says whether the member `gameMap` is non-null. -/
structure Player where
  nick : List Char
  seat : Option Seat
  creaturesInHand : List Creature
  hasAI : Bool
  gameMapSet : Bool
  deriving DecidableEq, Repr

/-- The object built by `new Player` (constructor of `Player.cpp`). -/
def Player.new : Player :=
  { nick := [], seat := none, creaturesInHand := [], hasAI := false, gameMapSet := false }

/-- A pointer to a player of the game map: the local player or the `i`-th of
the other players (`gameMap->getPlayer(i)`). -/
inductive PlayerRef where
  | me
  | other (i : Nat)
  deriving DecidableEq, Repr

/-- The game map: the collections the server code walks through. -/
structure GameMap where
  localPlayer : Player
  players : List Player
  creatures : List Creature
  tiles : List Tile
  mapLights : List MapLight
  rooms : List Room
  classDescriptions : List CreatureClass
  deriving DecidableEq, Repr

/-! ## Notifications -/

/-- The enumerators of `ServerNotification::type` that the dispatcher names,
and `unhandled` for any other value. -/
inductive ServerNotificationType where
  | turnStarted
  | animatedObjectAddDestination
  | animatedObjectClearDestinations
  | creaturePickUp
  | creatureDrop
  | setObjectAnimationState
  | setTurnsPerSecond
  | tileFullnessChange
  | addMapLight
  | removeMapLight
  | exit
  | unhandled (tag : Nat)
  deriving DecidableEq, Repr

/-- What the untyped pointer `p` of a notification points to. -/
inductive Pointee where
  | animatedObject (a : AnimatedObject)
  | mapLight (m : MapLight)
  deriving DecidableEq, Repr

/-- A server notification.  A pointer member is the object it points to when
the notification is dispatched, `none` for a null pointer. -/
structure ServerNotification where
  type : ServerNotificationType
  turnNumber : Nat
  str : List Char
  vec : Vector3
  b : Bool
  p : Option Pointee
  ani : Option AnimatedObject
  cre : Option Creature
  player : Option Player
  tile : Option Tile
  deriving DecidableEq, Repr

/-- The object built by `new ServerNotification`, before its members are set. -/
def ServerNotification.new (type : ServerNotificationType) : ServerNotification :=
  { type := type, turnNumber := 0, str := [], vec := ⟨0, 0, 0⟩, b := false, p := none,
    ani := none, cre := none, player := none, tile := none }

/-- A line of the chat log. -/
structure ChatMessage where
  clientNick : List Char
  message : List Char
  recvTime : Nat
  deriving DecidableEq, Repr

/-! ## Connections and the shared state -/

/-- A connection: its descriptor, the value of its send semaphore, the result
its `send` reports, and the reads its peer has still to deliver (a read of
length zero is the orderly close). -/
structure Socket where
  fd : Nat
  semaphore : Nat
  sendOk : Bool
  incoming : List (List Char)
  deriving DecidableEq, Repr

/-- The calls that leave the modelled code, in the order they are made. -/
inductive Effect where
  | send (fd : Nat) (bytes : List Char)
  | threadLockForTurn (turn : Nat)
  | threadUnlockForTurn (turn : Nat)
  | clientNotification (kind : List Char)
  deriving DecidableEq, Repr

/-- The state shared by the threads of the server. -/
structure World where
  gameMap : GameMap
  turnNumber : Nat
  turnsPerSecond : ℚ
  serverNotificationQueue : List (Option ServerNotification)
  clientSockets : List Socket
  chatMessages : List ChatMessage
  previousLeftoverTimes : List ℚ
  serverSocket : Bool
  clientSocket : Bool
  log : List Effect
  deriving DecidableEq, Repr

/-- How a piece of thread code is left: `next` when it ran to its end and the
thread goes on, `done` when the thread leaves its loop, `exited` when it called
`exit(1)`, `fault` when it dereferenced a null pointer, failed an assertion or
let an exception escape, `blocked` when it waits on a semaphore or on a read
that nothing will satisfy in this state, or is in a call that does not
return. -/
inductive Outcome (σ : Type) where
  | next (s : σ)
  | done (s : σ)
  | exited (s : σ)
  | fault (s : σ)
  | blocked (s : σ)
  deriving DecidableEq, Repr

/-- The state in which the code was left. -/
def Outcome.state {σ : Type} : Outcome σ → σ
  | .next s => s
  | .done s => s
  | .exited s => s
  | .fault s => s
  | .blocked s => s

/-- Whether the process was ended by `exit(1)`. -/
def Outcome.isExited {σ : Type} : Outcome σ → Bool
  | .exited _ => true
  | _ => false

/-- Whether the process was ended, by `exit(1)` or by a fault. -/
def Outcome.isTerminated {σ : Type} : Outcome σ → Bool
  | .exited _ => true
  | .fault _ => true
  | _ => false

/-- Text written by the `operator<<` overloads whose definitions are not in
the sources: floating-point numbers and the serialised game objects. -/
structure Streams where
  real : ℚ → List Char
  seat : Option Seat → List Char
  tile : Tile → List Char
  mapLight : MapLight → List Char
  room : Room → List Char
  creatureClass : CreatureClass → List Char
  creature : Creature → List Char

/-! ## Broadcast -/

/-- The call `sem_wait` on the send semaphore of a connection; `none` when
the semaphore is zero and the caller has to wait. -/
def sem_wait (s : Socket) : Option Socket :=
  if s.semaphore = 0 then none else some { s with semaphore := s.semaphore - 1 }

/-- The call `sem_post` on the send semaphore of a connection. -/
def sem_post (s : Socket) : Socket :=
  { s with semaphore := s.semaphore + 1 }

/-- The call `s.send(str)`: the bytes leave for descriptor `s.fd`, and the
call reports `s.sendOk`. -/
def Socket.send (s : Socket) (str : List Char) (log : List Effect) : Bool × List Effect :=
  (s.sendOk, log ++ [Effect.send s.fd str])

/-- State of the loop of `sendToAllClients` when it is left: the connections,
the log, and whether the loop ran to its end. -/
structure Broadcast where
  sockets : List Socket
  log : List Effect
  completed : Bool
  deriving DecidableEq, Repr

/-- The loop of `sendToAllClients` over the connections from index `i` on:
wait for the semaphore, send, post the semaphore.  The result of `send` is
not looked at. -/
def sendToAllClientsLoop : List Socket → List Char → List Effect → Broadcast
  | [], _, log => ⟨[], log, true⟩
  | s :: rest, str, log =>
    match sem_wait s with
    | none => ⟨s :: rest, log, false⟩
    | some s1 =>
      let r := Socket.send s1 str log
      let s2 := sem_post s1
      let b := sendToAllClientsLoop rest str r.2
      ⟨s2 :: b.sockets, b.log, b.completed⟩

/-- The function `sendToAllClients(frameListener, str)`. -/
def sendToAllClients (w : World) (str : List Char) : Outcome World :=
  let b := sendToAllClientsLoop w.clientSockets str w.log
  let w1 := { w with clientSockets := b.sockets, log := b.log }
  if b.completed then Outcome.next w1 else Outcome.blocked w1

/-! ## Notification queue -/

/-- Modelled from the spec: `queueServerNotification` is not in the sources.
"enqueue(event) — non-blocking append", "increments the event's turn's
pending-reference count as part of the same atomic step"; the event "carries
the Turn Number at which it was raised". -/
def queueServerNotification (w : World) (n : ServerNotification) : World :=
  { w with
    serverNotificationQueue :=
      w.serverNotificationQueue ++ [some { n with turnNumber := w.turnNumber }]
    log := w.log ++ [Effect.threadLockForTurn w.turnNumber] }

/-- Modelled from the spec: `GameMap::threadUnlockForTurn` is not in the
sources; it is `releasePending(turn)`, recorded in the log. -/
def threadUnlockForTurn (w : World) (turn : Nat) : World :=
  { w with log := w.log ++ [Effect.threadUnlockForTurn turn] }

/-! ## Notification dispatcher -/

/-- What the `switch` of `serverNotificationProcessor` does with an event: it
builds a frame to broadcast, clears `running`, dereferences a null pointer, or
reaches the `default` label. -/
inductive Dispatch where
  | frame (s : List Char)
  | stop
  | nullPointer
  | unhandled
  deriving DecidableEq, Repr

/-- The `switch (event->type)` of `serverNotificationProcessor`. -/
def eventFrame (st : Streams) (w : World) (event : ServerNotification) : Dispatch :=
  match event.type with
  | .turnStarted =>
    .frame (formatCommand "newturn".toList (showNat w.turnNumber))
  | .animatedObjectAddDestination =>
    .frame (formatCommand "animatedObjectAddDestination".toList
      (event.str ++ ':' :: (st.real event.vec.x ++ ':' :: (st.real event.vec.y
        ++ ':' :: st.real event.vec.z))))
  | .animatedObjectClearDestinations =>
    match event.ani with
    | none => .nullPointer
    | some ani => .frame (formatCommand "animatedObjectClearDestinations".toList ani.name)
  | .creaturePickUp =>
    match event.player, event.cre with
    | some player, some cre =>
      .frame (formatCommand "creaturePickUp".toList (player.nick ++ ':' :: cre.name))
    | _, _ => .nullPointer
  | .creatureDrop =>
    match event.player, event.tile with
    | some tempPlayer, some tempTile =>
      .frame (formatCommand "creatureDrop".toList
        (tempPlayer.nick ++ ':' :: (showInt tempTile.x ++ ':' :: showInt tempTile.y)))
    | _, _ => .nullPointer
  | .setObjectAnimationState =>
    match event.p with
    | some (.animatedObject tempAnimatedObject) =>
      .frame (formatCommand "setObjectAnimationState".toList
        (tempAnimatedObject.name ++ ':' :: (event.str
          ++ ':' :: (if event.b then "true".toList else "false".toList))))
    | _ => .nullPointer
  | .setTurnsPerSecond =>
    .frame (formatCommand "turnsPerSecond".toList (st.real w.turnsPerSecond))
  | .tileFullnessChange =>
    match event.tile with
    | none => .nullPointer
    | some tempTile =>
      .frame (formatCommand "tileFullnessChange".toList
        (st.real tempTile.fullness ++ ':' :: (showInt tempTile.x ++ ':' :: showInt tempTile.y)))
  | .addMapLight =>
    match event.p with
    | some (.mapLight tempMapLight) =>
      .frame (formatCommand "addmaplight".toList (st.mapLight tempMapLight))
    | _ => .nullPointer
  | .removeMapLight =>
    match event.p with
    | some (.mapLight tempMapLight) =>
      .frame (formatCommand "removeMapLight".toList tempMapLight.name)
    | _ => .nullPointer
  | .exit => .stop
  | .unhandled _ => .unhandled

/-- What follows the `switch` for an event whose frame was broadcast:
`threadUnlockForTurn(event->turnNumber)`, then the next iteration. -/
def afterBroadcast (event : ServerNotification) : Outcome World → Outcome World
  | .next w => .next (threadUnlockForTurn w event.turnNumber)
  | other => other

/-- One iteration of the loop of `serverNotificationProcessor`: wait for an
event, take it from the front of the queue, skip it when it is null, else
dispatch on its type, release its turn and delete it. -/
def serverNotificationProcessorIteration (st : Streams) (w : World) : Outcome World :=
  match w.serverNotificationQueue with
  | [] => .blocked w
  | event :: queue =>
    match event with
    | none => .next { w with serverNotificationQueue := queue }
    | some ev =>
      match eventFrame st { w with serverNotificationQueue := queue } ev with
      | .frame s =>
        afterBroadcast ev (sendToAllClients { w with serverNotificationQueue := queue } s)
      | .stop =>
        .done (threadUnlockForTurn { w with serverNotificationQueue := queue } ev.turnNumber)
      | .nullPointer => .fault { w with serverNotificationQueue := queue }
      | .unhandled => .fault { w with serverNotificationQueue := queue }

/-- An operation on the notification queue: an enqueue by some producer, or
the dispatcher taking the front element. -/
inductive QueueOp where
  | enqueue (n : ServerNotification)
  | dequeue
  deriving DecidableEq, Repr

/-- The dispatcher takes the front element of the queue (`front()`, then
`pop_front()`); on an empty queue it waits and nothing is taken. -/
def dequeue (w : World) : Option (Option ServerNotification) × World :=
  match w.serverNotificationQueue with
  | [] => (none, w)
  | event :: queue => (some event, { w with serverNotificationQueue := queue })

/-- Runs a sequence of queue operations; returns the events handed to the
dispatcher, in the order it received them, and the final state. -/
def runQueueOps : List QueueOp → World → List (Option ServerNotification) × World
  | [], w => ([], w)
  | .enqueue n :: ops, w => runQueueOps ops (queueServerNotification w n)
  | .dequeue :: ops, w =>
    match dequeue w with
    | (none, w1) => runQueueOps ops w1
    | (some event, w1) =>
      let r := runQueueOps ops w1
      (event :: r.1, r.2)

/-- The events a sequence of queue operations enqueues, in order, as they are
stored in the queue (stamped with the turn number `turn`). -/
def enqueuedBy (turn : Nat) : List QueueOp → List (Option ServerNotification)
  | [] => []
  | .enqueue n :: ops => some { n with turnNumber := turn } :: enqueuedBy turn ops
  | .dequeue :: ops => enqueuedBy turn ops

/-! ## Simulation loop -/

/-- Modelled from the spec: `GameMap::doTurn` is not in the sources.  It
"invoke[s] each live entity's per-turn update (entity update may itself
enqueue events)"; the turn number is "advanced only by the Simulation Loop".
Given the turn number and the map it yields the map after the updates and the
notifications the updates raise, in the order they raise them. -/
structure TurnLogic where
  doTurn : Nat → GameMap → GameMap × List ServerNotification

/-- One iteration of the loop of `creatureAIThread`.  `leftover` is the time
left of the turn as the stopwatch measures it, in seconds, and `stopRequested`
the value of `getThreadStopRequested()`; the sleep and the log lines are not
part of the state. -/
def creatureAIThreadIteration (logic : TurnLogic) (leftover : ℚ) (stopRequested : Bool)
    (w : World) : Outcome World :=
  let w1 := { w with turnNumber := w.turnNumber + 1 }
  let w2 := queueServerNotification w1 (ServerNotification.new .turnStarted)
  let r := logic.doTurn w2.turnNumber w2.gameMap
  let w3 := r.2.foldl queueServerNotification { w2 with gameMap := r.1 }
  let w4 := { w3 with previousLeftoverTimes := (leftover :: w3.previousLeftoverTimes).take 10 }
  if stopRequested then .done w4 else .next w4

/-- The loop of `creatureAIThread` run for one iteration per element of
`leftovers`, none of which sees the stop flag set. -/
def creatureAIThreadRun (logic : TurnLogic) : List ℚ → World → World
  | [], w => w
  | leftover :: rest, w =>
    creatureAIThreadRun logic rest (creatureAIThreadIteration logic leftover false w).state

/-! ## Connection handler: helpers -/

/-- Conversion of a `size_t` to `unsigned int`, as in
`unsigned int index = tempString.find(":")`. -/
def toUInt (n : Nat) : Nat := n % 2 ^ 32

/-- The two strings `processChatMessage` builds, given the results of its two
`substr` calls; `none` when one of them threw. -/
def chatMessageOf (now : Nat) (messageNick message : Option (List Char)) : Option ChatMessage :=
  match messageNick, message with
  | some nick, some text => some ⟨nick, text, now⟩
  | _, _ => none

/-- The function `processChatMessage(arguments)`, called at time `now`:
`index` is `toInt (find arguments ':')`. -/
def processChatMessage (now : Nat) (arguments : List Char) : Option ChatMessage :=
  chatMessageOf now
    (substr arguments 0 (toSize (toInt (find arguments ':'))))
    (substr arguments (toSize (wrapInt (toInt (find arguments ':') + 1)))
      (toSize ((arguments.length : Int) - toInt (find arguments ':') - 1)))

/-- A `std::stringstream` being read: the characters left, and whether the
stream is still good (neither `eofbit` nor `failbit` set). -/
structure IStream where
  buf : List Char
  good : Bool
  deriving DecidableEq, Repr

/-- The call `getline(array, n, delim)`: the characters stored in `array` and
the stream afterwards.  Nothing is read from a stream that is not good; the
delimiter is taken from the stream and not stored; reaching the end of the
stream or storing `n - 1` characters leaves the stream not good. -/
def getline (s : IStream) (n : Nat) (delim : Char) : List Char × IStream :=
  if s.good then
    if (s.buf.takeWhile (· ≠ delim)).length ≤ n - 1 then
      if (s.buf.takeWhile (· ≠ delim)).length < s.buf.length then
        (s.buf.takeWhile (· ≠ delim),
          ⟨s.buf.drop ((s.buf.takeWhile (· ≠ delim)).length + 1), true⟩)
      else
        (s.buf, ⟨[], false⟩)
    else
      (s.buf.take (n - 1), ⟨s.buf.drop (n - 1), false⟩)
  else
    ([], s)

/-- Construction of a `std::string` from a character array: the characters
before the first null character. -/
def cstr (array : List Char) : List Char :=
  array.takeWhile (· ≠ Char.ofNat 0)

/-- The characters `isspace` accepts in the C locale. -/
def isSpace (c : Char) : Bool :=
  c = ' ' || c = '\t' || c = '\n' || c = Char.ofNat 11 || c = Char.ofNat 12 || c = '\r'

/-- Value of the leading decimal digits of a string, continuing from `acc`. -/
def digitsValue (acc : Nat) : List Char → Nat
  | [] => acc
  | c :: cs => if c.isDigit then digitsValue (acc * 10 + (c.toNat - 48)) cs else acc

/-- The function `atoi`, as `(int) strtol(s, NULL, 10)`: white space, an
optional sign, decimal digits; the value is clamped to `long` and converted
to `int`. -/
def atoi (s : List Char) : Int :=
  match s.dropWhile isSpace with
  | '-' :: r => wrapInt (max (-(2 ^ 63)) (-(digitsValue 0 r : Int)))
  | '+' :: r => wrapInt (min (2 ^ 63 - 1) (digitsValue 0 r : Int))
  | r => wrapInt (min (2 ^ 63 - 1) (digitsValue 0 r : Int))

/-- The `GameMap`, `Tile` and `Creature` member functions that the handler
calls and whose definitions are not in the sources. -/
structure Externals where
  getPlayer : GameMap → List Char → Option PlayerRef
  getCreature : GameMap → List Char → Option Nat
  getTile : GameMap → Int → Int → Option Nat
  addPlayer : GameMap → Player → GameMap × Nat
  setMarkedForDigging : GameMap → Nat → Bool → PlayerRef → GameMap
  clearDestinations : Creature → Creature
  clearActionQueue : Creature → Creature

/-- The player a pointer points to. -/
def getPlayerByRef (gameMap : GameMap) : PlayerRef → Option Player
  | .me => some gameMap.localPlayer
  | .other i => gameMap.players.get? i

/-- Writes through a pointer to a player. -/
def setPlayerByRef (gameMap : GameMap) (r : PlayerRef) (p : Player) : GameMap :=
  match r with
  | .me => { gameMap with localPlayer := p }
  | .other i => { gameMap with players := gameMap.players.set i p }

/-- Modelled from the spec: `GameMap::removeCreature` is not in the sources;
the creature (the `i`-th of the map) leaves "the live set". -/
def removeCreature (gameMap : GameMap) (i : Nat) : GameMap :=
  { gameMap with creatures := gameMap.creatures.eraseIdx i }

/-- Modelled from the spec: `GameMap::addCreature` is not in the sources; the
creature joins the live set, at its end. -/
def addCreature (gameMap : GameMap) (c : Creature) : GameMap :=
  { gameMap with creatures := gameMap.creatures ++ [c] }

/-! ## Connection handler: socket operations -/

/-- The call `sem_wait(&curSock->semaphore)` on the `i`-th connection;
`none` when the caller has to wait. -/
def semWaitAt (w : World) (i : Nat) : Option World :=
  match w.clientSockets.get? i with
  | none => none
  | some s =>
    match sem_wait s with
    | none => none
    | some s1 => some { w with clientSockets := w.clientSockets.set i s1 }

/-- The call `sem_post(&curSock->semaphore)` on the `i`-th connection. -/
def semPostAt (w : World) (i : Nat) : World :=
  match w.clientSockets.get? i with
  | none => w
  | some s => { w with clientSockets := w.clientSockets.set i (sem_post s) }

/-- The call `curSock->send(str)` on the `i`-th connection, result dropped. -/
def sendAt (w : World) (i : Nat) (str : List Char) : World :=
  match w.clientSockets.get? i with
  | none => w
  | some s => { w with log := (Socket.send s str w.log).2 }

/-- The call `curSock->recv(tempString)` on the `i`-th connection: the bytes
read and the state afterwards, `none` when nothing has arrived and the caller
has to wait.  A read of length zero (the peer closed) is not used up. -/
def recv (w : World) (i : Nat) : Option (List Char × World) :=
  match w.clientSockets.get? i with
  | none => none
  | some s =>
    match s.incoming with
    | [] => none
    | [] :: _ => some ([], w)
    | (c :: cs) :: rest =>
      some (c :: cs, { w with clientSockets := w.clientSockets.set i { s with incoming := rest } })

/-! ## Player operations (`Player.cpp`) -/

/-- Whether the thread stays where it is: it waits on a semaphore or on a
read, or is in a call that does not return. -/
def Outcome.isBlocked {σ : Type} : Outcome σ → Bool
  | .blocked _ => true
  | _ => false

/-- Applies a function to the state an outcome carries. -/
def Outcome.map {σ τ : Type} (f : σ → τ) : Outcome σ → Outcome τ
  | .next s => .next (f s)
  | .done s => .done (f s)
  | .exited s => .exited (f s)
  | .fault s => .fault (f s)
  | .blocked s => .blocked (f s)

/-- The loop `for (j = ..; j > 0; --j) hand[j] = hand[j - 1]` of
`addCreatureToHand` and of `rotateCreaturesInHand`, from index `j` down
to 1. -/
def shiftBack {α : Type} (hand : List α) : Nat → List α
  | 0 => hand
  | j + 1 =>
    match hand.get? j with
    | some x => shiftBack (hand.set (j + 1) x) j
    | none => shiftBack hand j

/-- The function `Player::addCreatureToHand`: the vector afterwards, `none`
for a null pointer.  On an empty hand `push_back(c)`; otherwise
`push_back(NULL)`, the elements moved back by one from
`unsigned int j = creaturesInHand.size() - 1` down, and `c` put at index 0. -/
def addCreatureToHand (hand : List Creature) (c : Creature) : List (Option Creature) :=
  if hand.isEmpty then hand.map some ++ [some c]
  else (shiftBack (hand.map some ++ [none]) (toUInt hand.length)).set 0 (some c)

/-- The function `Player::pickUpCreature` called on the player `this` for the
`ci`-th creature of the map.  Meshes and render requests are not part of the
state; a hand holds creatures only, so a null pointer that `addCreatureToHand`
leaves in the vector is not kept (`reduceOption`). -/
def pickUpCreature (ext : Externals) (w : World) (this : PlayerRef) (ci : Nat) : Outcome World :=
  match getPlayerByRef w.gameMap this, w.gameMap.creatures.get? ci with
  | some player, some c =>
    if player.gameMapSet = false then .fault w
    else if c.hp ≤ 0 then .next w
    else
      let c1 := ext.clearActionQueue (ext.clearDestinations c)
      let player1 : Player :=
        { player with
          creaturesInHand := (addCreatureToHand player.creaturesInHand c1).reduceOption }
      let w1 : World :=
        { w with gameMap := setPlayerByRef (removeCreature w.gameMap ci) this player1 }
      if w.serverSocket || w.clientSocket then
        let w2 : World :=
          if w.serverSocket then
            queueServerNotification w1
              { ServerNotification.new .creaturePickUp with cre := some c1, player := some player1 }
          else w1
        if this = PlayerRef.me ∧ w.clientSocket = true then
          .next { w2 with log := w2.log ++ [Effect.clientNotification "creaturePickUp".toList] }
        else .next w2
      else .next w1
  | _, _ => .fault w

/-- The number of low bits that a significand of 24 bits cannot hold: the
least `k` with `a < 2 ^ (24 + k)`, searched with `fuel` steps. -/
def excessBits : Nat → Nat → Nat
  | 0, _ => 0
  | fuel + 1, a => if a < 2 ^ 24 then 0 else excessBits fuel (a / 2) + 1

/-- The conversion `static_cast<Ogre::Real>(n)` of an `int`: `Ogre::Real` is
`float`, so the value is rounded to a significand of 24 bits (to nearest, ties
to even).  An `int` has fewer than 64 bits. -/
def toReal (n : Int) : ℚ :=
  if n < 0 then
    -((roundHalfEven n.natAbs (2 ^ excessBits 64 n.natAbs) * 2 ^ excessBits 64 n.natAbs : Nat) : ℚ)
  else
    ((roundHalfEven n.natAbs (2 ^ excessBits 64 n.natAbs) * 2 ^ excessBits 64 n.natAbs : Nat) : ℚ)

/-- The `double` nearest to the literal `0.1`. -/
def pointOne : ℚ := 3602879701896397 / 36028797018963968

/-- The body of the inner `if` of `Player::dropCreature`: the creature at
`index` leaves the hand, joins the map and is positioned on the tile, at
`(static_cast<Ogre::Real>(t->x), static_cast<Ogre::Real>(t->y), 0.0)`; the
clients are informed. -/
def dropCreatureOnTile (w : World) (this : PlayerRef) (player : Player) (t : Tile)
    (index : Nat) (c : Creature) : World :=
  let player1 : Player :=
    { player with creaturesInHand := player.creaturesInHand.eraseIdx index }
  let c1 : Creature := { c with position := ⟨toReal t.x, toReal t.y, 0⟩ }
  let w1 : World := { w with gameMap := addCreature (setPlayerByRef w.gameMap this player1) c1 }
  if this = PlayerRef.me ∨ player.hasAI = true then
    if w.serverSocket then
      queueServerNotification w1
        { ServerNotification.new .creatureDrop with player := some player1, tile := some t }
    else if w.clientSocket = true ∧ this = PlayerRef.me then
      { w1 with log := w1.log ++ [Effect.clientNotification "creatureDrop".toList] }
    else w1
  else w1

/-- The function `Player::dropCreature(t, index)` called on the player `this`
for the `ti`-th tile of the map; the Boolean is the value returned.  The
member `gameMap` is dereferenced by the colour test and by the body of the
inner `if`: a null `gameMap` is a fault there, and so are a local player
without a seat and an index outside the hand. -/
def dropCreature (w : World) (this : PlayerRef) (ti : Nat) (index : Nat) :
    Outcome (Bool × World) :=
  match getPlayerByRef w.gameMap this, w.gameMap.tiles.get? ti with
  | some player, some t =>
    if player.creaturesInHand.isEmpty then .next (false, w)
    else
      match player.creaturesInHand.get? index with
      | none => .fault (false, w)
      | some tempCreature =>
        if t.fullness < 1 then
          if tempCreature.digRate > pointOne ∧ t.type = TileType.dirt then
            if player.gameMapSet then
              .next (true, dropCreatureOnTile w this player t index tempCreature)
            else .fault (false, w)
          else if t.type = TileType.claimed then
            if player.gameMapSet then
              match w.gameMap.localPlayer.seat with
              | none => .fault (false, w)
              | some seat =>
                if t.color = seat.color then
                  .next (true, dropCreatureOnTile w this player t index tempCreature)
                else .next (false, w)
            else .fault (false, w)
          else .next (false, w)
        else .next (false, w)
  | _, _ => .fault (false, w)

/-- One pass of the loop body of `Player::rotateCreaturesInHand(n)`: for
`n > 0` the last creature is kept aside, the elements are moved back by one
from `unsigned int j = creaturesInHand.size() - 1` down and the creature kept
aside is put at index 0; otherwise the first creature is erased and pushed
back. -/
def rotateStep (n : Int) (hand : List Creature) : List Creature :=
  if n > 0 then
    match hand.getLast? with
    | none => hand
    | some tempCreature => (shiftBack hand (toUInt (hand.length - 1))).set 0 tempCreature
  else
    match hand with
    | [] => []
    | tempCreature :: rest => rest ++ [tempCreature]

/-- The loop `for (unsigned int i = 0; i < count; ++i)` of
`rotateCreaturesInHand`, with `count - i` passes left. -/
def rotateLoop (n : Int) : Nat → List Creature → List Creature
  | 0, hand => hand
  | k + 1, hand => rotateLoop n k (rotateStep n hand)

/-- The function `Player::rotateCreaturesInHand(n)`: the hand afterwards.  The
bound of the loop is `(unsigned int) fabs((double) n)`; the render request is
not part of the state. -/
def rotateCreaturesInHand (n : Int) (hand : List Creature) : List Creature :=
  if hand.length < 2 then hand else rotateLoop n (toUInt n.natAbs) hand

/-! ## Connection handler (`clientHandlerThread`) -/

/-- The locals of `clientHandlerThread`; `curSock` is the position of the
connection in `clientSockets`. -/
structure Handler where
  curSock : Nat
  curPlayer : Option PlayerRef
  clientNick : List Char
  clientCommand : List Char
  arguments : List Char
  tempString : List Char
  tempString2 : List Char
  deriving DecidableEq, Repr

/-- The locals as they are initialised when the thread starts. -/
def Handler.new (curSock : Nat) : Handler :=
  { curSock := curSock, curPlayer := none, clientNick := "UNSET_CLIENT_NICKNAME".toList,
    clientCommand := [], arguments := [], tempString := [], tempString2 := [] }

/-- A step of the snapshot transfer: a `curSock->send(..)`, a
`curSock->recv(tempString)` whose result is thrown away, or the `++itr` of the
loop over the map lights, made on the iterator that the loop over the tiles
has left at `lastTile()`. -/
inductive Action where
  | send (str : List Char)
  | recv
  | increment
  deriving DecidableEq, Repr

/-- The loop over the players of the map, from index `i` on: for each player
other than `curPlayer` an `addseat` frame, a read, an `addplayer` frame, a
read. -/
def playerFrames (st : Streams) (curPlayer : Nat) : Nat → List Player → List Action
  | _, [] => []
  | i, tempPlayer :: rest =>
    (if curPlayer ≠ i then
      [Action.send (formatCommand "addseat".toList (st.seat tempPlayer.seat)), Action.recv,
       Action.send (formatCommand "addplayer".toList tempPlayer.nick), Action.recv]
    else []) ++ playerFrames st curPlayer (i + 1) rest

/-- The sends, the reads and the iterator increments of the `hello` branch
after the player was added to the map, in program order. -/
def handshakeScript (st : Streams) (gameMap : GameMap) (curPlayer : Nat) (turnsPerSecond : ℚ) :
    List Action :=
  [Action.send (formatCommand "newmap".toList []),
   Action.send (formatCommand "addseat".toList
     (st.seat ((gameMap.players.get? curPlayer).bind (fun p => p.seat)))),
   Action.send (formatCommand "turnsPerSecond".toList (st.real turnsPerSecond)),
   Action.send (formatCommand "addplayer".toList gameMap.localPlayer.nick)]
  ++ playerFrames st curPlayer 0 gameMap.players
  ++ gameMap.tiles.flatMap (fun t =>
      [Action.send (formatCommand "addtile".toList (st.tile t)), Action.recv])
  ++ gameMap.mapLights.flatMap (fun l =>
      [Action.send (formatCommand "addmaplight".toList (st.mapLight l)), Action.increment])
  ++ gameMap.rooms.flatMap (fun r =>
      [Action.send (formatCommand "addroom".toList (st.room r)), Action.recv])
  ++ gameMap.classDescriptions.flatMap (fun c =>
      [Action.send (formatCommand "addclass".toList (st.creatureClass c)), Action.recv])
  ++ gameMap.creatures.flatMap (fun c =>
      [Action.send (formatCommand "addcreature".toList (st.creature c)), Action.recv])

/-- The number of reads a list of steps makes. -/
def recvCount : List Action → Nat
  | [] => 0
  | Action.send _ :: rest => recvCount rest
  | Action.recv :: rest => recvCount rest + 1
  | Action.increment :: rest => recvCount rest

/-- The frames of the snapshot transfer as a list: `newmap`, the seat of the
new player, `turnsPerSecond`, the local player, then for every other player
of the map its seat and its name, then the tiles, the lights, the rooms, the
classes and the creatures. -/
def transcriptFrames (st : Streams) (gameMap : GameMap) (curPlayer : Nat) (turnsPerSecond : ℚ) :
    List (List Char) :=
  [formatCommand "newmap".toList [],
   formatCommand "addseat".toList
     (st.seat ((gameMap.players.get? curPlayer).bind (fun p => p.seat))),
   formatCommand "turnsPerSecond".toList (st.real turnsPerSecond),
   formatCommand "addplayer".toList gameMap.localPlayer.nick]
  ++ ((gameMap.players.enumFrom 0).filter (fun p => decide (curPlayer ≠ p.1))).flatMap
      (fun p => [formatCommand "addseat".toList (st.seat p.2.seat),
                 formatCommand "addplayer".toList p.2.nick])
  ++ gameMap.tiles.map (fun t => formatCommand "addtile".toList (st.tile t))
  ++ gameMap.mapLights.map (fun l => formatCommand "addmaplight".toList (st.mapLight l))
  ++ gameMap.rooms.map (fun r => formatCommand "addroom".toList (st.room r))
  ++ gameMap.classDescriptions.map
      (fun c => formatCommand "addclass".toList (st.creatureClass c))
  ++ gameMap.creatures.map (fun c => formatCommand "addcreature".toList (st.creature c))

/-- The number of reads of the snapshot transfer: two for every other player,
one for every tile, room, class and creature. -/
def transcriptReads (gameMap : GameMap) (curPlayer : Nat) : Nat :=
  2 * ((gameMap.players.enumFrom 0).filter (fun p => decide (curPlayer ≠ p.1))).length
    + gameMap.tiles.length + gameMap.rooms.length + gameMap.classDescriptions.length
    + gameMap.creatures.length

/-- Runs the steps on the `i`-th connection; the string is `tempString`.  The
Boolean tells whether all steps were made: it is `false` when a read found
nothing to read or an increment did not return, and the state is then the one
in which the thread stays.  Incrementing the iterator at `lastTile()` is
undefined behaviour; the tile map is a `std::map`, and with the red-black tree
of the GNU library the increment of the end iterator loops for ever when the
map is empty and returns when it is not (the iterator is not read
afterwards). -/
def runScript : List Action → Nat → World × List Char → (World × List Char) × Bool
  | [], _, s => (s, true)
  | Action.send str :: rest, i, s => runScript rest i (sendAt s.1 i str, s.2)
  | Action.recv :: rest, i, s =>
    match recv s.1 i with
    | none => (s, false)
    | some r => runScript rest i (r.2, r.1)
  | Action.increment :: rest, i, s =>
    if s.1.gameMap.tiles.isEmpty then (s, false) else runScript rest i s

/-- The frames a list of steps sends when the peer delivers `k` reads and no
more: the sends made before read number `k + 1`. -/
def sentOf : List Action → Nat → List (List Char)
  | [], _ => []
  | Action.send str :: rest, k => str :: sentOf rest k
  | Action.increment :: rest, k => sentOf rest k
  | Action.recv :: rest, k =>
    match k with
    | 0 => []
    | j + 1 => sentOf rest j

/-- The snapshot transfer as the list of its frames in order, each with the
mark `true` when a read of the peer follows it before the next frame:
`newmap`, the seat of the new player, `turnsPerSecond` and the local player,
not followed by a read; for every other player of the map its seat and its
name, each followed by a read; the tiles, each followed by a read; the lights,
not followed by a read; the rooms, the classes and the creatures, each
followed by a read. -/
def transcript (st : Streams) (gameMap : GameMap) (curPlayer : Nat) (turnsPerSecond : ℚ) :
    List (List Char × Bool) :=
  [(formatCommand "newmap".toList [], false),
   (formatCommand "addseat".toList
     (st.seat ((gameMap.players.get? curPlayer).bind (fun p => p.seat))), false),
   (formatCommand "turnsPerSecond".toList (st.real turnsPerSecond), false),
   (formatCommand "addplayer".toList gameMap.localPlayer.nick, false)]
  ++ ((gameMap.players.enumFrom 0).filter (fun p => decide (curPlayer ≠ p.1))).flatMap
      (fun p => [(formatCommand "addseat".toList (st.seat p.2.seat), true),
                 (formatCommand "addplayer".toList p.2.nick, true)])
  ++ gameMap.tiles.map (fun t => (formatCommand "addtile".toList (st.tile t), true))
  ++ gameMap.mapLights.map (fun l => (formatCommand "addmaplight".toList (st.mapLight l), false))
  ++ gameMap.rooms.map (fun r => (formatCommand "addroom".toList (st.room r), true))
  ++ gameMap.classDescriptions.map
      (fun c => (formatCommand "addclass".toList (st.creatureClass c), true))
  ++ gameMap.creatures.map (fun c => (formatCommand "addcreature".toList (st.creature c), true))

/-- The frames of a transcript that are sent when the peer delivers `k` reads
and no more: every frame up to the first one whose read is missing, that frame
included. -/
def sentWith : List (List Char × Bool) → Nat → List (List Char)
  | [], _ => []
  | (f, false) :: rest, k => f :: sentWith rest k
  | (f, true) :: rest, k =>
    match k with
    | 0 => [f]
    | j + 1 => f :: sentWith rest j

/-- The number of frames of a transcript that are followed by a read. -/
def acksOf : List (List Char × Bool) → Nat
  | [] => 0
  | (_, false) :: rest => acksOf rest
  | (_, true) :: rest => acksOf rest + 1

/-- A list of steps and a transcript agree: the steps send the frames of the
transcript whatever number of reads the peer delivers, and make one read for
every marked frame. -/
def Matches (steps : List Action) (frames : List (List Char × Bool)) : Prop :=
  (∀ k, sentOf steps k = sentWith frames k) ∧ recvCount steps = acksOf frames

/-- The `hello` branch from the call `parseCommand(tempString, tempString2,
clientNick)` on, given the result `r` of that call. -/
def handshakeAfterNick (ext : Externals) (st : Streams) (now : Nat) (w : World) (h : Handler)
    (r : ParseResult) : Outcome (World × Handler) :=
  match r.returned with
  | none =>
    .fault (w, { h with tempString := r.command, tempString2 := r.commandName,
                        clientNick := r.arguments })
  | some _ =>
    let w1 : World :=
      { w with chatMessages := w.chatMessages ++
          [⟨"SERVER_INFORMATION: ".toList, "Client nick is: ".toList ++ r.arguments, now⟩] }
    let added := ext.addPlayer w1.gameMap { Player.new with nick := r.arguments }
    let run := runScript (handshakeScript st added.1 added.2 w1.turnsPerSecond) h.curSock
      ({ w1 with gameMap := added.1 }, r.command)
    let h1 : Handler :=
      { h with tempString := run.1.2, tempString2 := r.commandName, clientNick := r.arguments,
               curPlayer := some (PlayerRef.other added.2) }
    if run.2 then .next (semPostAt run.1.1 h.curSock, h1) else .blocked (run.1.1, h1)

/-- The `hello` branch. -/
def handlerHello (ext : Externals) (st : Streams) (now : Nat) (w : World) (h : Handler) :
    Outcome (World × Handler) :=
  match semWaitAt
      { w with chatMessages := w.chatMessages ++
          [⟨"SERVER_INFORMATION: ".toList,
            "Client connect with version: ".toList ++ h.arguments, now⟩] }
      h.curSock with
  | none =>
    .blocked
      ({ w with chatMessages := w.chatMessages ++
          [⟨"SERVER_INFORMATION: ".toList,
            "Client connect with version: ".toList ++ h.arguments, now⟩] }, h)
  | some w2 =>
    match recv (sendAt w2 h.curSock (formatCommand "picknick".toList [])) h.curSock with
    | none => .blocked (sendAt w2 h.curSock (formatCommand "picknick".toList []), h)
    | some r =>
      handshakeAfterNick ext st now r.2 { h with tempString := r.1 }
        (parseCommand r.1 h.tempString2 h.clientNick)

/-- The `chat` branch, given the result of `processChatMessage(arguments)`:
the frame is sent to every connection under its semaphore (the loop is that of
`sendToAllClients`), then the message is put in the chat log. -/
def chatRelay (w : World) (h : Handler) : Option ChatMessage → Outcome (World × Handler)
  | none => .fault (w, h)
  | some newMessage =>
    match sendToAllClients w
        (formatCommand "chat".toList (newMessage.clientNick ++ ':' :: newMessage.message)) with
    | .next w1 => .next ({ w1 with chatMessages := w1.chatMessages ++ [newMessage] }, h)
    | other => other.map (fun w1 => (w1, h))

/-- The `chat` branch. -/
def handlerChat (now : Nat) (w : World) (h : Handler) : Outcome (World × Handler) :=
  chatRelay w h (processChatMessage now h.arguments)

/-- The two fields the `creaturePickUp` branch reads from the arguments:
`getline(array, 255, ':')` for the nickname, `getline(array, 255)` for the
creature name. -/
def pickUpFields (arguments : List Char) : List Char × List Char :=
  (cstr (getline ⟨arguments, true⟩ 255 ':').1,
   cstr (getline (getline ⟨arguments, true⟩ 255 ':').2 255 '\n').1)

/-- The `creaturePickUp` branch. -/
def handlerCreaturePickUp (ext : Externals) (w : World) (h : Handler) :
    Outcome (World × Handler) :=
  match ext.getPlayer w.gameMap (pickUpFields h.arguments).1,
      ext.getCreature w.gameMap (pickUpFields h.arguments).2 with
  | some tempPlayer, some tempCreature =>
    (pickUpCreature ext w tempPlayer tempCreature).map (fun w1 => (w1, h))
  | _, _ => .next (w, h)

/-- The three fields the `creatureDrop` and `markTile` branches read from the
arguments, as character arrays. -/
def threeFields (arguments : List Char) : List Char × List Char × List Char :=
  ((getline ⟨arguments, true⟩ 255 ':').1,
   (getline (getline ⟨arguments, true⟩ 255 ':').2 255 ':').1,
   (getline (getline (getline ⟨arguments, true⟩ 255 ':').2 255 ':').2 255 '\n').1)

/-- The `creatureDrop` branch; `dropCreature(tempTile)` drops the creature at
index 0 of the hand. -/
def handlerCreatureDrop (ext : Externals) (w : World) (h : Handler) :
    Outcome (World × Handler) :=
  match ext.getPlayer w.gameMap (cstr (threeFields h.arguments).1),
      ext.getTile w.gameMap (atoi (cstr (threeFields h.arguments).2.1))
        (atoi (cstr (threeFields h.arguments).2.2)) with
  | some tempPlayer, some tempTile =>
    (dropCreature w tempPlayer tempTile 0).map (fun r => (r.2, h))
  | _, _ => .next (w, h)

/-- The `markTile` branch. -/
def handlerMarkTile (ext : Externals) (w : World) (h : Handler) : Outcome (World × Handler) :=
  match ext.getTile w.gameMap (atoi (cstr (threeFields h.arguments).1))
      (atoi (cstr (threeFields h.arguments).2.1)) with
  | none => .next (w, h)
  | some tempTile =>
    match ext.getPlayer w.gameMap h.clientNick with
    | none => .next (w, h)
    | some tempPlayer =>
      .next ({ w with gameMap := (ext.setMarkedForDigging w.gameMap tempTile
                (decide (cstr (threeFields h.arguments).2.2 = "true".toList)) tempPlayer) }, h)

/-- The chain of `if (clientCommand.compare(..) == 0)` of the handler. -/
def dispatchCommand (ext : Externals) (st : Streams) (now : Nat) (w : World) (h : Handler) :
    Outcome (World × Handler) :=
  if h.clientCommand = "hello".toList then handlerHello ext st now w h
  else if h.clientCommand = "chat".toList then handlerChat now w h
  else if h.clientCommand = "creaturePickUp".toList then handlerCreaturePickUp ext w h
  else if h.clientCommand = "creatureDrop".toList then handlerCreatureDrop ext w h
  else if h.clientCommand = "markTile".toList then handlerMarkTile ext w h
  else if h.clientCommand = "ok".toList then .next (w, h)
  else .exited (w, h)

/-- The handler after `parseCommand(tempString, clientCommand, arguments)`,
given the result `r` of that call. -/
def afterParse (ext : Externals) (st : Streams) (now : Nat) (w : World) (h : Handler)
    (r : ParseResult) : Outcome (World × Handler) :=
  match r.returned with
  | none =>
    .fault (w, { h with tempString := r.command, clientCommand := r.commandName,
                        arguments := r.arguments })
  | some _ =>
    dispatchCommand ext st now w
      { h with tempString := r.command, clientCommand := r.commandName,
               arguments := r.arguments }

/-- The handler after a read that delivered `data`: the test of `charsRead`,
the test `index == std::string::npos` with `index` an `unsigned int`, then
the decoding and the dispatch. -/
def afterRecv (ext : Externals) (st : Streams) (now : Nat) (w : World) (h : Handler)
    (data : List Char) : Outcome (World × Handler) :=
  if toInt data.length ≤ 0 then
    .done ({ w with chatMessages := w.chatMessages ++
              [⟨"SERVER_INFORMATION: ".toList, "Client disconnect: ".toList ++ h.clientNick,
                now⟩] },
           { h with tempString := data })
  else if toUInt (find data ':') = npos then
    .next (w, { h with tempString := data })
  else
    afterParse ext st now w { h with tempString := data }
      (parseCommand data h.clientCommand h.arguments)

/-- One iteration of the loop of `clientHandlerThread`, at time `now`. -/
def clientHandlerIteration (ext : Externals) (st : Streams) (now : Nat) (w : World)
    (h : Handler) : Outcome (World × Handler) :=
  match recv w h.curSock with
  | none => .blocked (w, h)
  | some r => afterRecv ext st now r.2 h r.1

/-- The send semaphore of the `i`-th connection is held: its value is 0. -/
def HeldAt (w : World) (i : Nat) : Prop :=
  ∃ s, w.clientSockets.get? i = some s ∧ s.semaphore = 0

/-! ## Example states -/

/-- A stream that writes a whole number in decimal and any other rational as
numerator, `/`, denominator; game objects are written by their names. -/
def demoStreams : Streams :=
  { real := fun q => if q.den = 1 then showInt q.num else showInt q.num ++ '/' :: showNat q.den
    seat := fun s => match s with
      | none => "0".toList
      | some seat => showInt seat.color
    tile := fun t => showInt t.x ++ ':' :: showInt t.y
    mapLight := fun m => m.name
    room := fun r => r.name
    creatureClass := fun c => c.className
    creature := fun c => c.name }

/-- A map with a local player `host`, one tile, one room and one creature. -/
def demoMap : GameMap :=
  { localPlayer := { Player.new with nick := "host".toList, seat := some ⟨0⟩, gameMapSet := true }
    players := []
    creatures := [{ name := "goblin1".toList, hp := 10, digRate := 1, position := ⟨0, 0, 0⟩ }]
    tiles := [{ x := 3, y := 4, fullness := 0, type := TileType.dirt, color := 0 }]
    mapLights := []
    rooms := [{ name := "treasury".toList }]
    classDescriptions := [] }

/-- A server at turn 7 with two connections, descriptors 4 and 5, whose send
semaphores are free; `send` fails on the first. -/
def demoWorld : World :=
  { gameMap := demoMap
    turnNumber := 7
    turnsPerSecond := 2
    serverNotificationQueue := []
    clientSockets := [⟨4, 1, false, []⟩, ⟨5, 1, true, []⟩]
    chatMessages := []
    previousLeftoverTimes := []
    serverSocket := true
    clientSocket := false
    log := [] }

/-- A turn logic under which every turn raises one tile notification. -/
def demoLogic : TurnLogic :=
  { doTurn := fun _ gameMap =>
      (gameMap, [ServerNotification.new ServerNotificationType.tileFullnessChange]) }

/-- Lookups by name and by coordinates; a new player gets seat 1 and joins
the other players at the end. -/
def demoExternals : Externals :=
  { getPlayer := fun gameMap nick =>
      if gameMap.localPlayer.nick = nick then some PlayerRef.me
      else (gameMap.players.findIdx? (fun p => p.nick = nick)).map PlayerRef.other
    getCreature := fun gameMap name => gameMap.creatures.findIdx? (fun c => c.name = name)
    getTile := fun gameMap x y => gameMap.tiles.findIdx? (fun t => t.x = x ∧ t.y = y)
    addPlayer := fun gameMap p =>
      ({ gameMap with players := gameMap.players ++ [{ p with seat := some ⟨1⟩, gameMapSet := true }] },
        gameMap.players.length)
    setMarkedForDigging := fun gameMap _ _ _ => gameMap
    clearDestinations := fun c => c
    clearActionQueue := fun c => c }

/-- A creature of the example map, alive. -/
def demoGoblin : Creature :=
  { name := "goblin1".toList, hp := 10, digRate := 1, position := ⟨0, 0, 0⟩ }

/-- A creature held in a hand. -/
def demoImp : Creature :=
  { name := "imp".toList, hp := 5, digRate := 1, position := ⟨0, 0, 0⟩ }

/-- The example server with the given hand for its local player. -/
def demoWorldWithHand (hand : List Creature) : World :=
  { demoWorld with
    gameMap := { demoMap with localPlayer := { demoMap.localPlayer with creaturesInHand := hand } } }

/-- The creatures `imp0`, ..., `imp(k-1)`, all different. -/
def demoImps (k : Nat) : List Creature :=
  (List.range k).map (fun i =>
    { name := "imp".toList ++ showNat i, hp := 5, digRate := 1, position := ⟨0, 0, 0⟩ })

/-- The example server with the given hand for its local player and a single
dirt tile at `(x, 4)`. -/
def demoWorldWithTile (x : Int) (hand : List Creature) : World :=
  { demoWorld with
    gameMap :=
      { demoMap with
        localPlayer := { demoMap.localPlayer with creaturesInHand := hand }
        tiles := [{ x := x, y := 4, fullness := 0, type := TileType.dirt, color := 0 }] } }

/-! # Lemmas and theorems -/

/-! ## Machine integers: conversions in range -/

theorem wrapInt_of_range (i : Int) (h1 : -(2 ^ 31) ≤ i) (h2 : i < 2 ^ 31) : wrapInt i = i := by
  unfold wrapInt
  omega

theorem toInt_of_le (n : Nat) (h : n ≤ INT_MAX) : toInt n = (n : Int) := by
  unfold INT_MAX at h
  unfold toInt
  apply wrapInt_of_range <;> omega

theorem toInt_npos : toInt npos = -1 := by
  decide

theorem toSize_of_nonneg (n : Nat) (h : n < 2 ^ 64) : toSize (n : Int) = n := by
  unfold toSize
  omega

theorem toSize_of_neg (i : Int) (h1 : -(2 ^ 64) ≤ i) (h2 : i < 0) :
    toSize i = (2 ^ 64 + i).toNat := by
  unfold toSize
  omega

/-! ## Strings: searching -/

theorem findIdx_eq_none (ch : Char) (s : List Char) (h : ch ∉ s) : findIdx ch s = none := by
  induction s with
  | nil => rfl
  | cons x xs ih =>
    have hx : x ≠ ch := fun e => h (by simp [e])
    have hxs : ch ∉ xs := fun m => h (List.mem_cons_of_mem _ m)
    simp [findIdx, hx, ih hxs]

theorem findIdx_append (ch : Char) (p q : List Char) (h : ch ∉ p) :
    findIdx ch (p ++ ch :: q) = some p.length := by
  induction p with
  | nil => simp [findIdx]
  | cons x xs ih =>
    have hx : x ≠ ch := fun e => h (by simp [e])
    have hxs : ch ∉ xs := fun m => h (List.mem_cons_of_mem _ m)
    simp [findIdx, hx, ih hxs]

theorem findIdx_lt (ch : Char) (s : List Char) (i : Nat) (h : findIdx ch s = some i) :
    i < s.length := by
  induction s generalizing i with
  | nil => simp [findIdx] at h
  | cons x xs ih =>
    by_cases hx : x = ch
    · simp [findIdx, hx] at h
      subst h
      simp
    · simp only [findIdx, hx, if_false, Option.map_eq_some'] at h
      obtain ⟨j, hj, rfl⟩ := h
      have := ih j hj
      simp
      omega

theorem find_of_not_mem (ch : Char) (s : List Char) (h : ch ∉ s) : find s ch = npos := by
  simp [find, findIdx_eq_none ch s h]

theorem find_append (ch : Char) (p q : List Char) (h : ch ∉ p) :
    find (p ++ ch :: q) ch = p.length := by
  simp [find, findIdx_append ch p q h]

theorem find_cases (ch : Char) (s : List Char) : find s ch = npos ∨ find s ch < s.length := by
  unfold find
  cases h : findIdx ch s with
  | none => exact Or.inl rfl
  | some i => exact Or.inr (findIdx_lt ch s i h)

/-! ## Strings: substrings -/

theorem substr_mid (p m q : List Char) (k : Nat) (hk : k = m.length) :
    substr (p ++ (m ++ q)) p.length k = some m := by
  subst hk
  simp [substr]

theorem substr_tail (p q : List Char) (k : Nat) (hk : q.length ≤ k) :
    substr (p ++ q) p.length k = some q := by
  simp [substr, List.take_of_length_le hk]

theorem substr_zero_all (s : List Char) (k : Nat) (hk : s.length ≤ k) :
    substr s 0 k = some s := by
  simp [substr, List.take_of_length_le hk]

theorem substr_isSome (s : List Char) (pos k : Nat) (h : pos ≤ s.length) :
    ∃ r, substr s pos k = some r := by
  refine ⟨(s.drop pos).take k, ?_⟩
  simp [substr, Nat.not_lt.mpr h]

/-! ## Wire codec: decoding a leading frame -/

theorem formatCommand_length (c a : List Char) :
    (formatCommand c a).length = c.length + a.length + 3 := by
  simp [formatCommand]
  omega

theorem toSize_toInt_zero_succ : toSize (wrapInt (toInt 0 + 1)) = 1 := by
  decide

theorem toSize_pred (n : Nat) (h : n + 1 ≤ INT_MAX) :
    toSize (wrapInt (toInt (n + 1) - 1)) = n := by
  rw [toInt_of_le _ h]
  unfold INT_MAX at h
  rw [wrapInt_of_range _ (by omega) (by omega)]
  have e : (((n + 1 : Nat) : Int) - 1) = ((n : Nat) : Int) := by omega
  rw [e, toSize_of_nonneg _ (by omega)]

theorem toSize_succ (n : Nat) (h : n + 1 ≤ INT_MAX) :
    toSize (wrapInt (toInt n + 1)) = n + 1 := by
  rw [toInt_of_le _ (by omega)]
  unfold INT_MAX at h
  rw [wrapInt_of_range _ (by omega) (by omega)]
  have e : (((n : Nat) : Int) + 1) = ((n + 1 : Nat) : Int) := by omega
  rw [e, toSize_of_nonneg _ (by omega)]

theorem toSize_diff (m k : Nat) (h : m + k + 1 ≤ INT_MAX) :
    toSize (wrapInt (wrapInt (toInt (m + k + 1) - toInt m) - 1)) = k := by
  rw [toInt_of_le _ h, toInt_of_le _ (by omega)]
  unfold INT_MAX at h
  rw [wrapInt_of_range (((m + k + 1 : Nat) : Int) - ((m : Nat) : Int)) (by omega) (by omega)]
  rw [wrapInt_of_range _ (by omega) (by omega)]
  have e : (((m + k + 1 : Nat) : Int) - ((m : Nat) : Int) - 1) = ((k : Nat) : Int) := by omega
  rw [e, toSize_of_nonneg _ (by omega)]

theorem toSize_remaining (m r : Nat) (h1 : m ≤ INT_MAX) (h2 : m + 1 + r ≤ PTRDIFF_MAX) :
    toSize (((m + 1 + r : Nat) : Int) - toInt m + 1) = r + 2 := by
  rw [toInt_of_le _ h1]
  unfold PTRDIFF_MAX at h2
  have e : (((m + 1 + r : Nat) : Int) - ((m : Nat) : Int) + 1) = ((r + 2 : Nat) : Int) := by
    omega
  rw [e, toSize_of_nonneg _ (by omega)]

theorem parseCommand_of_substr (command n g x y z : List Char)
    (h1 : substr command (toSize (wrapInt (toInt (find command '<') + 1)))
      (toSize (wrapInt (toInt (find command ':') - 1))) = some x)
    (h2 : substr command (toSize (wrapInt (toInt (find command ':') + 1)))
      (toSize (wrapInt (wrapInt (toInt (find command '>') - toInt (find command ':')) - 1)))
        = some y)
    (h3 : substr command (toSize (wrapInt (toInt (find command '>') + 1)))
      (toSize ((command.length : Int) - toInt (find command '>') + 1)) = some z) :
    parseCommand command n g = ⟨some (decide (z.length > 0)), z, x, y⟩ := by
  have e : parseCommand command n g = parseCommandAssign command n g
      (substr command (toSize (wrapInt (toInt (find command '<') + 1)))
        (toSize (wrapInt (toInt (find command ':') - 1))))
      (substr command (toSize (wrapInt (toInt (find command ':') + 1)))
        (toSize (wrapInt (wrapInt (toInt (find command '>') - toInt (find command ':')) - 1))))
      (substr command (toSize (wrapInt (toInt (find command '>') + 1)))
        (toSize ((command.length : Int) - toInt (find command '>') + 1))) := rfl
  rw [e, h1, h2, h3]
  rfl

theorem find_lt_frame (c a rest : List Char) :
    find (formatCommand c a ++ rest) '<' = 0 := by
  simp [formatCommand, find, findIdx]

theorem find_colon_frame (c a rest : List Char) (hc : ':' ∉ c) :
    find (formatCommand c a ++ rest) ':' = c.length + 1 := by
  have e : formatCommand c a ++ rest = ('<' :: c) ++ ':' :: (a ++ '>' :: rest) := by
    simp [formatCommand]
  rw [e, find_append _ _ _ (by simpa using hc)]
  simp

theorem find_gt_frame (c a rest : List Char) (hc : '>' ∉ c) (ha : '>' ∉ a) :
    find (formatCommand c a ++ rest) '>' = c.length + 1 + a.length + 1 := by
  have e : formatCommand c a ++ rest = ('<' :: (c ++ ':' :: a)) ++ '>' :: rest := by
    simp [formatCommand]
  rw [e, find_append _ _ _ (by simp [hc, ha])]
  simp
  omega

theorem parseCommand_frame (c a rest n g : List Char)
    (hc1 : ':' ∉ c) (hc2 : '>' ∉ c) (ha : '>' ∉ a)
    (hlen : (formatCommand c a).length ≤ INT_MAX)
    (hrep : (formatCommand c a ++ rest).length ≤ PTRDIFF_MAX) :
    parseCommand (formatCommand c a ++ rest) n g
      = ⟨some (decide (rest.length > 0)), rest, c, a⟩ := by
  have hL := formatCommand_length c a
  have hbuf : (formatCommand c a ++ rest).length = c.length + 1 + a.length + 1 + 1 + rest.length := by
    rw [List.length_append, hL]
    omega
  rw [hbuf] at hrep
  rw [hL] at hlen
  have a2 := toSize_pred c.length (by omega)
  have a3 := toSize_succ (c.length + 1) (by omega)
  have a4 := toSize_diff (c.length + 1) a.length (by omega)
  have a5 := toSize_succ (c.length + 1 + a.length + 1) (by omega)
  have a6 := toSize_remaining (c.length + 1 + a.length + 1) rest.length (by omega) hrep
  have s1 : substr (formatCommand c a ++ rest) 1 c.length = some c := by
    have e : formatCommand c a ++ rest = ['<'] ++ (c ++ (':' :: (a ++ '>' :: rest))) := by
      simp [formatCommand]
    rw [e]
    exact substr_mid ['<'] c _ _ rfl
  have s2 : substr (formatCommand c a ++ rest) (c.length + 1 + 1) a.length = some a := by
    have e : formatCommand c a ++ rest = ('<' :: (c ++ [':'])) ++ (a ++ ('>' :: rest)) := by
      simp [formatCommand]
    have l : ('<' :: (c ++ [':'])).length = c.length + 1 + 1 := by simp
    rw [e, ← l]
    exact substr_mid _ a _ _ rfl
  have s3 : substr (formatCommand c a ++ rest) (c.length + 1 + a.length + 1 + 1)
      (rest.length + 2) = some rest := by
    have l : (formatCommand c a).length = c.length + 1 + a.length + 1 + 1 := by
      rw [hL]
      omega
    rw [← l]
    exact substr_tail _ rest _ (by omega)
  apply parseCommand_of_substr
  · rw [find_lt_frame, find_colon_frame c a rest hc1, toSize_toInt_zero_succ, a2]
    exact s1
  · rw [find_colon_frame c a rest hc1, find_gt_frame c a rest hc2 ha, a3, a4]
    exact s2
  · rw [find_gt_frame c a rest hc2 ha, a5, hbuf, a6]
    exact s3

/-! ## Wire codec: buffers without a closing delimiter -/

theorem parseCommand_def (command n g : List Char) :
    parseCommand command n g = parseCommandAssign command n g
      (substr command (toSize (wrapInt (toInt (find command '<') + 1)))
        (toSize (wrapInt (toInt (find command ':') - 1))))
      (substr command (toSize (wrapInt (toInt (find command ':') + 1)))
        (toSize (wrapInt (wrapInt (toInt (find command '>') - toInt (find command ':')) - 1))))
      (substr command (toSize (wrapInt (toInt (find command '>') + 1)))
        (toSize ((command.length : Int) - toInt (find command '>') + 1))) := rfl

theorem toSize_npos_succ : toSize (wrapInt (toInt npos + 1)) = 0 := by
  decide

theorem toSize_all (m : Nat) (h : m ≤ PTRDIFF_MAX) :
    toSize ((m : Int) - toInt npos + 1) = m + 2 := by
  rw [toInt_npos]
  unfold PTRDIFF_MAX at h
  have e : ((m : Int) - (-1) + 1) = ((m + 2 : Nat) : Int) := by omega
  rw [e, toSize_of_nonneg _ (by omega)]

theorem substr_rest_of_no_gt (buf : List Char) (h : '>' ∉ buf) (hrep : buf.length ≤ PTRDIFF_MAX) :
    substr buf (toSize (wrapInt (toInt (find buf '>') + 1)))
      (toSize ((buf.length : Int) - toInt (find buf '>') + 1)) = some buf := by
  rw [find_of_not_mem _ _ h, toSize_npos_succ, toSize_all _ hrep]
  exact substr_zero_all _ _ (by omega)

theorem parseCommandAssign_command (command n g : List Char) (r1 r2 : Option (List Char)) :
    (parseCommandAssign command n g r1 r2 (some command)).command = command := by
  cases r1 <;> cases r2 <;> rfl

theorem parseCommandAssign_commandName (command n g x : List Char)
    (r2 r3 : Option (List Char)) :
    (parseCommandAssign command n g (some x) r2 r3).commandName = x := by
  cases r2 <;> cases r3 <;> rfl

theorem parseCommandAssign_arguments (command n g x y : List Char) (r3 : Option (List Char)) :
    (parseCommandAssign command n g (some x) (some y) r3).arguments = y := by
  cases r3 <;> rfl

theorem parseCommand_no_gt (buf n g : List Char) (h : '>' ∉ buf)
    (hrep : buf.length ≤ PTRDIFF_MAX) : (parseCommand buf n g).command = buf := by
  rw [parseCommand_def, substr_rest_of_no_gt buf h hrep]
  exact parseCommandAssign_command _ _ _ _ _

theorem start_le_length (buf : List Char) (ch : Char) (h : buf.length ≤ INT_MAX) :
    toSize (wrapInt (toInt (find buf ch) + 1)) ≤ buf.length := by
  rcases find_cases ch buf with e | e
  · rw [e, toSize_npos_succ]
    exact Nat.zero_le _
  · rw [toSize_succ _ (by omega)]
    omega

theorem parseCommand_no_gt_returned (buf n g : List Char) (h : '>' ∉ buf)
    (hlen : buf.length ≤ INT_MAX) :
    (parseCommand buf n g).returned = some (decide (buf.length > 0)) := by
  have hrep : buf.length ≤ PTRDIFF_MAX := by
    unfold INT_MAX at hlen
    unfold PTRDIFF_MAX
    omega
  obtain ⟨x, h1⟩ := substr_isSome buf _ (toSize (wrapInt (toInt (find buf ':') - 1)))
    (start_le_length buf '<' hlen)
  obtain ⟨y, h2⟩ := substr_isSome buf _
    (toSize (wrapInt (wrapInt (toInt (find buf '>') - toInt (find buf ':')) - 1)))
    (start_le_length buf ':' hlen)
  rw [parseCommand_of_substr buf n g x y buf h1 h2 (substr_rest_of_no_gt buf h hrep)]

theorem not_mem_of_proper_prefix (c a buf : List Char) (hc : '>' ∉ c) (ha : '>' ∉ a)
    (hp : buf <+: formatCommand c a) (hne : buf ≠ formatCommand c a) : '>' ∉ buf := by
  have e : formatCommand c a = ('<' :: (c ++ ':' :: a)) ++ ['>'] := by
    simp [formatCommand]
  rw [e] at hp hne
  rcases List.prefix_concat_iff.mp hp with h | h
  · exact absurd h hne
  · intro hm
    have := h.mem hm
    simp [hc, ha] at this

/-! ## Wire codec: a prefix that reaches past the colon -/

theorem toSize_open_count (m : Nat) (h : m + 2 ≤ INT_MAX) :
    toSize (wrapInt (wrapInt (toInt npos - toInt m) - 1)) = 2 ^ 64 - (m + 2) := by
  rw [toInt_npos, toInt_of_le _ (by omega)]
  unfold INT_MAX at h
  rw [wrapInt_of_range (-1 - (m : Int)) (by omega) (by omega)]
  rw [wrapInt_of_range _ (by omega) (by omega)]
  rw [toSize_of_neg _ (by omega) (by omega)]
  omega

theorem parseCommand_open_frame (c a n g : List Char)
    (hc1 : ':' ∉ c) (hc2 : '>' ∉ c) (ha : '>' ∉ a)
    (hlen : (formatCommand c a).length ≤ INT_MAX) :
    parseCommand ('<' :: (c ++ ':' :: a)) n g
      = ⟨some true, '<' :: (c ++ ':' :: a), c, a⟩ := by
  rw [formatCommand_length] at hlen
  have hI : INT_MAX ≤ PTRDIFF_MAX := by decide
  have hno : '>' ∉ '<' :: (c ++ ':' :: a) := by simp [hc2, ha]
  have hl : ('<' :: (c ++ ':' :: a)).length = c.length + a.length + 2 := by
    simp
    omega
  have f1 : find ('<' :: (c ++ ':' :: a)) '<' = 0 := by simp [find, findIdx]
  have f2 : find ('<' :: (c ++ ':' :: a)) ':' = c.length + 1 := by
    have e : '<' :: (c ++ ':' :: a) = ('<' :: c) ++ ':' :: a := by simp
    rw [e, find_append _ _ _ (by simpa using hc1)]
    simp
  have f3 : find ('<' :: (c ++ ':' :: a)) '>' = npos := find_of_not_mem _ _ hno
  have s1 : substr ('<' :: (c ++ ':' :: a)) 1 c.length = some c := by
    have e : '<' :: (c ++ ':' :: a) = ['<'] ++ (c ++ (':' :: a)) := by simp
    rw [e]
    exact substr_mid ['<'] c _ _ rfl
  have s2 : substr ('<' :: (c ++ ':' :: a)) (c.length + 1 + 1) (2 ^ 64 - (c.length + 1 + 2))
      = some a := by
    have e : '<' :: (c ++ ':' :: a) = ('<' :: (c ++ [':'])) ++ a := by simp
    have l : ('<' :: (c ++ [':'])).length = c.length + 1 + 1 := by simp
    rw [e, ← l]
    exact substr_tail _ a _ (by unfold INT_MAX at hlen; omega)
  have s3 := substr_rest_of_no_gt _ hno (by omega)
  have r := parseCommand_of_substr ('<' :: (c ++ ':' :: a)) n g c a ('<' :: (c ++ ':' :: a))
    (by rw [f1, f2, toSize_toInt_zero_succ, toSize_pred _ (by omega)]; exact s1)
    (by rw [f2, f3, toSize_succ _ (by omega), toSize_open_count _ (by omega)]; exact s2)
    s3
  rw [r]
  simp

/-! ## Wire codec: frames longer than `INT_MAX` -/

theorem toSize_name_overlong : toSize (wrapInt (toInt (2 ^ 31 + 1) - 1)) = 2 ^ 64 - 2 ^ 31 := by
  decide

theorem parseCommand_overlong_name (c n g : List Char) (hc : ':' ∉ c)
    (hlen : c.length = 2 ^ 31) :
    (parseCommand (formatCommand c []) n g).commandName = c ++ [':', '>'] := by
  have e0 : formatCommand c [] = formatCommand c [] ++ [] := (List.append_nil _).symm
  have f1 : find (formatCommand c []) '<' = 0 := by
    rw [e0]
    exact find_lt_frame c [] []
  have f2 : find (formatCommand c []) ':' = 2 ^ 31 + 1 := by
    rw [e0, find_colon_frame c [] [] hc, hlen]
  have s1 : substr (formatCommand c []) 1 (2 ^ 64 - 2 ^ 31) = some (c ++ [':', '>']) := by
    have e : formatCommand c [] = ['<'] ++ (c ++ [':', '>']) := by simp [formatCommand]
    rw [e]
    exact substr_tail ['<'] _ _ (by rw [List.length_append, hlen]; decide)
  rw [parseCommand_def, f1, f2, toSize_toInt_zero_succ, toSize_name_overlong, s1]
  exact parseCommandAssign_commandName _ _ _ _ _ _

theorem toSize_args_overlong :
    toSize (wrapInt (wrapInt (toInt (0 + 1 + 2 ^ 31 + 1) - toInt (0 + 1)) - 1))
      = 2 ^ 64 - 2 ^ 31 := by
  decide

theorem toSize_args_start : toSize (wrapInt (toInt (0 + 1) + 1)) = 2 := by
  decide

theorem toSize_name_empty : toSize (wrapInt (toInt (0 + 1) - 1)) = 0 := by
  decide

theorem parseCommand_overlong_arguments (a rest n g : List Char) (ha : '>' ∉ a)
    (hlen : a.length = 2 ^ 31) (hrest : rest.length ≤ 2 ^ 31) :
    (parseCommand (formatCommand [] a ++ rest) n g).arguments = a ++ '>' :: rest := by
  have f1 : find (formatCommand [] a ++ rest) '<' = 0 := find_lt_frame [] a rest
  have f2 : find (formatCommand [] a ++ rest) ':' = 0 + 1 :=
    find_colon_frame [] a rest (by simp)
  have f3 : find (formatCommand [] a ++ rest) '>' = 0 + 1 + 2 ^ 31 + 1 := by
    rw [find_gt_frame [] a rest (by simp) ha, hlen]
    rfl
  have s1 : substr (formatCommand [] a ++ rest) 1 0 = some [] := by
    simp [substr, formatCommand]
  have s2 : substr (formatCommand [] a ++ rest) 2 (2 ^ 64 - 2 ^ 31) = some (a ++ '>' :: rest) := by
    have e : formatCommand [] a ++ rest = ['<', ':'] ++ (a ++ '>' :: rest) := by
      simp [formatCommand]
    rw [e]
    exact substr_tail ['<', ':'] _ _ (by
      rw [List.length_append, List.length_cons, hlen]
      have : (2 : Nat) ^ 31 + (2 ^ 31 + 1) ≤ 2 ^ 64 - 2 ^ 31 := by decide
      omega)
  rw [parseCommand_def, f1, f2, f3, toSize_toInt_zero_succ, toSize_name_empty, s1,
    toSize_args_start, toSize_args_overlong, s2]
  exact parseCommandAssign_arguments _ _ _ _ _ _

theorem append_cons_ne (l : List Char) (x : Char) (r : List Char) : l ++ x :: r ≠ l := by
  intro h
  have := congrArg List.length h
  rw [List.length_append] at this
  simp only [List.length_cons] at this
  omega

/-! ## Broadcast and dispatcher -/

theorem sem_post_sem_wait (s s1 : Socket) (h : sem_wait s = some s1) : sem_post s1 = s := by
  unfold sem_wait at h
  by_cases h0 : s.semaphore = 0
  · simp [h0] at h
  · simp only [h0, if_false, Option.some.injEq] at h
    subst h
    cases s with
    | mk fd semaphore sendOk incoming =>
      simp only [sem_post, Socket.mk.injEq, and_true, true_and]
      simp only at h0
      omega

theorem sem_wait_isSome (s : Socket) (h : 0 < s.semaphore) : ∃ s1, sem_wait s = some s1 := by
  unfold sem_wait
  have h0 : s.semaphore ≠ 0 := by omega
  exact ⟨_, if_neg h0⟩

theorem sem_wait_fd (s s1 : Socket) (h : sem_wait s = some s1) : s1.fd = s.fd := by
  unfold sem_wait at h
  by_cases h0 : s.semaphore = 0
  · simp [h0] at h
  · simp only [h0, if_false, Option.some.injEq] at h
    subst h
    rfl

theorem sendToAllClientsLoop_free (sockets : List Socket) (str : List Char) (log : List Effect)
    (hfree : ∀ s ∈ sockets, 0 < s.semaphore) :
    sendToAllClientsLoop sockets str log
      = ⟨sockets, log ++ sockets.map (fun s => Effect.send s.fd str), true⟩ := by
  induction sockets generalizing log with
  | nil => simp [sendToAllClientsLoop]
  | cons s rest ih =>
    obtain ⟨s1, h1⟩ := sem_wait_isSome s (hfree s (List.mem_cons_self _ _))
    have ih1 := ih (log ++ [Effect.send s.fd str])
      (fun t ht => hfree t (List.mem_cons_of_mem _ ht))
    simp only [sendToAllClientsLoop, h1, Socket.send, ih1, sem_post_sem_wait s s1 h1,
      sem_wait_fd s s1 h1, List.map_cons, List.append_assoc, List.singleton_append]

theorem sendToAllClients_free (w : World) (str : List Char)
    (hfree : ∀ s ∈ w.clientSockets, 0 < s.semaphore) :
    sendToAllClients w str
      = .next { w with log := w.log ++ w.clientSockets.map (fun s => Effect.send s.fd str) } := by
  simp only [sendToAllClients, sendToAllClientsLoop_free _ _ _ hfree, if_true]

theorem eventFrame_queue (st : Streams) (w : World) (q : List (Option ServerNotification))
    (ev : ServerNotification) :
    eventFrame st { w with serverNotificationQueue := q } ev = eventFrame st w ev := by
  unfold eventFrame
  rfl

theorem dispatch_frame (st : Streams) (w : World) (ev : ServerNotification)
    (q : List (Option ServerNotification)) (f : List Char)
    (hq : w.serverNotificationQueue = some ev :: q)
    (hf : eventFrame st w ev = .frame f)
    (hfree : ∀ s ∈ w.clientSockets, 0 < s.semaphore) :
    serverNotificationProcessorIteration st w
      = .next { w with
          serverNotificationQueue := q
          log := w.log ++ w.clientSockets.map (fun s => Effect.send s.fd f)
            ++ [Effect.threadUnlockForTurn ev.turnNumber] } := by
  have hfree1 : ∀ s ∈ ({ w with serverNotificationQueue := q } : World).clientSockets,
      0 < s.semaphore := hfree
  simp only [serverNotificationProcessorIteration, hq, eventFrame_queue, hf,
    sendToAllClients_free _ _ hfree1, afterBroadcast, threadUnlockForTurn]

/-! ## Simulation loop and queue -/

theorem queueServerNotification_turnNumber (w : World) (n : ServerNotification) :
    (queueServerNotification w n).turnNumber = w.turnNumber := rfl

theorem foldl_queue_turnNumber (ns : List ServerNotification) (w : World) :
    (ns.foldl queueServerNotification w).turnNumber = w.turnNumber := by
  induction ns generalizing w with
  | nil => rfl
  | cons n rest ih => rw [List.foldl_cons, ih, queueServerNotification_turnNumber]

theorem iteration_state (logic : TurnLogic) (leftover : ℚ) (stop : Bool) (w : World) :
    (creatureAIThreadIteration logic leftover stop w).state
      = { (List.foldl queueServerNotification
            { queueServerNotification { w with turnNumber := w.turnNumber + 1 }
                (ServerNotification.new .turnStarted) with
              gameMap := (logic.doTurn (w.turnNumber + 1) w.gameMap).1 }
            (logic.doTurn (w.turnNumber + 1) w.gameMap).2) with
          previousLeftoverTimes :=
            (leftover :: (List.foldl queueServerNotification
              { queueServerNotification { w with turnNumber := w.turnNumber + 1 }
                  (ServerNotification.new .turnStarted) with
                gameMap := (logic.doTurn (w.turnNumber + 1) w.gameMap).1 }
              (logic.doTurn (w.turnNumber + 1) w.gameMap).2).previousLeftoverTimes).take 10 } := by
  cases stop <;> rfl

theorem iteration_turnNumber (logic : TurnLogic) (leftover : ℚ) (stop : Bool) (w : World) :
    (creatureAIThreadIteration logic leftover stop w).state.turnNumber = w.turnNumber + 1 := by
  rw [iteration_state]
  exact foldl_queue_turnNumber _ _

theorem run_turnNumber (logic : TurnLogic) (leftovers : List ℚ) (w : World) :
    (creatureAIThreadRun logic leftovers w).turnNumber = w.turnNumber + leftovers.length := by
  induction leftovers generalizing w with
  | nil => rfl
  | cons x rest ih =>
    rw [creatureAIThreadRun, ih, iteration_turnNumber, List.length_cons]
    omega

theorem runQueueOps_invariant (ops : List QueueOp) (w : World) :
    (runQueueOps ops w).1 ++ (runQueueOps ops w).2.serverNotificationQueue
        = w.serverNotificationQueue ++ enqueuedBy w.turnNumber ops
      ∧ (runQueueOps ops w).2.turnNumber = w.turnNumber := by
  induction ops generalizing w with
  | nil => simp [runQueueOps, enqueuedBy]
  | cons op rest ih =>
    cases op with
    | enqueue n =>
      have h := ih (queueServerNotification w n)
      rw [queueServerNotification_turnNumber] at h
      simp only [runQueueOps, enqueuedBy]
      refine ⟨?_, h.2⟩
      rw [h.1]
      simp [queueServerNotification]
    | dequeue =>
      cases hq : w.serverNotificationQueue with
      | nil =>
        have h := ih w
        simp only [runQueueOps, dequeue, hq, enqueuedBy]
        rw [hq] at h
        exact h
      | cons event queue =>
        have h := ih { w with serverNotificationQueue := queue }
        simp only [runQueueOps, dequeue, hq, enqueuedBy]
        refine ⟨?_, h.2⟩
        simp only [List.cons_append]
        rw [h.1]

/-! ## Connection handler: dispatch -/

theorem toUInt_ne_npos (n : Nat) : toUInt n ≠ npos := by
  unfold toUInt npos
  omega

theorem sendToAllClients_not_exited (w : World) (str : List Char) :
    ∃ w1, sendToAllClients w str = .next w1 ∨ sendToAllClients w str = .blocked w1 := by
  unfold sendToAllClients
  by_cases hc : (sendToAllClientsLoop w.clientSockets str w.log).completed = true
  · exact ⟨_, Or.inl (if_pos hc)⟩
  · exact ⟨_, Or.inr (if_neg hc)⟩

theorem chatRelay_not_exited (w : World) (h : Handler) (m : Option ChatMessage) :
    (chatRelay w h m).isExited = false := by
  cases m with
  | none => rfl
  | some newMessage =>
    obtain ⟨w1, h1 | h1⟩ := sendToAllClients_not_exited w
      (formatCommand "chat".toList (newMessage.clientNick ++ ':' :: newMessage.message))
    · simp only [chatRelay, h1, Outcome.isExited]
    · simp only [chatRelay, h1, Outcome.map, Outcome.isExited]

theorem pickUpCreature_not_exited (ext : Externals) (w : World) (this : PlayerRef) (ci : Nat) :
    (pickUpCreature ext w this ci).isExited = false := by
  unfold pickUpCreature
  split
  · dsimp only
    split_ifs <;> rfl
  · rfl

theorem dropCreature_not_exited (w : World) (this : PlayerRef) (ti index : Nat) :
    (dropCreature w this ti index).isExited = false := by
  unfold dropCreature
  repeat' first | rfl | split

theorem map_isExited {σ τ : Type} (f : σ → τ) (o : Outcome σ) :
    (o.map f).isExited = o.isExited := by
  cases o <;> rfl

theorem handshakeAfterNick_not_exited (ext : Externals) (st : Streams) (now : Nat) (w : World)
    (h : Handler) (r : ParseResult) :
    (handshakeAfterNick ext st now w h r).isExited = false := by
  unfold handshakeAfterNick
  split
  · rfl
  · dsimp only
    split <;> rfl

theorem handlerHello_not_exited (ext : Externals) (st : Streams) (now : Nat) (w : World)
    (h : Handler) : (handlerHello ext st now w h).isExited = false := by
  unfold handlerHello
  split
  · rfl
  · split
    · rfl
    · exact handshakeAfterNick_not_exited _ _ _ _ _ _

theorem handlerCreaturePickUp_not_exited (ext : Externals) (w : World) (h : Handler) :
    (handlerCreaturePickUp ext w h).isExited = false := by
  unfold handlerCreaturePickUp
  split
  · rw [map_isExited]
    exact pickUpCreature_not_exited _ _ _ _
  · rfl

theorem handlerCreatureDrop_not_exited (ext : Externals) (w : World) (h : Handler) :
    (handlerCreatureDrop ext w h).isExited = false := by
  unfold handlerCreatureDrop
  split
  · rw [map_isExited]
    exact dropCreature_not_exited _ _ _ _
  · rfl

theorem handlerMarkTile_not_exited (ext : Externals) (w : World) (h : Handler) :
    (handlerMarkTile ext w h).isExited = false := by
  unfold handlerMarkTile
  split
  · rfl
  · split <;> rfl

/-! ## Chat messages -/

theorem toSize_toInt (n : Nat) (h : n ≤ INT_MAX) : toSize (toInt n) = n := by
  rw [toInt_of_le _ h]
  unfold INT_MAX at h
  exact toSize_of_nonneg _ (by omega)

theorem toSize_after (n m : Nat) (h : n + 1 + m ≤ INT_MAX) :
    toSize (((n + 1 + m : Nat) : Int) - toInt n - 1) = m := by
  rw [toInt_of_le _ (by omega)]
  unfold INT_MAX at h
  have e : (((n + 1 + m : Nat) : Int) - (n : Int) - 1) = ((m : Nat) : Int) := by omega
  rw [e, toSize_of_nonneg _ (by omega)]

theorem processChatMessage_def (now : Nat) (arguments : List Char) :
    processChatMessage now arguments = chatMessageOf now
      (substr arguments 0 (toSize (toInt (find arguments ':'))))
      (substr arguments (toSize (wrapInt (toInt (find arguments ':') + 1)))
        (toSize ((arguments.length : Int) - toInt (find arguments ':') - 1))) := rfl

theorem processChatMessage_split (now : Nat) (nick message : List Char) (hn : ':' ∉ nick)
    (hlen : (nick ++ ':' :: message).length ≤ INT_MAX) :
    processChatMessage now (nick ++ ':' :: message) = some ⟨nick, message, now⟩ := by
  have hl : (nick ++ ':' :: message).length = nick.length + 1 + message.length := by
    simp
    omega
  rw [hl] at hlen
  have s1 : substr (nick ++ ':' :: message) 0 nick.length = some nick := by
    simp [substr]
  have s2 : substr (nick ++ ':' :: message) (nick.length + 1) message.length
      = some message := by
    have e : nick ++ ':' :: message = (nick ++ [':']) ++ (message ++ []) := by simp
    have l : (nick ++ [':']).length = nick.length + 1 := by simp
    rw [e, ← l]
    exact substr_mid _ message _ _ rfl
  rw [processChatMessage_def, find_append _ _ _ hn, toSize_toInt _ (by omega),
    toSize_succ _ (by omega), hl, toSize_after _ _ hlen, s1, s2]
  rfl

theorem toSize_nick_overlong : toSize (toInt (2 ^ 31)) = 2 ^ 64 - 2 ^ 31 := by
  decide

theorem toSize_message_overlong : toSize (wrapInt (toInt (2 ^ 31) + 1)) = 2 ^ 64 - 2 ^ 31 + 1 := by
  decide

theorem substr_out_of_range (s : List Char) (pos n : Nat) (h : s.length < pos) :
    substr s pos n = none := by
  unfold substr
  exact if_pos h

theorem chatMessageOf_none (now : Nat) (r : Option (List Char)) :
    chatMessageOf now r none = none := by
  cases r <;> rfl

theorem processChatMessage_overlong (now : Nat) (nick message : List Char) (hn : ':' ∉ nick)
    (hlen : nick.length = 2 ^ 31) (hm : message.length ≤ 2 ^ 31) :
    processChatMessage now (nick ++ ':' :: message) = none := by
  have hl : (nick ++ ':' :: message).length < 2 ^ 64 - 2 ^ 31 + 1 := by
    rw [List.length_append, List.length_cons, hlen]
    have : (2 : Nat) ^ 31 + (2 ^ 31 + 1) < 2 ^ 64 - 2 ^ 31 + 1 := by decide
    omega
  rw [processChatMessage_def, find_append _ _ _ hn, hlen, toSize_message_overlong,
    substr_out_of_range _ _ _ hl]
  exact chatMessageOf_none _ _

/-! ## Snapshot transfer -/

theorem sendAt_of_get (w : World) (i : Nat) (s : Socket) (str : List Char)
    (hs : w.clientSockets.get? i = some s) :
    sendAt w i str = { w with log := w.log ++ [Effect.send s.fd str] } := by
  simp only [sendAt, hs, Socket.send]

theorem recv_of_get (w : World) (i : Nat) (s : Socket) (c : Char) (cs : List Char)
    (rest : List (List Char))
    (hs : w.clientSockets.get? i = some s) (hin : s.incoming = (c :: cs) :: rest) :
    recv w i = some (c :: cs,
      { w with clientSockets := w.clientSockets.set i { s with incoming := rest } }) := by
  simp only [recv, hs, hin]

theorem recv_of_empty (w : World) (i : Nat) (s : Socket)
    (hs : w.clientSockets.get? i = some s) (hin : s.incoming = []) :
    recv w i = none := by
  simp only [recv, hs, hin]

theorem get_set_self (l : List Socket) (i : Nat) (s t : Socket) (hs : l.get? i = some s) :
    (l.set i t).get? i = some t := by
  have hi : i < l.length := by
    rcases Nat.lt_or_ge i l.length with h | h
    · exact h
    · rw [List.get?_eq_none.mpr h] at hs
      cases hs
  simp [hi]

theorem runScript_sent (script : List Action) :
    ∀ (i : Nat) (w : World) (ts : List Char) (s : Socket),
      w.clientSockets.get? i = some s →
      (∀ d ∈ s.incoming, d ≠ []) →
      (w.gameMap.tiles ≠ [] ∨ Action.increment ∉ script) →
      (runScript script i (w, ts)).2 = decide (recvCount script ≤ s.incoming.length)
        ∧ (runScript script i (w, ts)).1.1.log
            = w.log ++ (sentOf script s.incoming.length).map (Effect.send s.fd)
        ∧ (runScript script i (w, ts)).1.1.clientSockets.get? i
            = some { s with incoming := s.incoming.drop (recvCount script) } := by
  induction script with
  | nil =>
    intro i w ts s hs _ _
    refine ⟨by simp [runScript, recvCount], by simp [runScript, sentOf], ?_⟩
    simp only [runScript, recvCount, List.drop_zero]
    exact hs
  | cons a rest ih =>
    intro i w ts s hs hne hinc
    have hinc1 : ∀ w1 : World, w1.gameMap = w.gameMap →
        (w1.gameMap.tiles ≠ [] ∨ Action.increment ∉ rest) := by
      intro w1 e
      rcases hinc with h | h
      · exact Or.inl (by rw [e]; exact h)
      · exact Or.inr (fun m => h (List.mem_cons_of_mem _ m))
    cases a with
    | send str =>
      have h1 := ih i { w with log := w.log ++ [Effect.send s.fd str] } ts s hs hne
        (hinc1 _ rfl)
      simp only [runScript, sendAt_of_get w i s str hs, sentOf, recvCount, List.map_cons]
      refine ⟨h1.1, ?_, h1.2.2⟩
      rw [h1.2.1]
      simp
    | increment =>
      have ht : w.gameMap.tiles.isEmpty = false := by
        rcases hinc with h | h
        · cases hh : w.gameMap.tiles with
          | nil => exact absurd hh h
          | cons x xs => rfl
        · exact absurd (List.mem_cons_self _ _) h
      have h1 := ih i w ts s hs hne (hinc1 _ rfl)
      simp only [runScript, ht, sentOf, recvCount]
      exact h1
    | recv =>
      cases hin : s.incoming with
      | nil =>
        simp only [runScript, recv_of_empty w i s hs hin, recvCount, sentOf, List.length_nil,
          List.map_nil, List.append_nil, List.drop_nil]
        refine ⟨by simp, ?_⟩
        rw [hs]
        cases s
        simp only at hin
        rw [hin]
        exact ⟨trivial, rfl⟩
      | cons d tl =>
        have hd : d ≠ [] := hne d (by rw [hin]; exact List.mem_cons_self _ _)
        cases d with
        | nil => exact absurd rfl hd
        | cons c cs =>
          have h1 := ih i
            { w with clientSockets := w.clientSockets.set i { s with incoming := tl } }
            (c :: cs) { s with incoming := tl }
            (get_set_self _ _ _ _ hs)
            (fun e he => hne e (by rw [hin]; exact List.mem_cons_of_mem _ he))
            (hinc1 _ rfl)
          simp only [runScript, recv_of_get w i s c cs tl hs hin, sentOf, recvCount,
            List.length_cons, List.drop_succ_cons]
          refine ⟨?_, h1.2.1, h1.2.2⟩
          rw [h1.1]
          simp

theorem sentOf_append (a b : List Action) :
    ∀ k, sentOf (a ++ b) k
      = if recvCount a ≤ k then sentOf a k ++ sentOf b (k - recvCount a) else sentOf a k := by
  induction a with
  | nil =>
    intro k
    show sentOf b k = if 0 ≤ k then sentOf b (k - 0) else []
    rw [if_pos (Nat.zero_le k), Nat.sub_zero]
  | cons x rest ih =>
    intro k
    cases x with
    | send str =>
      show str :: sentOf (rest ++ b) k
        = if recvCount rest ≤ k then (str :: sentOf rest k) ++ sentOf b (k - recvCount rest)
          else str :: sentOf rest k
      rw [ih k]
      split <;> rfl
    | increment =>
      show sentOf (rest ++ b) k
        = if recvCount rest ≤ k then sentOf rest k ++ sentOf b (k - recvCount rest)
          else sentOf rest k
      exact ih k
    | recv =>
      cases k with
      | zero =>
        show ([] : List (List Char)) = if recvCount rest + 1 ≤ 0 then _ else []
        rw [if_neg (by omega)]
      | succ j =>
        show sentOf (rest ++ b) j
          = if recvCount rest + 1 ≤ j + 1 then
              sentOf rest j ++ sentOf b (j + 1 - (recvCount rest + 1))
            else sentOf rest j
        rw [ih j, Nat.add_sub_add_right]
        by_cases h : recvCount rest ≤ j
        · rw [if_pos h, if_pos (by omega)]
        · rw [if_neg h, if_neg (by omega)]

theorem recvCount_append (a b : List Action) :
    recvCount (a ++ b) = recvCount a + recvCount b := by
  induction a with
  | nil => simp [recvCount]
  | cons x rest ih =>
    cases x with
    | send str => simp [recvCount, ih]
    | increment => simp [recvCount, ih]
    | recv =>
      simp [recvCount, ih]
      omega

theorem sentWith_append (x y : List (List Char × Bool)) :
    ∀ k, sentWith (x ++ y) k
      = if acksOf x ≤ k then sentWith x k ++ sentWith y (k - acksOf x) else sentWith x k := by
  induction x with
  | nil =>
    intro k
    show sentWith y k = if 0 ≤ k then sentWith y (k - 0) else []
    rw [if_pos (Nat.zero_le k), Nat.sub_zero]
  | cons e rest ih =>
    intro k
    obtain ⟨f, m⟩ := e
    cases m with
    | false =>
      show f :: sentWith (rest ++ y) k
        = if acksOf rest ≤ k then (f :: sentWith rest k) ++ sentWith y (k - acksOf rest)
          else f :: sentWith rest k
      rw [ih k]
      split <;> rfl
    | true =>
      cases k with
      | zero =>
        show [f] = if acksOf rest + 1 ≤ 0 then _ else [f]
        rw [if_neg (by omega)]
      | succ j =>
        show f :: sentWith (rest ++ y) j
          = if acksOf rest + 1 ≤ j + 1 then
              (f :: sentWith rest j) ++ sentWith y (j + 1 - (acksOf rest + 1))
            else f :: sentWith rest j
        rw [ih j, Nat.add_sub_add_right]
        by_cases h : acksOf rest ≤ j
        · rw [if_pos h, if_pos (by omega)]
          rfl
        · rw [if_neg h, if_neg (by omega)]

theorem acksOf_append (x y : List (List Char × Bool)) :
    acksOf (x ++ y) = acksOf x + acksOf y := by
  induction x with
  | nil => simp [acksOf]
  | cons e rest ih =>
    obtain ⟨f, m⟩ := e
    cases m with
    | false => simp [acksOf, ih]
    | true =>
      simp [acksOf, ih]
      omega

theorem sentWith_all (x : List (List Char × Bool)) :
    ∀ k, acksOf x ≤ k → sentWith x k = x.map (fun e => e.1) := by
  induction x with
  | nil =>
    intro k _
    rfl
  | cons e rest ih =>
    intro k hk
    obtain ⟨f, m⟩ := e
    cases m with
    | false =>
      simp only [sentWith, List.map_cons]
      rw [ih k hk]
    | true =>
      cases k with
      | zero => simp [acksOf] at hk
      | succ j =>
        simp only [sentWith, List.map_cons]
        rw [ih j (by simp only [acksOf] at hk; omega)]

theorem Matches_nil : Matches [] [] :=
  ⟨fun _ => rfl, rfl⟩

theorem Matches_append (a b : List Action) (x y : List (List Char × Bool))
    (h1 : Matches a x) (h2 : Matches b y) : Matches (a ++ b) (x ++ y) := by
  refine ⟨fun k => ?_, ?_⟩
  · rw [sentOf_append, sentWith_append, h1.1, h1.2, h2.1]
  · rw [recvCount_append, acksOf_append, h1.2, h2.2]

theorem Matches_acked (f : List Char) : Matches [Action.send f, Action.recv] [(f, true)] := by
  refine ⟨fun k => ?_, rfl⟩
  cases k <;> rfl

theorem Matches_plain (f : List Char) : Matches [Action.send f] [(f, false)] :=
  ⟨fun _ => rfl, rfl⟩

theorem Matches_light (f : List Char) :
    Matches [Action.send f, Action.increment] [(f, false)] :=
  ⟨fun _ => rfl, rfl⟩

theorem Matches_ackedList {α : Type} (f : α → List Char) (l : List α) :
    Matches (l.flatMap (fun x => [Action.send (f x), Action.recv]))
      (l.map (fun x => (f x, true))) := by
  induction l with
  | nil => exact Matches_nil
  | cons x rest ih =>
    rw [List.flatMap_cons, List.map_cons]
    exact Matches_append _ _ [(f x, true)] _ (Matches_acked (f x)) ih

theorem Matches_lightList {α : Type} (f : α → List Char) (l : List α) :
    Matches (l.flatMap (fun x => [Action.send (f x), Action.increment]))
      (l.map (fun x => (f x, false))) := by
  induction l with
  | nil => exact Matches_nil
  | cons x rest ih =>
    rw [List.flatMap_cons, List.map_cons]
    exact Matches_append _ _ [(f x, false)] _ (Matches_light (f x)) ih

theorem playerFrames_cons (st : Streams) (cur i : Nat) (x : Player) (rest : List Player) :
    playerFrames st cur i (x :: rest)
      = (if cur ≠ i then
          [Action.send (formatCommand "addseat".toList (st.seat x.seat)), Action.recv,
           Action.send (formatCommand "addplayer".toList x.nick), Action.recv]
        else []) ++ playerFrames st cur (i + 1) rest := rfl

theorem Matches_playerFrames (st : Streams) (cur : Nat) (players : List Player) (i : Nat) :
    Matches (playerFrames st cur i players)
      (((players.enumFrom i).filter (fun p => decide (cur ≠ p.1))).flatMap
        (fun p => [(formatCommand "addseat".toList (st.seat p.2.seat), true),
                   (formatCommand "addplayer".toList p.2.nick, true)])) := by
  induction players generalizing i with
  | nil => exact Matches_nil
  | cons x rest ih =>
    rw [playerFrames_cons, List.enumFrom_cons]
    by_cases hc : cur = i
    · rw [if_neg (not_not.mpr hc), List.filter_cons_of_neg (by simpa using hc)]
      exact ih (i + 1)
    · rw [if_pos hc, List.filter_cons_of_pos (by simpa using hc), List.flatMap_cons]
      refine Matches_append _ _ _ _ ?_ (ih (i + 1))
      exact Matches_append [Action.send _, Action.recv] [Action.send _, Action.recv]
        [(_, true)] [(_, true)] (Matches_acked _) (Matches_acked _)

theorem Matches_handshakeScript (st : Streams) (gameMap : GameMap) (cur : Nat) (tps : ℚ) :
    Matches (handshakeScript st gameMap cur tps) (transcript st gameMap cur tps) := by
  unfold handshakeScript transcript
  refine Matches_append _ _ _ _ (Matches_append _ _ _ _ (Matches_append _ _ _ _
    (Matches_append _ _ _ _ (Matches_append _ _ _ _ (Matches_append _ _ _ _ ?_
      (Matches_playerFrames st cur _ 0)) (Matches_ackedList _ _)) (Matches_lightList _ _))
    (Matches_ackedList _ _)) (Matches_ackedList _ _)) (Matches_ackedList _ _)
  exact ⟨fun _ => rfl, rfl⟩

theorem acksOf_ackedList {α : Type} (f : α → List Char) (l : List α) :
    acksOf (l.map (fun x => (f x, true))) = l.length := by
  induction l with
  | nil => rfl
  | cons x rest ih =>
    rw [List.map_cons, List.length_cons, ← ih]
    rfl

theorem acksOf_plainList {α : Type} (f : α → List Char) (l : List α) :
    acksOf (l.map (fun x => (f x, false))) = 0 := by
  induction l with
  | nil => rfl
  | cons x rest ih =>
    rw [List.map_cons, ← ih]
    rfl

theorem acksOf_pairs {α : Type} (f g : α → List Char) (l : List α) :
    acksOf (l.flatMap (fun x => [(f x, true), (g x, true)])) = 2 * l.length := by
  induction l with
  | nil => rfl
  | cons x rest ih =>
    rw [List.flatMap_cons, acksOf_append, ih, List.length_cons]
    show 2 + _ = _
    omega

theorem acksOf_transcript (st : Streams) (gameMap : GameMap) (cur : Nat) (tps : ℚ) :
    acksOf (transcript st gameMap cur tps) = transcriptReads gameMap cur := by
  unfold transcript transcriptReads
  rw [acksOf_append, acksOf_append, acksOf_append, acksOf_append, acksOf_append, acksOf_append,
    acksOf_pairs, acksOf_ackedList, acksOf_plainList, acksOf_ackedList, acksOf_ackedList,
    acksOf_ackedList]
  show 0 + _ + _ + 0 + _ + _ + _ = _
  omega

theorem frames_transcript (st : Streams) (gameMap : GameMap) (cur : Nat) (tps : ℚ) :
    (transcript st gameMap cur tps).map (fun e => e.1) = transcriptFrames st gameMap cur tps := by
  unfold transcript transcriptFrames
  simp only [List.map_append, List.map_map, List.map_flatMap, List.map_cons, List.map_nil,
    Function.comp_def]

theorem increment_not_mem_acked {α : Type} (f : α → List Char) (l : List α) :
    Action.increment ∉ l.flatMap (fun x => [Action.send (f x), Action.recv]) := by
  intro h
  obtain ⟨x, _, hx⟩ := List.mem_flatMap.mp h
  simp at hx

theorem increment_not_mem_playerFrames (st : Streams) (cur : Nat) (players : List Player) :
    ∀ i, Action.increment ∉ playerFrames st cur i players := by
  induction players with
  | nil =>
    intro i h
    cases h
  | cons x rest ih =>
    intro i h
    rw [playerFrames_cons] at h
    rcases List.mem_append.mp h with h1 | h1
    · split at h1
      · simp at h1
      · cases h1
    · exact ih (i + 1) h1

theorem increment_not_mem_handshakeScript (st : Streams) (gameMap : GameMap) (cur : Nat)
    (tps : ℚ) (hl : gameMap.mapLights = []) :
    Action.increment ∉ handshakeScript st gameMap cur tps := by
  unfold handshakeScript
  rw [hl]
  intro h
  simp only [List.flatMap_nil, List.append_nil, List.mem_append] at h
  rcases h with ((((h | h) | h) | h) | h) | h
  · simp at h
  · exact increment_not_mem_playerFrames st cur _ 0 h
  · exact increment_not_mem_acked _ _ h
  · exact increment_not_mem_acked _ _ h
  · exact increment_not_mem_acked _ _ h
  · exact increment_not_mem_acked _ _ h

theorem semPostAt_log (w : World) (i : Nat) : (semPostAt w i).log = w.log := by
  unfold semPostAt
  split <;> rfl

theorem semPostAt_incoming (w : World) (i : Nat) (s : Socket)
    (hs : w.clientSockets.get? i = some s) :
    ((semPostAt w i).clientSockets.get? i).map (fun t => t.incoming) = some s.incoming := by
  simp only [semPostAt, hs, get_set_self _ _ _ _ hs, Option.map_some', sem_post]

theorem handshakeAfterNick_sent (ext : Externals) (st : Streams) (now : Nat) (w : World)
    (h : Handler) (r : ParseResult) (b : Bool) (s : Socket)
    (hr : r.returned = some b)
    (hs : w.clientSockets.get? h.curSock = some s)
    (hne : ∀ d ∈ s.incoming, d ≠ [])
    (htiles : (ext.addPlayer w.gameMap { Player.new with nick := r.arguments }).1.tiles ≠ []
      ∨ (ext.addPlayer w.gameMap { Player.new with nick := r.arguments }).1.mapLights = []) :
    ∃ w1 h1,
      handshakeAfterNick ext st now w h r
        = (if transcriptReads (ext.addPlayer w.gameMap { Player.new with nick := r.arguments }).1
              (ext.addPlayer w.gameMap { Player.new with nick := r.arguments }).2
            ≤ s.incoming.length
          then .next (w1, h1) else .blocked (w1, h1))
      ∧ w1.log = w.log ++ (sentWith (transcript st
          (ext.addPlayer w.gameMap { Player.new with nick := r.arguments }).1
          (ext.addPlayer w.gameMap { Player.new with nick := r.arguments }).2
          w.turnsPerSecond) s.incoming.length).map (Effect.send s.fd)
      ∧ (w1.clientSockets.get? h.curSock).map (fun t => t.incoming)
          = some (s.incoming.drop (transcriptReads
              (ext.addPlayer w.gameMap { Player.new with nick := r.arguments }).1
              (ext.addPlayer w.gameMap { Player.new with nick := r.arguments }).2)) := by
  have hm := Matches_handshakeScript st
    (ext.addPlayer w.gameMap { Player.new with nick := r.arguments }).1
    (ext.addPlayer w.gameMap { Player.new with nick := r.arguments }).2 w.turnsPerSecond
  have hinc : (ext.addPlayer w.gameMap { Player.new with nick := r.arguments }).1.tiles ≠ []
      ∨ Action.increment ∉ handshakeScript st
          (ext.addPlayer w.gameMap { Player.new with nick := r.arguments }).1
          (ext.addPlayer w.gameMap { Player.new with nick := r.arguments }).2 w.turnsPerSecond := by
    rcases htiles with h1 | h1
    · exact Or.inl h1
    · exact Or.inr (increment_not_mem_handshakeScript _ _ _ _ h1)
  have run := runScript_sent (handshakeScript st
      (ext.addPlayer w.gameMap { Player.new with nick := r.arguments }).1
      (ext.addPlayer w.gameMap { Player.new with nick := r.arguments }).2 w.turnsPerSecond)
    h.curSock
    { w with
      chatMessages := w.chatMessages ++
        [⟨"SERVER_INFORMATION: ".toList, "Client nick is: ".toList ++ r.arguments, now⟩]
      gameMap := (ext.addPlayer w.gameMap { Player.new with nick := r.arguments }).1 }
    r.command s hs hne hinc
  rw [hm.2, acksOf_transcript, hm.1] at run
  obtain ⟨h1, h2, h3⟩ := run
  simp only [handshakeAfterNick, hr]
  by_cases hk : transcriptReads (ext.addPlayer w.gameMap { Player.new with nick := r.arguments }).1
      (ext.addPlayer w.gameMap { Player.new with nick := r.arguments }).2 ≤ s.incoming.length
  · rw [if_pos (by rw [h1]; exact decide_eq_true hk)]
    refine ⟨_, _, (if_pos hk).symm, ?_, ?_⟩
    · rw [semPostAt_log, h2]
    · rw [semPostAt_incoming _ _ _ h3]
  · rw [if_neg (by rw [h1]; simpa using hk)]
    refine ⟨_, _, (if_neg hk).symm, h2, ?_⟩
    rw [h3]
    rfl

/-- On a map without tiles and with a light the handshake does not get past
the first `addmaplight` frame, however many reads the peer delivers: the
increment of the tile iterator that follows the frame does not return. -/
theorem handshake_light_without_tiles :
    (handshakeAfterNick demoExternals demoStreams 0
        { demoWorld with
          gameMap := { demoMap with tiles := [], mapLights := [⟨"torch".toList⟩, ⟨"lamp".toList⟩] }
          clientSockets := [⟨4, 0, true, ["<ok:>".toList, "<ok:>".toList, "<ok:>".toList]⟩] }
        (Handler.new 0) ⟨some false, [], "setnick".toList, "bob".toList⟩).isBlocked = true
      ∧ (handshakeAfterNick demoExternals demoStreams 0
          { demoWorld with
            gameMap :=
              { demoMap with tiles := [], mapLights := [⟨"torch".toList⟩, ⟨"lamp".toList⟩] }
            clientSockets := [⟨4, 0, true, ["<ok:>".toList, "<ok:>".toList, "<ok:>".toList]⟩] }
          (Handler.new 0) ⟨some false, [], "setnick".toList, "bob".toList⟩).state.1.log
        = [Effect.send 4 "<newmap:>".toList, Effect.send 4 "<addseat:1>".toList,
           Effect.send 4 "<turnsPerSecond:2>".toList, Effect.send 4 "<addplayer:host>".toList,
           Effect.send 4 "<addmaplight:torch>".toList] := by
  decide

/-! ## A handshake that waits -/

theorem sendToAllClientsLoop_eq (sockets : List Socket) (str : List Char) (log : List Effect) :
    sendToAllClientsLoop sockets str log
      = ⟨sockets,
          log ++ (sockets.takeWhile (fun s => decide (0 < s.semaphore))).map
            (fun s => Effect.send s.fd str),
          sockets.all (fun s => decide (0 < s.semaphore))⟩ := by
  induction sockets generalizing log with
  | nil => simp [sendToAllClientsLoop]
  | cons s rest ih =>
    by_cases h0 : 0 < s.semaphore
    · obtain ⟨s1, h1⟩ := sem_wait_isSome s h0
      simp only [sendToAllClientsLoop, h1, Socket.send, ih, sem_post_sem_wait s s1 h1,
        sem_wait_fd s s1 h1, List.takeWhile_cons, h0, decide_True, if_true, List.map_cons,
        List.append_assoc, List.singleton_append, List.all_cons, Bool.true_and]
    · have hz : s.semaphore = 0 := by omega
      have h1 : sem_wait s = none := by
        unfold sem_wait
        exact if_pos hz
      simp [sendToAllClientsLoop, h1, List.takeWhile_cons, h0]

theorem sendToAllClients_held (w : World) (i : Nat) (str : List Char) (hh : HeldAt w i) :
    sendToAllClients w str
      = .blocked { w with
          log := w.log ++ (w.clientSockets.takeWhile (fun s => decide (0 < s.semaphore))).map
            (fun s => Effect.send s.fd str) } := by
  obtain ⟨s, hs, hz⟩ := hh
  have hmem : s ∈ w.clientSockets := List.get?_mem hs
  have hall : w.clientSockets.all (fun s => decide (0 < s.semaphore)) = false := by
    rw [List.all_eq_false]
    exact ⟨s, hmem, by simp [hz]⟩
  simp only [sendToAllClients, sendToAllClientsLoop_eq, hall]
  rfl

theorem sendAt_clientSockets (w : World) (i : Nat) (str : List Char) :
    (sendAt w i str).clientSockets = w.clientSockets := by
  unfold sendAt
  split <;> rfl

theorem held_sendAt (w : World) (i j : Nat) (str : List Char) (hh : HeldAt w i) :
    HeldAt (sendAt w j str) i := by
  unfold HeldAt
  rw [sendAt_clientSockets]
  exact hh

theorem held_recv (w : World) (i : Nat) (r : List Char × World) (hr : recv w i = some r)
    (hh : HeldAt w i) : HeldAt r.2 i := by
  obtain ⟨s, hs, hz⟩ := hh
  cases hin : s.incoming with
  | nil =>
    simp only [recv, hs, hin] at hr
    cases hr
  | cons d rest =>
    cases d with
    | nil =>
      simp only [recv, hs, hin, Option.some.injEq] at hr
      subst hr
      exact ⟨s, hs, hz⟩
    | cons c cs =>
      simp only [recv, hs, hin, Option.some.injEq] at hr
      subst hr
      exact ⟨{ s with incoming := rest }, get_set_self _ _ _ _ hs, hz⟩

theorem held_runScript (script : List Action) (i : Nat) :
    ∀ (w : World) (ts : List Char), HeldAt w i → HeldAt (runScript script i (w, ts)).1.1 i := by
  induction script with
  | nil =>
    intro w ts hh
    exact hh
  | cons a rest ih =>
    intro w ts hh
    cases a with
    | send str => exact ih _ _ (held_sendAt w i i str hh)
    | increment =>
      simp only [runScript]
      split
      · exact hh
      · exact ih _ _ hh
    | recv =>
      cases hr : recv w i with
      | none =>
        simp only [runScript, hr]
        exact hh
      | some r =>
        simp only [runScript, hr]
        exact ih _ _ (held_recv w i r hr hh)

theorem held_semWaitAt (w w2 : World) (i : Nat) (s : Socket)
    (hs : w.clientSockets.get? i = some s) (hsem : s.semaphore = 1)
    (hw : semWaitAt w i = some w2) : HeldAt w2 i := by
  have h1 : sem_wait s = some { s with semaphore := s.semaphore - 1 } := by
    unfold sem_wait
    exact if_neg (by omega)
  simp only [semWaitAt, hs, h1, Option.some.injEq] at hw
  subst hw
  exact ⟨_, get_set_self _ _ _ _ hs, by simp [hsem]⟩

theorem semWaitAt_isSome (w : World) (i : Nat) (s : Socket)
    (hs : w.clientSockets.get? i = some s) (hsem : s.semaphore = 1) :
    ∃ w2, semWaitAt w i = some w2 := by
  have h1 : sem_wait s = some { s with semaphore := s.semaphore - 1 } := by
    unfold sem_wait
    exact if_neg (by omega)
  simp only [semWaitAt, hs, h1]
  exact ⟨_, rfl⟩

theorem held_handshakeAfterNick (ext : Externals) (st : Streams) (now : Nat) (w : World)
    (h : Handler) (r : ParseResult) (hh : HeldAt w h.curSock)
    (hb : (handshakeAfterNick ext st now w h r).isBlocked = true) :
    HeldAt (handshakeAfterNick ext st now w h r).state.1 h.curSock := by
  unfold handshakeAfterNick at hb ⊢
  cases hr : r.returned with
  | none =>
    rw [hr] at hb
    cases hb
  | some b =>
    rw [hr] at hb
    simp only at hb ⊢
    split at hb
    · cases hb
    · rename_i hrun
      rw [if_neg hrun]
      exact held_runScript _ _ _ _ hh

theorem held_handlerHello (ext : Externals) (st : Streams) (now : Nat) (w : World)
    (h : Handler) (s : Socket)
    (hs : w.clientSockets.get? h.curSock = some s) (hsem : s.semaphore = 1)
    (hb : (handlerHello ext st now w h).isBlocked = true) :
    HeldAt (handlerHello ext st now w h).state.1 h.curSock := by
  obtain ⟨w2, hw⟩ := semWaitAt_isSome
    { w with chatMessages := w.chatMessages ++
        [⟨"SERVER_INFORMATION: ".toList,
          "Client connect with version: ".toList ++ h.arguments, now⟩] }
    h.curSock s hs hsem
  have hh2 : HeldAt w2 h.curSock :=
    held_semWaitAt
      { w with chatMessages := w.chatMessages ++
          [⟨"SERVER_INFORMATION: ".toList,
            "Client connect with version: ".toList ++ h.arguments, now⟩] }
      w2 h.curSock s hs hsem hw
  unfold handlerHello at hb ⊢
  rw [hw] at hb ⊢
  simp only at hb ⊢
  cases hr : recv (sendAt w2 h.curSock (formatCommand "picknick".toList [])) h.curSock with
  | none =>
    exact held_sendAt _ _ _ _ hh2
  | some r =>
    rw [hr] at hb
    simp only at hb
    exact held_handshakeAfterNick ext st now r.2 { h with tempString := r.1 } _
      (held_recv _ _ r hr (held_sendAt _ _ _ _ hh2)) hb

/-! ## Floating-point values as text -/

theorem roundHalfEven_one (a : Nat) : roundHalfEven a 1 = a := by
  unfold roundHalfEven
  rw [Nat.mod_one, Nat.div_one]
  rfl

theorem expUp_spec : ∀ (fuel a b : Nat), 0 < b → b ≤ a → a < b * 10 ^ (fuel + 1) →
    b * 10 ^ expUp fuel a b ≤ a ∧ a < b * 10 ^ (expUp fuel a b + 1) := by
  intro fuel
  induction fuel with
  | zero =>
    intro a b _ hba hlt
    exact ⟨by simpa [expUp] using hba, by simpa [expUp] using hlt⟩
  | succ fuel ih =>
    intro a b hb hba hlt
    by_cases h : b * 10 ≤ a
    · have e : expUp (fuel + 1) a b = expUp fuel a (b * 10) + 1 := by
        show (if b * 10 ≤ a then expUp fuel a (b * 10) + 1 else 0) = _
        rw [if_pos h]
      have hlt1 : a < b * 10 * 10 ^ (fuel + 1) := by
        rw [Nat.mul_assoc, ← Nat.pow_succ']
        exact hlt
      obtain ⟨h1, h2⟩ := ih a (b * 10) (by omega) h hlt1
      rw [e]
      constructor
      · rw [Nat.pow_succ', ← Nat.mul_assoc]
        exact h1
      · rw [Nat.pow_succ', ← Nat.mul_assoc]
        exact h2
    · have e : expUp (fuel + 1) a b = 0 := by
        show (if b * 10 ≤ a then expUp fuel a (b * 10) + 1 else 0) = _
        rw [if_neg h]
      rw [e]
      exact ⟨by simpa using hba, by simpa using Nat.lt_of_not_le h⟩

theorem decimalExponent_nat (a : Nat) (h0 : 0 < a) (h6 : a < 10 ^ 6) :
    ∃ e : Nat, decimalExponent a 1 = (e : Int) ∧ e ≤ 5 ∧ 10 ^ e ≤ a ∧ a < 10 ^ (e + 1) := by
  have hlt : a < 1 * 10 ^ (a + 1) := by
    rw [Nat.one_mul]
    exact Nat.lt_of_lt_of_le (Nat.lt_pow_self (by decide) a)
      (Nat.pow_le_pow_right (by decide) (Nat.le_succ a))
  obtain ⟨h1, h2⟩ := expUp_spec a a 1 (by decide) h0 hlt
  rw [Nat.one_mul] at h1 h2
  refine ⟨expUp a a 1, ?_, ?_, h1, h2⟩
  · unfold decimalExponent
    rw [if_pos (show 1 ≤ a from h0)]
  · have h3 : 10 ^ expUp a a 1 < 10 ^ 6 := Nat.lt_of_le_of_lt h1 h6
    have h4 := (Nat.pow_lt_pow_iff_right (by decide : 1 < 10)).mp h3
    omega

theorem showPos_nat (a : Nat) (h0 : 0 < a) (h6 : a < 10 ^ 6) : showPos a 1 = showNat a := by
  obtain ⟨e, he, he5, h1, h2⟩ := decimalExponent_nat a h0 h6
  have hs : significand a 1 (e : Int) = a * 10 ^ (5 - e) := by
    unfold significand
    rw [if_pos (by omega), roundHalfEven_one]
    congr 2
    omega
  have hm : a * 10 ^ (5 - e) < 10 ^ 6 := by
    have h3 : a * 10 ^ (5 - e) < 10 ^ (e + 1) * 10 ^ (5 - e) :=
      Nat.mul_lt_mul_of_pos_right h2 (pow_pos (by decide : 0 < 10) _)
    rw [← Nat.pow_add] at h3
    have h4 : e + 1 + (5 - e) = 6 := by omega
    rw [h4] at h3
    exact h3
  unfold showPos
  rw [he, hs, if_neg (Nat.ne_of_lt hm)]
  unfold showSix
  rw [if_pos ⟨by omega, by omega⟩]
  have hk : (5 - (e : Int)).toNat = 5 - e := by omega
  unfold showFixed
  rw [hk, Nat.mul_div_cancel _ (pow_pos (by decide : 0 < 10) _), Nat.mul_mod_left]
  unfold fracText
  rw [if_pos rfl, List.append_nil]

theorem showReal_int (n : Int) (h : n.natAbs < 10 ^ 6) : showReal (n : ℚ) = showInt n := by
  unfold showReal
  rw [Rat.intCast_num, Rat.intCast_den]
  rcases Int.eq_nat_or_neg n with ⟨k, rfl | rfl⟩
  · cases k with
    | zero => rfl
    | succ k =>
      have hk : ((k + 1 : Nat) : Int).natAbs = k + 1 := Int.natAbs_ofNat (k + 1)
      rw [hk] at h
      rw [if_neg (by omega), if_neg (by omega), hk]
      exact showPos_nat (k + 1) (Nat.succ_pos k) h
  · cases k with
    | zero => rfl
    | succ k =>
      have hk : (-((k + 1 : Nat) : Int)).natAbs = k + 1 := by
        rw [Int.natAbs_neg]
        exact Int.natAbs_ofNat (k + 1)
      rw [hk] at h
      rw [if_neg (by omega), if_pos (by omega), hk]
      exact congrArg (List.cons '-') (showPos_nat (k + 1) (Nat.succ_pos k) h)

/-! ## The hand of a player -/

theorem get?_append_length {α : Type} (P : List α) (x : α) (R : List α) :
    (P ++ x :: R).get? P.length = some x := by
  induction P with
  | nil => rfl
  | cons p P1 ih => exact ih

theorem set_append_length {α : Type} (P : List α) (x z : α) (R : List α) :
    (P ++ x :: R).set P.length z = P ++ z :: R := by
  induction P with
  | nil => rfl
  | cons p P1 ih => exact congrArg (List.cons p) ih

theorem shiftBack_append {α : Type} (P : List α) :
    ∀ (y : α) (Q : List α),
      shiftBack (P ++ y :: Q) P.length = (P ++ [y]).take 1 ++ P ++ Q := by
  induction P using List.reverseRecOn with
  | nil =>
    intro y Q
    rfl
  | append_singleton P x ih =>
    intro y Q
    have hget : (P ++ [x] ++ y :: Q).get? P.length = some x := by
      rw [List.append_assoc]
      exact get?_append_length P x (y :: Q)
    have hset : (P ++ [x] ++ y :: Q).set (P.length + 1) x = P ++ x :: x :: Q := by
      have e := set_append_length (P ++ [x]) y x Q
      rw [List.length_append, List.length_singleton] at e
      rw [e, List.append_assoc]
      rfl
    rw [List.length_append, List.length_singleton]
    show (match (P ++ [x] ++ y :: Q).get? P.length with
      | some z => shiftBack ((P ++ [x] ++ y :: Q).set (P.length + 1) z) P.length
      | none => shiftBack (P ++ [x] ++ y :: Q) P.length) = _
    rw [hget]
    show shiftBack ((P ++ [x] ++ y :: Q).set (P.length + 1) x) P.length = _
    rw [hset, ih x (x :: Q)]
    cases P with
    | nil => rfl
    | cons p P1 => simp

theorem set_zero_take_one {α : Type} (X R : List α) (v : α) (hX : X ≠ []) :
    (X.take 1 ++ R).set 0 v = v :: R := by
  cases X with
  | nil => exact absurd rfl hX
  | cons x X1 => rfl

theorem addCreatureToHand_front (hand : List Creature) (c : Creature)
    (hsz : hand.length < 2 ^ 32) :
    addCreatureToHand hand c = (c :: hand).map some := by
  unfold addCreatureToHand
  cases hand with
  | nil => rfl
  | cons x rest =>
    have hu : toUInt (x :: rest).length = ((x :: rest).map some).length := by
      rw [List.length_map]
      unfold toUInt
      exact Nat.mod_eq_of_lt hsz
    rw [if_neg (by simp), hu, shiftBack_append, List.append_nil,
      set_zero_take_one _ _ _ (by simp)]
    rfl

theorem addCreatureToHand_overlong (x c : Creature) (rest : List Creature)
    (hsz : (x :: rest).length = 2 ^ 32) :
    addCreatureToHand (x :: rest) c = some c :: (rest.map some ++ [none]) := by
  unfold addCreatureToHand
  have hu : toUInt (x :: rest).length = 0 := by
    rw [hsz]
    rfl
  rw [if_neg (by simp), hu]
  rfl
theorem get?_set_same {α : Type} (l : List α) :
    ∀ (i : Nat) (a b : α), l.get? i = some a → (l.set i b).get? i = some b := by
  induction l with
  | nil =>
    intro i a b h
    cases h
  | cons x xs ih =>
    intro i a b h
    cases i with
    | zero => rfl
    | succ k => exact ih k a b h

theorem getPlayerByRef_set (gameMap : GameMap) (this : PlayerRef) (p q : Player)
    (h : getPlayerByRef gameMap this = some q) :
    getPlayerByRef (setPlayerByRef gameMap this p) this = some p := by
  cases this with
  | me => rfl
  | other i => exact get?_set_same gameMap.players i q p h

theorem setPlayerByRef_creatures (gameMap : GameMap) (this : PlayerRef) (p : Player) :
    (setPlayerByRef gameMap this p).creatures = gameMap.creatures := by
  cases this <;> rfl

theorem pickUpCreature_alive (ext : Externals) (w : World) (this : PlayerRef) (ci : Nat)
    (player : Player) (c : Creature)
    (hp : getPlayerByRef w.gameMap this = some player)
    (hc : w.gameMap.creatures.get? ci = some c)
    (hmap : player.gameMapSet = true) (hpos : 0 < c.hp) :
    ∃ w1, pickUpCreature ext w this ci = .next w1
      ∧ w1.gameMap = setPlayerByRef (removeCreature w.gameMap ci) this
          { player with
            creaturesInHand := (addCreatureToHand player.creaturesInHand
              (ext.clearActionQueue (ext.clearDestinations c))).reduceOption } := by
  unfold pickUpCreature
  simp only [hp, hc, hmap]
  rw [if_neg (by decide), if_neg (not_le.mpr hpos)]
  split_ifs <;> exact ⟨_, rfl, rfl⟩

theorem cons_ne_of_length {α : Type} (a : α) (l1 l2 : List α) (h : l1.length ≠ l2.length) :
    a :: l1 ≠ a :: l2 :=
  fun e => h (congrArg List.length (List.tail_eq_of_cons_eq e))

theorem cons_ne_cons_cons {α : Type} (a x : α) (l : List α) : a :: l ≠ a :: x :: l :=
  cons_ne_of_length a l (x :: l) (Nat.ne_of_lt (Nat.lt_succ_self l.length))

theorem reduceOption_map_some {α : Type} (l : List α) : (l.map some).reduceOption = l := by
  induction l with
  | nil => rfl
  | cons x xs ih =>
    rw [List.map_cons, List.reduceOption_cons_of_some, ih]

theorem pickUpCreature_overlong_hand (ext : Externals) (w : World) (ci : Nat)
    (c c1 x : Creature) (rest : List Creature)
    (hc : w.gameMap.creatures.get? ci = some c)
    (hmap : w.gameMap.localPlayer.gameMapSet = true) (hpos : 0 < c.hp)
    (hh : w.gameMap.localPlayer.creaturesInHand = x :: rest)
    (h1 : ext.clearActionQueue (ext.clearDestinations c) = c1)
    (hsz : (x :: rest).length = 2 ^ 32) :
    (pickUpCreature ext w PlayerRef.me ci).state.gameMap.localPlayer.creaturesInHand
      = c1 :: rest := by
  obtain ⟨w1, e1, e2⟩ := pickUpCreature_alive ext w PlayerRef.me ci w.gameMap.localPlayer c
    rfl hc hmap hpos
  rw [e1]
  unfold Outcome.state
  rw [e2, hh, h1]
  unfold setPlayerByRef
  dsimp only
  rw [addCreatureToHand_overlong _ _ _ hsz, List.reduceOption_cons_of_some,
    List.reduceOption_append, reduceOption_map_some]
  exact congrArg (List.cons c1) (List.append_nil rest)

theorem excessBits_small (fuel a : Nat) (h : a < 2 ^ 24) : excessBits (fuel + 1) a = 0 := by
  show (if a < 2 ^ 24 then 0 else excessBits fuel (a / 2) + 1) = 0
  rw [if_pos h]

theorem significand_small (a : Nat) (h : a < 2 ^ 24) :
    roundHalfEven a (2 ^ excessBits 64 a) * 2 ^ excessBits 64 a = a := by
  rw [excessBits_small 63 a h, Nat.pow_zero, roundHalfEven_one, Nat.mul_one]

theorem significand_top :
    roundHalfEven (2 ^ 24) (2 ^ excessBits 64 (2 ^ 24)) * 2 ^ excessBits 64 (2 ^ 24) = 2 ^ 24 := by
  decide

theorem toReal_exact (n : Int) (h : n.natAbs ≤ 2 ^ 24) : toReal n = (n : ℚ) := by
  have hs : roundHalfEven n.natAbs (2 ^ excessBits 64 n.natAbs) * 2 ^ excessBits 64 n.natAbs
      = n.natAbs := by
    rcases Nat.lt_or_eq_of_le h with h1 | h1
    · exact significand_small _ h1
    · rw [h1]
      exact significand_top
  unfold toReal
  rw [hs]
  by_cases hn : n < 0
  · rw [if_pos hn]
    have e : ((n.natAbs : Int)) = -n := by omega
    have e2 : ((n.natAbs : ℚ)) = ((n.natAbs : Int) : ℚ) := (Int.cast_natCast n.natAbs).symm
    rw [e2, e]
    push_cast
    ring
  · rw [if_neg hn]
    have e : ((n.natAbs : Int)) = n := by omega
    have e2 : ((n.natAbs : ℚ)) = ((n.natAbs : Int) : ℚ) := (Int.cast_natCast n.natAbs).symm
    rw [e2, e]

theorem toReal_rounds : toReal 16777217 = 16777216 := by
  have hs : roundHalfEven (16777217 : Int).natAbs (2 ^ excessBits 64 (16777217 : Int).natAbs)
      * 2 ^ excessBits 64 (16777217 : Int).natAbs = 16777216 := by
    decide
  unfold toReal
  rw [if_neg (by decide), hs]
  norm_num

theorem dropCreatureOnTile_gameMap (w : World) (this : PlayerRef) (player : Player) (t : Tile)
    (index : Nat) (c : Creature) :
    (dropCreatureOnTile w this player t index c).gameMap
      = addCreature
          (setPlayerByRef w.gameMap this
            { player with creaturesInHand := player.creaturesInHand.eraseIdx index })
          { c with position := ⟨toReal t.x, toReal t.y, 0⟩ } := by
  unfold dropCreatureOnTile
  split_ifs <;> rfl

theorem getPlayerByRef_addCreature (gameMap : GameMap) (this : PlayerRef) (c : Creature) :
    getPlayerByRef (addCreature gameMap c) this = getPlayerByRef gameMap this := by
  cases this <;> rfl

theorem dropCreature_eval (w : World) (this : PlayerRef) (ti index : Nat) (player : Player)
    (t : Tile) (seat : Seat) (c : Creature)
    (hp : getPlayerByRef w.gameMap this = some player)
    (ht : w.gameMap.tiles.get? ti = some t)
    (hmap : player.gameMapSet = true)
    (hseat : w.gameMap.localPlayer.seat = some seat)
    (hc : player.creaturesInHand.get? index = some c) :
    dropCreature w this ti index
      = if t.fullness < 1 ∧ ((c.digRate > pointOne ∧ t.type = TileType.dirt)
            ∨ (t.type = TileType.claimed ∧ t.color = seat.color))
        then .next (true, dropCreatureOnTile w this player t index c)
        else .next (false, w) := by
  have hne : player.creaturesInHand.isEmpty = false := by
    cases hh : player.creaturesInHand with
    | nil =>
      rw [hh] at hc
      cases hc
    | cons x xs => rfl
  unfold dropCreature
  simp only [hp, ht, hne, hc, hmap, hseat]
  by_cases h1 : t.fullness < 1
  · by_cases h2 : c.digRate > pointOne ∧ t.type = TileType.dirt
    · simp [h1, h2]
    · by_cases h3 : t.type = TileType.claimed
      · by_cases h4 : t.color = seat.color
        · simp [h1, h2, h3, h4]
        · simp [h1, h2, h3, h4]
      · simp [h1, h2, h3]
  · simp [h1]

theorem rotateStep_back (n : Int) (P : List Creature) (y : Creature) (hn : 0 < n)
    (hsz : P.length < 2 ^ 32) :
    rotateStep n (P ++ [y]) = y :: P := by
  have hu : toUInt ((P ++ [y]).length - 1) = P.length := by
    rw [List.length_append, List.length_singleton, Nat.add_sub_cancel]
    unfold toUInt
    exact Nat.mod_eq_of_lt hsz
  unfold rotateStep
  rw [if_pos hn, List.getLast?_concat, hu]
  show (shiftBack (P ++ [y]) P.length).set 0 y = y :: P
  rw [shiftBack_append, List.append_nil, set_zero_take_one _ _ _ (by simp)]

theorem rotateStep_front (n : Int) (hand : List Creature) (hn : ¬ 0 < n) :
    rotateStep n hand = hand.rotate 1 := by
  unfold rotateStep
  rw [if_neg hn]
  cases hand with
  | nil => rfl
  | cons x rest =>
    rw [List.rotate_cons_succ, List.rotate_zero]

theorem exists_concat (hand : List Creature) (hne : hand ≠ []) :
    ∃ P y, hand = P ++ [y] := by
  induction hand using List.reverseRecOn with
  | nil => exact absurd rfl hne
  | append_singleton P y _ => exact ⟨P, y, rfl⟩

theorem rotateStep_back_rotate (n : Int) (hand : List Creature) (hn : 0 < n) (hne : hand ≠ [])
    (hsz : hand.length ≤ 2 ^ 32) :
    (rotateStep n hand).rotate 1 = hand ∧ (rotateStep n hand).length = hand.length := by
  obtain ⟨P, y, rfl⟩ := exists_concat hand hne
  have hP : P.length < 2 ^ 32 := by
    rw [List.length_append, List.length_singleton] at hsz
    omega
  rw [rotateStep_back n P y hn hP, List.rotate_cons_succ, List.rotate_zero]
  exact ⟨rfl, by simp⟩

theorem rotateLoop_front (n : Int) (hn : ¬ 0 < n) :
    ∀ (k : Nat) (hand : List Creature), rotateLoop n k hand = hand.rotate k := by
  intro k
  induction k with
  | zero =>
    intro hand
    exact (List.rotate_zero hand).symm
  | succ k ih =>
    intro hand
    show rotateLoop n k (rotateStep n hand) = _
    rw [ih, rotateStep_front n hand hn, List.rotate_rotate, Nat.add_comm]

theorem rotateLoop_back (n : Int) (hn : 0 < n) :
    ∀ (k : Nat) (hand : List Creature), hand ≠ [] → hand.length ≤ 2 ^ 32 →
      (rotateLoop n k hand).rotate k = hand ∧ (rotateLoop n k hand).length = hand.length := by
  intro k
  induction k with
  | zero =>
    intro hand _ _
    exact ⟨List.rotate_zero hand, rfl⟩
  | succ k ih =>
    intro hand hne hsz
    obtain ⟨h1, h2⟩ := rotateStep_back_rotate n hand hn hne hsz
    have hne1 : rotateStep n hand ≠ [] := by
      intro e
      rw [e] at h2
      exact hne (List.length_eq_zero.mp h2.symm)
    obtain ⟨h3, h4⟩ := ih (rotateStep n hand) hne1 (by rw [h2]; exact hsz)
    show (rotateLoop n k (rotateStep n hand)).rotate (k + 1) = hand
      ∧ (rotateLoop n k (rotateStep n hand)).length = hand.length
    refine ⟨?_, by rw [h4, h2]⟩
    rw [← List.rotate_rotate, h3, h1]

theorem toUInt_natAbs (n : Int) (h1 : -(2 ^ 31) < n) (h2 : n < 2 ^ 31) :
    toUInt n.natAbs = n.natAbs := by
  unfold toUInt
  apply Nat.mod_eq_of_lt
  omega

theorem rotate_short (hand : List Creature) (k : Nat) (h : hand.length < 2) :
    hand.rotate k = hand := by
  cases hand with
  | nil => exact List.rotate_nil k
  | cons x rest =>
    cases rest with
    | nil => exact List.rotate_singleton x k
    | cons y more =>
      simp only [List.length_cons] at h
      omega

theorem rotate_of_dvd (hand : List Creature) (k : Nat) (h : hand.length ∣ k) :
    hand.rotate k = hand := by
  obtain ⟨m, rfl⟩ := h
  exact List.rotate_length_mul hand m

theorem rotateCreaturesInHand_front (n : Int) (hand : List Creature)
    (h1 : -(2 ^ 31) < n) (hn : n ≤ 0) :
    rotateCreaturesInHand n hand = hand.rotate n.natAbs := by
  unfold rotateCreaturesInHand
  by_cases hs : hand.length < 2
  · rw [if_pos hs, rotate_short hand _ hs]
  · rw [if_neg hs, toUInt_natAbs n h1 (by omega), rotateLoop_front n (by omega)]

theorem rotateCreaturesInHand_back (n : Int) (hand : List Creature)
    (hn : 0 < n) (h2 : n < 2 ^ 31) (hsz : hand.length ≤ 2 ^ 32) :
    (rotateCreaturesInHand n hand).rotate n.natAbs = hand
      ∧ (rotateCreaturesInHand n hand).length = hand.length := by
  unfold rotateCreaturesInHand
  by_cases hs : hand.length < 2
  · rw [if_pos hs]
    exact ⟨rotate_short hand _ hs, rfl⟩
  · rw [if_neg hs, toUInt_natAbs n (by omega) h2]
    refine rotateLoop_back n hn _ hand ?_ hsz
    intro e
    rw [e] at hs
    exact hs (by decide)

theorem rotateCreaturesInHand_overlong (a y : Creature) (rest : List Creature)
    (hsz : (a :: (rest ++ [y])).length = 2 ^ 32 + 1) :
    rotateCreaturesInHand 1 (a :: (rest ++ [y])) = y :: (rest ++ [y]) := by
  have hu : toUInt ((a :: (rest ++ [y])).length - 1) = 0 := by
    rw [hsz]
    rfl
  have hl : (a :: (rest ++ [y])).getLast? = some y := List.getLast?_concat (a :: rest)
  unfold rotateCreaturesInHand
  rw [if_neg (by rw [hsz]; decide)]
  show rotateStep 1 (a :: (rest ++ [y])) = _
  unfold rotateStep
  rw [if_pos (by decide), hl]
  show (shiftBack (a :: (rest ++ [y])) (toUInt ((a :: (rest ++ [y])).length - 1))).set 0 y = _
  rw [hu]
  rfl

theorem demoImps_length (k : Nat) : (demoImps k).length = k := by
  unfold demoImps
  rw [List.length_map, List.length_range]

theorem demoImps_name (k : Nat) (z : Creature) (hz : z ∈ demoImps k) : z.name.head? = some 'i' := by
  unfold demoImps at hz
  obtain ⟨i, _, rfl⟩ := List.mem_map.mp hz
  rfl

/-! ## Claims on the wire codec -/

/-- C1 (as stated, refuted): a command name of 2^31 characters without a
reserved character does not come back from `parseCommand (formatCommand c a)`:
its position no longer fits the `int` that holds it. -/
theorem C1_round_trip_counterexample :
    ('<' ∉ List.replicate (2 ^ 31) 'a' ∧ ':' ∉ List.replicate (2 ^ 31) 'a'
        ∧ '>' ∉ List.replicate (2 ^ 31) 'a')
      ∧ (parseCommand (formatCommand (List.replicate (2 ^ 31) 'a') []) [] []).commandName
        ≠ List.replicate (2 ^ 31) 'a' := by
  have hne : ∀ ch : Char, ch ≠ 'a' → ch ∉ List.replicate (2 ^ 31) 'a' :=
    fun ch h m => h (List.eq_of_mem_replicate m)
  refine ⟨⟨hne _ (by decide), hne _ (by decide), hne _ (by decide)⟩, ?_⟩
  rw [parseCommand_overlong_name _ _ _ (hne _ (by decide)) (List.length_replicate _ _)]
  exact append_cons_ne _ _ _

/-- C1 (amended): for every command name `c` and argument string `a` without
the reserved characters, whose frame is no longer than `INT_MAX` characters,
`parseCommand` applied to the buffer `formatCommand c a` returns, sets
`commandName = c` and `arguments = a`, and leaves the buffer empty. -/
theorem C1_round_trip (c a n g : List Char)
    (hc : '<' ∉ c ∧ ':' ∉ c ∧ '>' ∉ c) (ha : '<' ∉ a ∧ ':' ∉ a ∧ '>' ∉ a)
    (hlen : (formatCommand c a).length ≤ INT_MAX) :
    parseCommand (formatCommand c a) n g = ⟨some false, [], c, a⟩ := by
  have hrep : (formatCommand c a ++ []).length ≤ PTRDIFF_MAX := by
    rw [List.append_nil]
    have hI : INT_MAX ≤ PTRDIFF_MAX := by decide
    omega
  have h := parseCommand_frame c a [] n g hc.2.1 hc.2.2 ha.2.2 hlen hrep
  rw [List.append_nil] at h
  rw [h]
  rfl

/-- Witness of C1 (amended): the frame `<hello:1>`. -/
theorem C1_round_trip_witness :
    parseCommand (formatCommand "hello".toList "1".toList) [] []
      = ⟨some false, [], "hello".toList, "1".toList⟩ :=
  C1_round_trip "hello".toList "1".toList [] [] (by decide) (by decide) (by decide)

/-- C2 (as stated, refuted): an argument string of 2^31 characters without
`<` and `>` is not what `parseCommand` extracts from
`formatCommand c a ++ rest`. -/
theorem C2_leading_frame_counterexample :
    ('<' ∉ List.replicate (2 ^ 31) 'a' ∧ '>' ∉ List.replicate (2 ^ 31) 'a')
      ∧ (parseCommand (formatCommand [] (List.replicate (2 ^ 31) 'a') ++ "<x:y>".toList)
          [] []).arguments ≠ List.replicate (2 ^ 31) 'a' := by
  have hne : ∀ ch : Char, ch ≠ 'a' → ch ∉ List.replicate (2 ^ 31) 'a' :=
    fun ch h m => h (List.eq_of_mem_replicate m)
  refine ⟨⟨hne _ (by decide), hne _ (by decide)⟩, ?_⟩
  rw [parseCommand_overlong_arguments _ _ _ _ (hne _ (by decide)) (List.length_replicate _ _)
    (by decide)]
  exact append_cons_ne _ _ _

/-- C2 (amended): for every command name `c` without `<`, `:`, `>`, every
argument string `a` without `<` and `>` (it may contain `:`) and every string
`rest`, when the frame is no longer than `INT_MAX` characters (and the buffer
no longer than a string can be), `parseCommand` applied to
`formatCommand c a ++ rest` returns, sets `commandName = c`, `arguments = a`
and leaves the buffer equal to `rest`; it returns `true` exactly when `rest`
is not empty. -/
theorem C2_leading_frame (c a rest n g : List Char)
    (hc : '<' ∉ c ∧ ':' ∉ c ∧ '>' ∉ c) (ha : '<' ∉ a ∧ '>' ∉ a)
    (hlen : (formatCommand c a).length ≤ INT_MAX)
    (hrep : (formatCommand c a ++ rest).length ≤ PTRDIFF_MAX) :
    parseCommand (formatCommand c a ++ rest) n g
      = ⟨some (decide (rest.length > 0)), rest, c, a⟩ :=
  parseCommand_frame c a rest n g hc.2.1 hc.2.2 ha.2 hlen hrep

/-- Witness of C2 (amended): the frame `<chat:bob:hi>` followed by `<ok:>`. -/
theorem C2_leading_frame_witness :
    parseCommand (formatCommand "chat".toList "bob:hi".toList ++ "<ok:>".toList) [] []
      = ⟨some true, "<ok:>".toList, "chat".toList, "bob:hi".toList⟩ :=
  C2_leading_frame "chat".toList "bob:hi".toList "<ok:>".toList [] []
    (by decide) (by decide) (by decide) (by decide)

/-- C3: for every buffer that is empty or a proper prefix of a frame
`formatCommand c a` with `c` and `a` free of the reserved characters,
`parseCommand` leaves the buffer exactly as it was; and when the buffer is no
longer than `INT_MAX` characters it returns, with `true` exactly when the
buffer is not empty. -/
theorem C3_incomplete_buffer_unchanged (c a buf n g : List Char)
    (hc : '<' ∉ c ∧ ':' ∉ c ∧ '>' ∉ c) (ha : '<' ∉ a ∧ ':' ∉ a ∧ '>' ∉ a)
    (hbuf : buf = [] ∨ (buf <+: formatCommand c a ∧ buf ≠ formatCommand c a))
    (hrep : buf.length ≤ PTRDIFF_MAX) :
    (parseCommand buf n g).command = buf
      ∧ (buf.length ≤ INT_MAX →
          (parseCommand buf n g).returned = some (decide (buf.length > 0))) := by
  have hno : '>' ∉ buf := by
    rcases hbuf with h | ⟨h1, h2⟩
    · rw [h]
      exact List.not_mem_nil _
    · exact not_mem_of_proper_prefix c a buf hc.2.2 ha.2.2 h1 h2
  exact ⟨parseCommand_no_gt buf n g hno hrep,
    fun hlen => parseCommand_no_gt_returned buf n g hno hlen⟩

/-- Witness of C3: the buffer `<hello:` is a proper prefix of `<hello:1>`. -/
theorem C3_incomplete_buffer_unchanged_witness :
    (parseCommand "<hello:".toList [] []).command = "<hello:".toList
      ∧ ("<hello:".toList.length ≤ INT_MAX →
          (parseCommand "<hello:".toList [] []).returned
            = some (decide ("<hello:".toList.length > 0))) :=
  C3_incomplete_buffer_unchanged "hello".toList "1".toList "<hello:".toList [] []
    (by decide) (by decide) (Or.inr (by decide)) (by decide)

/-- C4 (as stated, refuted): the buffer `<hello:1`, a proper prefix of the
frame `<hello:1>`, gives the same return value, command name and arguments as
the buffer `<hello:1><x:y>`, which begins with that complete frame. -/
theorem C4_need_more_data_counterexample :
    ("<hello:1".toList <+: formatCommand "hello".toList "1".toList
        ∧ "<hello:1".toList ≠ formatCommand "hello".toList "1".toList)
      ∧ "<hello:1><x:y>".toList = formatCommand "hello".toList "1".toList ++ "<x:y>".toList
      ∧ ((parseCommand "<hello:1".toList [] []).returned,
          (parseCommand "<hello:1".toList [] []).commandName,
          (parseCommand "<hello:1".toList [] []).arguments)
        = ((parseCommand "<hello:1><x:y>".toList [] []).returned,
          (parseCommand "<hello:1><x:y>".toList [] []).commandName,
          (parseCommand "<hello:1><x:y>".toList [] []).arguments) := by
  decide

/-- C4 (amended): `parseCommand` has no need-more-data result.  On a proper
prefix `<c:a` of a frame (no longer than `INT_MAX` characters) that reaches
past the colon it returns `true` with command name `c` and arguments `a`,
which is also its outcome on the complete frame `formatCommand c a` followed
by that prefix; on the empty buffer it returns `false` with an empty command
name and empty arguments, which is also its outcome on the complete frame
`formatCommand [] []`. -/
theorem C4_no_need_more_data_result (c a n g : List Char)
    (hc : '<' ∉ c ∧ ':' ∉ c ∧ '>' ∉ c) (ha : '<' ∉ a ∧ ':' ∉ a ∧ '>' ∉ a)
    (hlen : (formatCommand c a).length ≤ INT_MAX) :
    (parseCommand ('<' :: (c ++ ':' :: a)) n g
        = ⟨some true, '<' :: (c ++ ':' :: a), c, a⟩
      ∧ parseCommand (formatCommand c a ++ '<' :: (c ++ ':' :: a)) n g
        = ⟨some true, '<' :: (c ++ ':' :: a), c, a⟩)
      ∧ (parseCommand [] n g).returned = some false
      ∧ (parseCommand (formatCommand [] []) n g).returned = some false
      ∧ (parseCommand (formatCommand [] []) n g).commandName = []
      ∧ (parseCommand (formatCommand [] []) n g).arguments = [] := by
  have hI : INT_MAX ≤ PTRDIFF_MAX := by decide
  have hL := formatCommand_length c a
  have hrep : (formatCommand c a ++ '<' :: (c ++ ':' :: a)).length ≤ PTRDIFF_MAX := by
    rw [List.length_append, hL]
    simp only [List.length_cons, List.length_append]
    rw [hL] at hlen
    unfold INT_MAX at hlen
    unfold PTRDIFF_MAX
    omega
  have h2 := parseCommand_frame c a ('<' :: (c ++ ':' :: a)) n g hc.2.1 hc.2.2 ha.2.2 hlen hrep
  have h3 := parseCommand_no_gt_returned [] n g (List.not_mem_nil _) (Nat.zero_le _)
  have h4 := parseCommand_frame [] [] [] n g (List.not_mem_nil _) (List.not_mem_nil _)
    (List.not_mem_nil _) (by decide) (by decide)
  rw [List.append_nil] at h4
  refine ⟨⟨parseCommand_open_frame c a n g hc.2.1 hc.2.2 ha.2.2 hlen, ?_⟩, ?_, ?_, ?_, ?_⟩
  · rw [h2]
    simp
  · rw [h3]
    rfl
  · rw [h4]
    rfl
  · rw [h4]
  · rw [h4]

/-- Witness of C4 (amended): the prefix `<hello:1`. -/
theorem C4_no_need_more_data_result_witness :
    (parseCommand ('<' :: ("hello".toList ++ ':' :: "1".toList)) [] []
        = ⟨some true, '<' :: ("hello".toList ++ ':' :: "1".toList), "hello".toList, "1".toList⟩
      ∧ parseCommand (formatCommand "hello".toList "1".toList
          ++ '<' :: ("hello".toList ++ ':' :: "1".toList)) [] []
        = ⟨some true, '<' :: ("hello".toList ++ ':' :: "1".toList), "hello".toList,
            "1".toList⟩)
      ∧ (parseCommand [] [] []).returned = some false
      ∧ (parseCommand (formatCommand [] []) [] []).returned = some false
      ∧ (parseCommand (formatCommand [] []) [] []).commandName = []
      ∧ (parseCommand (formatCommand [] []) [] []).arguments = [] :=
  C4_no_need_more_data_result "hello".toList "1".toList [] [] (by decide) (by decide)
    (by decide)

/-! ## Claims on the broadcast and the dispatcher -/

/-- C5: for every list of connections whose send semaphores are free and
every frame string `str`, `sendToAllClients` calls `send` exactly once on each
connection, in list order, each time with `str`; and it makes the same calls
whatever result `r` the `send` calls report. -/
theorem C5_broadcast_reaches_every_connection (w : World) (str : List Char)
    (hfree : ∀ s ∈ w.clientSockets, 0 < s.semaphore) :
    sendToAllClients w str
        = .next { w with log := w.log ++ w.clientSockets.map (fun s => Effect.send s.fd str) }
      ∧ ∀ r : Socket → Bool,
          (sendToAllClients
              { w with clientSockets := w.clientSockets.map (fun s => { s with sendOk := r s }) }
              str).state.log
            = w.log ++ w.clientSockets.map (fun s => Effect.send s.fd str) := by
  refine ⟨sendToAllClients_free w str hfree, fun r => ?_⟩
  rw [sendToAllClients_free _ _ (by
    intro s hs
    simp only [List.mem_map] at hs
    obtain ⟨t, ht, rfl⟩ := hs
    exact hfree t ht)]
  simp [Outcome.state, Function.comp_def]

/-- Witness of C5: two connections, `send` failing on the first. -/
theorem C5_broadcast_reaches_every_connection_witness :
    sendToAllClients demoWorld "<newturn:42>".toList
        = .next { demoWorld with
            log := demoWorld.log
              ++ demoWorld.clientSockets.map (fun s => Effect.send s.fd "<newturn:42>".toList) }
      ∧ ∀ r : Socket → Bool,
          (sendToAllClients
              { demoWorld with
                clientSockets := demoWorld.clientSockets.map (fun s => { s with sendOk := r s }) }
              "<newturn:42>".toList).state.log
            = demoWorld.log
              ++ demoWorld.clientSockets.map (fun s => Effect.send s.fd "<newturn:42>".toList) :=
  C5_broadcast_reaches_every_connection demoWorld "<newturn:42>".toList (by decide)

/-- C6 (as stated, refuted): a destination whose first coordinate is 1000000
is broadcast as `1e+06`: the stream writes a floating-point value with six
significant digits and changes to exponent notation from 10^6 on, so the
coordinate is not printed in decimal. -/
theorem C6_add_destination_counterexample :
    (serverNotificationProcessorIteration { demoStreams with real := showReal }
        { demoWorld with
          serverNotificationQueue :=
            [some { ServerNotification.new .animatedObjectAddDestination with
                    turnNumber := 5, str := "E7".toList,
                    vec := ⟨1000000, 20, 0⟩ }] }).state.log
      = [Effect.send 4 "<animatedObjectAddDestination:E7:1e+06:20:0>".toList,
         Effect.send 5 "<animatedObjectAddDestination:E7:1e+06:20:0>".toList,
         Effect.threadUnlockForTurn 5] := by
  decide

/-- C6 (amended): for every `animatedObjectAddDestination` event carrying
entity name `event.str` and destination `event.vec`, whatever turn number the
event carries, the dispatcher sends to every connection exactly the frame
`formatCommand "animatedObjectAddDestination" (name:x:y:z)` with each
coordinate written as `operator<<` writes a floating-point value by default
(`showReal`), and then releases the turn of the event; a whole coordinate of
magnitude below 10^6 is written in decimal, as the integer is; for entity `E7`
and the target `(10, 20, 0)` the frame is
`<animatedObjectAddDestination:E7:10:20:0>`. -/
theorem C6_add_destination_frame (st : Streams) (w : World) (event : ServerNotification)
    (q : List (Option ServerNotification))
    (hq : w.serverNotificationQueue = some event :: q)
    (ht : event.type = .animatedObjectAddDestination)
    (hfree : ∀ s ∈ w.clientSockets, 0 < s.semaphore) :
    serverNotificationProcessorIteration { st with real := showReal } w
        = .next { w with
            serverNotificationQueue := q
            log := w.log
              ++ w.clientSockets.map (fun s => Effect.send s.fd
                  (formatCommand "animatedObjectAddDestination".toList
                    (event.str ++ ':' :: (showReal event.vec.x ++ ':' :: (showReal event.vec.y
                      ++ ':' :: showReal event.vec.z)))))
              ++ [Effect.threadUnlockForTurn event.turnNumber] }
      ∧ (∀ n : Int, n.natAbs < 10 ^ 6 → showReal (n : ℚ) = showInt n)
      ∧ (event.str = "E7".toList → event.vec = ⟨10, 20, 0⟩ →
          eventFrame { st with real := showReal } w event
            = .frame "<animatedObjectAddDestination:E7:10:20:0>".toList) := by
  refine ⟨dispatch_frame _ w event q _ hq ?_ hfree, showReal_int, fun hs hv => ?_⟩
  · simp only [eventFrame, ht]
  · have h10 : showReal 10 = "10".toList := by decide
    have h20 : showReal 20 = "20".toList := by decide
    have h0 : showReal 0 = "0".toList := by decide
    simp only [eventFrame, ht, hs, hv, h10, h20, h0]
    decide

/-- Witness of C6 (amended): entity `E7`, target `(10, 20, 0)`, raised at
turn 5 and dispatched at turn 7. -/
theorem C6_add_destination_frame_witness :
    (serverNotificationProcessorIteration { demoStreams with real := showReal }
        { demoWorld with
          serverNotificationQueue :=
            [some { ServerNotification.new .animatedObjectAddDestination with
                    turnNumber := 5, str := "E7".toList, vec := ⟨10, 20, 0⟩ }] }).state.log
      = [Effect.send 4 "<animatedObjectAddDestination:E7:10:20:0>".toList,
         Effect.send 5 "<animatedObjectAddDestination:E7:10:20:0>".toList,
         Effect.threadUnlockForTurn 5] := by
  rw [(C6_add_destination_frame demoStreams
    { demoWorld with
      serverNotificationQueue :=
        [some { ServerNotification.new .animatedObjectAddDestination with
                turnNumber := 5, str := "E7".toList, vec := ⟨10, 20, 0⟩ }] }
    { ServerNotification.new .animatedObjectAddDestination with
      turnNumber := 5, str := "E7".toList, vec := ⟨10, 20, 0⟩ }
    [] rfl rfl (by decide)).1]
  decide

/-- C7 (as stated, refuted): a turn-started event raised at turn 5 and
dispatched when the turn clock holds 7 is broadcast as `<newturn:7>`, not as
`<newturn:5>`. -/
theorem C7_newturn_counterexample :
    (serverNotificationProcessorIteration demoStreams
        { demoWorld with
          serverNotificationQueue :=
            [some { ServerNotification.new .turnStarted with turnNumber := 5 }] }).state.log
      = [Effect.send 4 "<newturn:7>".toList, Effect.send 5 "<newturn:7>".toList,
         Effect.threadUnlockForTurn 5] := by
  decide

/-- C7 (amended): for every turn-started event, whatever turn number the
event carries, the dispatcher sends to every connection exactly the frame
`<newturn:M>` where `M` is the value the turn clock holds at the moment the
event is dispatched. -/
theorem C7_newturn_carries_clock (st : Streams) (w : World) (event : ServerNotification)
    (q : List (Option ServerNotification))
    (hq : w.serverNotificationQueue = some event :: q)
    (ht : event.type = .turnStarted)
    (hfree : ∀ s ∈ w.clientSockets, 0 < s.semaphore) :
    serverNotificationProcessorIteration st w
      = .next { w with
          serverNotificationQueue := q
          log := w.log
            ++ w.clientSockets.map (fun s => Effect.send s.fd
                (formatCommand "newturn".toList (showNat w.turnNumber)))
            ++ [Effect.threadUnlockForTurn event.turnNumber] } := by
  refine dispatch_frame st w event q _ hq ?_ hfree
  simp only [eventFrame, ht]

/-- Witness of C7 (amended): an event of turn 5 dispatched at turn 7. -/
theorem C7_newturn_carries_clock_witness :
    serverNotificationProcessorIteration demoStreams
        { demoWorld with
          serverNotificationQueue :=
            [some { ServerNotification.new .turnStarted with turnNumber := 5 }] }
      = .next { demoWorld with
          serverNotificationQueue := []
          log := demoWorld.log
            ++ demoWorld.clientSockets.map (fun s => Effect.send s.fd
                (formatCommand "newturn".toList (showNat 7)))
            ++ [Effect.threadUnlockForTurn 5] } :=
  C7_newturn_carries_clock demoStreams
    { demoWorld with
      serverNotificationQueue :=
        [some { ServerNotification.new .turnStarted with turnNumber := 5 }] }
    { ServerNotification.new .turnStarted with turnNumber := 5 } [] rfl rfl (by decide)

/-- C8: for every event of kind `creaturePickUp`, `creatureDrop`,
`setObjectAnimationState` or `tileFullnessChange` whose player, creature,
object and tile pointers are set, the dispatcher sends to every connection
exactly one frame: `<creaturePickUp:nick:name>`, `<creatureDrop:nick:x:y>`,
`<setObjectAnimationState:name:state:flag>` with `flag` the text `true` or
`false` after the loop flag, and `<tileFullnessChange:fullness:x:y>`. -/
theorem C8_kind_to_frame (st : Streams) (w : World) (event : ServerNotification)
    (q : List (Option ServerNotification)) (f : List Char)
    (hq : w.serverNotificationQueue = some event :: q)
    (hfree : ∀ s ∈ w.clientSockets, 0 < s.semaphore)
    (hkind :
      (∃ player cre, event.type = .creaturePickUp ∧ event.player = some player
          ∧ event.cre = some cre
          ∧ f = formatCommand "creaturePickUp".toList (player.nick ++ ':' :: cre.name))
      ∨ (∃ player tile, event.type = .creatureDrop ∧ event.player = some player
          ∧ event.tile = some tile
          ∧ f = formatCommand "creatureDrop".toList
              (player.nick ++ ':' :: (showInt tile.x ++ ':' :: showInt tile.y)))
      ∨ (∃ obj, event.type = .setObjectAnimationState
          ∧ event.p = some (.animatedObject obj)
          ∧ f = formatCommand "setObjectAnimationState".toList
              (obj.name ++ ':' :: (event.str
                ++ ':' :: (if event.b then "true".toList else "false".toList))))
      ∨ (∃ tile, event.type = .tileFullnessChange ∧ event.tile = some tile
          ∧ f = formatCommand "tileFullnessChange".toList
              (st.real tile.fullness ++ ':' :: (showInt tile.x ++ ':' :: showInt tile.y)))) :
    serverNotificationProcessorIteration st w
      = .next { w with
          serverNotificationQueue := q
          log := w.log ++ w.clientSockets.map (fun s => Effect.send s.fd f)
            ++ [Effect.threadUnlockForTurn event.turnNumber] } := by
  refine dispatch_frame st w event q f hq ?_ hfree
  rcases hkind with ⟨player, cre, ht, hp, hc, rfl⟩ | ⟨player, tile, ht, hp, hc, rfl⟩
    | ⟨obj, ht, hp, rfl⟩ | ⟨tile, ht, hp, rfl⟩
  · simp only [eventFrame, ht, hp, hc]
  · simp only [eventFrame, ht, hp, hc]
  · simp only [eventFrame, ht, hp]
  · simp only [eventFrame, ht, hp]

/-- Witness of C8: the tile at `(3, 4)` with fullness 0 is broadcast as
`<tileFullnessChange:0:3:4>`. -/
theorem C8_kind_to_frame_witness :
    serverNotificationProcessorIteration demoStreams
        { demoWorld with
          serverNotificationQueue :=
            [some { ServerNotification.new .tileFullnessChange with
                    tile := some ⟨3, 4, 0, .dirt, 0⟩ }] }
      = .next { demoWorld with
          serverNotificationQueue := []
          log := demoWorld.log
            ++ demoWorld.clientSockets.map (fun s =>
                Effect.send s.fd "<tileFullnessChange:0:3:4>".toList)
            ++ [Effect.threadUnlockForTurn 0] } :=
  C8_kind_to_frame demoStreams
    { demoWorld with
      serverNotificationQueue :=
        [some { ServerNotification.new .tileFullnessChange with
                tile := some ⟨3, 4, 0, .dirt, 0⟩ }] }
    { ServerNotification.new .tileFullnessChange with tile := some ⟨3, 4, 0, .dirt, 0⟩ }
    [] "<tileFullnessChange:0:3:4>".toList rfl (by decide)
    (Or.inr (Or.inr (Or.inr ⟨⟨3, 4, 0, .dirt, 0⟩, rfl, rfl, by decide⟩)))

/-! ## Claims on the simulation loop and the queue -/

/-- C9: each iteration of the simulation loop, whether or not it sees the
stop flag, leaves the turn number one higher than it found it; starting from
turn `T` the turn number after `k` iterations is `T + k`, and starting from 0
it is 3 after 3 iterations. -/
theorem C9_turn_advances_by_one (logic : TurnLogic) (leftovers : List ℚ) (leftover : ℚ)
    (stop : Bool) (a b c : ℚ) (w : World) :
    (creatureAIThreadIteration logic leftover stop w).state.turnNumber = w.turnNumber + 1
      ∧ (creatureAIThreadRun logic leftovers w).turnNumber = w.turnNumber + leftovers.length
      ∧ (creatureAIThreadRun logic [a, b, c] { w with turnNumber := 0 }).turnNumber = 3 := by
  refine ⟨iteration_turnNumber logic leftover stop w, run_turnNumber logic leftovers w, ?_⟩
  rw [run_turnNumber]
  rfl

/-- C17: for every sequence of enqueue and dequeue operations, the events the
dispatcher receives are, in order, a leading part of the events that were in
the queue followed by the events enqueued; hence for every set `sel` of events
(those of one producer) the dispatcher receives the events of `sel` in the
order in which they were enqueued. -/
theorem C17_per_producer_fifo (ops : List QueueOp) (w : World)
    (sel : Option ServerNotification → Bool) :
    (runQueueOps ops w).1 <+: w.serverNotificationQueue ++ enqueuedBy w.turnNumber ops
      ∧ (runQueueOps ops w).1.filter sel
          <+: (w.serverNotificationQueue ++ enqueuedBy w.turnNumber ops).filter sel := by
  have h : (runQueueOps ops w).1 <+: w.serverNotificationQueue ++ enqueuedBy w.turnNumber ops :=
    ⟨_, (runQueueOps_invariant ops w).1⟩
  exact ⟨h, h.filter _⟩

/-- C18 (the code at the failing input): with one newline before the frame
`<chat:hi>`, `parseCommand` yields the command name `chat:` where it yields
`chat` for the frame alone; the arguments are `hi` in both cases. -/
theorem C18_newline_before_frame :
    (parseCommand ('\n' :: formatCommand "chat".toList "hi".toList) [] []).commandName
        = "chat:".toList
      ∧ (parseCommand (formatCommand "chat".toList "hi".toList) [] []).commandName
        = "chat".toList
      ∧ (parseCommand ('\n' :: formatCommand "chat".toList "hi".toList) [] []).arguments
        = "hi".toList := by
  decide

/-! ## Claims on the connection handler -/

/-- C11: for every decoded frame with command name `creaturePickUp`, when the
lookup of the player named in its first field or the lookup of the creature
named in its second field finds nothing, the handler leaves the whole shared
state as it was (map, hands, notification queue, log of calls) and goes on to
its next iteration: the process is not terminated. -/
theorem C11_failed_lookup_is_noop (ext : Externals) (st : Streams) (now : Nat) (w : World)
    (h : Handler) (hcmd : h.clientCommand = "creaturePickUp".toList)
    (hlookup : ext.getPlayer w.gameMap (pickUpFields h.arguments).1 = none
      ∨ ext.getCreature w.gameMap (pickUpFields h.arguments).2 = none) :
    dispatchCommand ext st now w h = .next (w, h) := by
  unfold dispatchCommand
  rw [if_neg (by rw [hcmd]; decide), if_neg (by rw [hcmd]; decide), if_pos hcmd]
  unfold handlerCreaturePickUp
  rcases hlookup with hp | hc
  · rw [hp]
  · rw [hc]
    cases ext.getPlayer w.gameMap (pickUpFields h.arguments).1 <;> rfl

/-- Witness of C11: `creaturePickUp:alice:goblin1` when no player is called
`alice`. -/
theorem C11_failed_lookup_is_noop_witness :
    pickUpFields "alice:goblin1".toList = ("alice".toList, "goblin1".toList)
      ∧ dispatchCommand demoExternals demoStreams 0 demoWorld
          { Handler.new 0 with
            clientCommand := "creaturePickUp".toList, arguments := "alice:goblin1".toList }
        = .next (demoWorld,
          { Handler.new 0 with
            clientCommand := "creaturePickUp".toList, arguments := "alice:goblin1".toList }) :=
  ⟨by decide,
    C11_failed_lookup_is_noop demoExternals demoStreams 0 demoWorld
      { Handler.new 0 with
        clientCommand := "creaturePickUp".toList, arguments := "alice:goblin1".toList }
      rfl (Or.inl (by decide))⟩

/-- C12 (as stated, refuted): the command name `hello` is not one of `chat`,
`creaturePickUp`, `creatureDrop`, `markTile` and `ok`, and a frame with that
name after the handshake does not terminate the process: the handler starts
the handshake again and waits for the nickname. -/
theorem C12_hello_counterexample :
    "hello".toList ∉ ["chat".toList, "creaturePickUp".toList, "creatureDrop".toList,
        "markTile".toList, "ok".toList]
      ∧ (dispatchCommand demoExternals demoStreams 0 demoWorld
          { Handler.new 0 with clientCommand := "hello".toList, clientNick := "bob".toList,
                               curPlayer := some (PlayerRef.other 0) }).isTerminated = false := by
  decide

/-- C12 (amended): for every frame the connection handler has decoded, the
dispatch reaches `exit(1)` if and only if the command name is not one of
`hello`, `chat`, `creaturePickUp`, `creatureDrop`, `markTile` and `ok`. -/
theorem C12_exit_iff_unknown_command (ext : Externals) (st : Streams) (now : Nat) (w : World)
    (h : Handler) :
    (dispatchCommand ext st now w h).isExited = true
      ↔ h.clientCommand ∉ ["hello".toList, "chat".toList, "creaturePickUp".toList,
          "creatureDrop".toList, "markTile".toList, "ok".toList] := by
  unfold dispatchCommand
  by_cases h1 : h.clientCommand = "hello".toList
  · rw [if_pos h1, handlerHello_not_exited, h1]
    decide
  rw [if_neg h1]
  by_cases h2 : h.clientCommand = "chat".toList
  · rw [if_pos h2, handlerChat, chatRelay_not_exited, h2]
    decide
  rw [if_neg h2]
  by_cases h3 : h.clientCommand = "creaturePickUp".toList
  · rw [if_pos h3, handlerCreaturePickUp_not_exited, h3]
    decide
  rw [if_neg h3]
  by_cases h4 : h.clientCommand = "creatureDrop".toList
  · rw [if_pos h4, handlerCreatureDrop_not_exited, h4]
    decide
  rw [if_neg h4]
  by_cases h5 : h.clientCommand = "markTile".toList
  · rw [if_pos h5, handlerMarkTile_not_exited, h5]
    decide
  rw [if_neg h5]
  by_cases h6 : h.clientCommand = "ok".toList
  · rw [if_pos h6, h6]
    show false = true ↔ _
    decide
  rw [if_neg h6]
  refine ⟨fun _ hm => ?_, fun _ => rfl⟩
  rw [List.mem_cons, List.mem_cons, List.mem_cons, List.mem_cons, List.mem_cons,
    List.mem_singleton] at hm
  rcases hm with e | e | e | e | e | e
  · exact h1 e
  · exact h2 e
  · exact h3 e
  · exact h4 e
  · exact h5 e
  · exact h6 e

/-- C13 (the code at the failing input): the test `index == npos` with
`index` an `unsigned int` never succeeds, and the buffer `garbage`, which has
no colon, is decoded and dispatched: the handler calls `exit(1)`. -/
theorem C13_buffer_without_colon_exits :
    (∀ data : List Char, toUInt (find data ':') ≠ npos)
      ∧ ':' ∉ "garbage".toList
      ∧ (clientHandlerIteration demoExternals demoStreams 0
          { demoWorld with clientSockets := [⟨4, 1, true, ["garbage".toList]⟩] }
          (Handler.new 0)).isExited = true :=
  ⟨fun data => toUInt_ne_npos _, by decide, by decide⟩

/-- C14 (the code at the failing input): when the read on the second
connection reports the close, the handler leaves its loop and both
connections are still in `clientSockets`; the next broadcast sends to the
closed connection too. -/
theorem C14_closed_connection_stays :
    clientHandlerIteration demoExternals demoStreams 0
        { demoWorld with clientSockets := [⟨4, 1, true, []⟩, ⟨5, 1, true, [[]]⟩] }
        (Handler.new 1)
      = .done
          ({ demoWorld with
              clientSockets := [⟨4, 1, true, []⟩, ⟨5, 1, true, [[]]⟩]
              chatMessages := [⟨"SERVER_INFORMATION: ".toList,
                "Client disconnect: UNSET_CLIENT_NICKNAME".toList, 0⟩] },
            Handler.new 1)
      ∧ (sendToAllClients
          (clientHandlerIteration demoExternals demoStreams 0
            { demoWorld with clientSockets := [⟨4, 1, true, []⟩, ⟨5, 1, true, [[]]⟩] }
            (Handler.new 1)).state.1 "<newturn:8>".toList).state.log
        = [Effect.send 4 "<newturn:8>".toList, Effect.send 5 "<newturn:8>".toList] := by
  decide

/-- C19 (as stated, refuted): for a nickname of 2^31 characters without a
colon, followed by `:hi`, `processChatMessage` does not yield the pair of the
nickname and `hi`: the second `substr` throws. -/
theorem C19_chat_counterexample :
    ':' ∉ List.replicate (2 ^ 31) 'a'
      ∧ processChatMessage 0 (List.replicate (2 ^ 31) 'a' ++ ':' :: "hi".toList) = none := by
  have hne : ':' ∉ List.replicate (2 ^ 31) 'a' :=
    fun m => absurd (List.eq_of_mem_replicate m) (by decide)
  exact ⟨hne, processChatMessage_overlong 0 _ _ hne (List.length_replicate _ _) (by decide)⟩

/-- C19 (amended): for every chat argument string `nick ++ ":" ++ message` of
at most `INT_MAX` characters in which `nick` contains no colon (`message`
may), `processChatMessage` yields the pair `(nick, message)`, and the handler
sends the frame `formatCommand "chat" (nick ++ ":" ++ message)`, which is
`formatCommand "chat" arguments`, exactly once to every connection of
`clientSockets` (send semaphores free), the sender included, and then appends
the message to the chat log. -/
theorem C19_chat_relay (now : Nat) (w : World) (h : Handler) (nick message : List Char)
    (hn : ':' ∉ nick) (hargs : h.arguments = nick ++ ':' :: message)
    (hlen : h.arguments.length ≤ INT_MAX)
    (hfree : ∀ s ∈ w.clientSockets, 0 < s.semaphore) :
    processChatMessage now h.arguments = some ⟨nick, message, now⟩
      ∧ formatCommand "chat".toList (nick ++ ':' :: message)
          = formatCommand "chat".toList h.arguments
      ∧ handlerChat now w h
          = .next
              ({ w with
                  log := w.log ++ w.clientSockets.map
                    (fun s => Effect.send s.fd (formatCommand "chat".toList h.arguments))
                  chatMessages := w.chatMessages ++ [⟨nick, message, now⟩] }, h) := by
  rw [hargs] at hlen
  have hp := processChatMessage_split now nick message hn hlen
  refine ⟨by rw [hargs, hp], by rw [hargs], ?_⟩
  unfold handlerChat
  rw [hargs, hp]
  simp only [chatRelay, sendToAllClients_free _ _ hfree]

/-- Witness of C19 (amended): `bob:hi:there` relayed to two connections. -/
theorem C19_chat_relay_witness :
    processChatMessage 9 "bob:hi:there".toList = some ⟨"bob".toList, "hi:there".toList, 9⟩
      ∧ formatCommand "chat".toList ("bob".toList ++ ':' :: "hi:there".toList)
          = formatCommand "chat".toList "bob:hi:there".toList
      ∧ handlerChat 9 demoWorld { Handler.new 0 with arguments := "bob:hi:there".toList }
          = .next
              ({ demoWorld with
                  log := demoWorld.log ++ demoWorld.clientSockets.map
                    (fun s => Effect.send s.fd
                      (formatCommand "chat".toList "bob:hi:there".toList))
                  chatMessages := demoWorld.chatMessages
                    ++ [⟨"bob".toList, "hi:there".toList, 9⟩] },
                { Handler.new 0 with arguments := "bob:hi:there".toList }) :=
  C19_chat_relay 9 demoWorld { Handler.new 0 with arguments := "bob:hi:there".toList }
    "bob".toList "hi:there".toList (by decide) (by decide) (by decide) (by decide)

/-- C15 (as stated, refuted): a peer that answers the handshake with its
nickname and then sends no acknowledgement at all is sent `newmap`,
`addseat`, `turnsPerSecond`, `addplayer` and the first `addtile` all the same:
no acknowledgement is consumed between these frames. -/
theorem C15_handshake_counterexample :
    (clientHandlerIteration demoExternals demoStreams 0
        { demoWorld with
          clientSockets := [⟨4, 1, true, ["<hello:0.4>".toList, "<setnick:bob>".toList]⟩] }
        (Handler.new 0)).state.1.log
      = [Effect.send 4 "<picknick:>".toList, Effect.send 4 "<newmap:>".toList,
         Effect.send 4 "<addseat:1>".toList, Effect.send 4 "<turnsPerSecond:2>".toList,
         Effect.send 4 "<addplayer:host>".toList, Effect.send 4 "<addtile:3:4>".toList] := by
  decide

/-- C15 (amended): once the nickname has been decoded and the player added,
on a map that has a tile or has no light, and with a peer that delivers `k`
non-empty reads and nothing else, the handshake sends exactly the frames of
`transcript` up to the first frame whose read is missing, that frame included
(`sentWith`), in this order and with no other frame in between: `newmap`,
`addseat` for the new player, `turnsPerSecond` and `addplayer` for the local
player, none of them followed by a read; then `addseat` and `addplayer` for
every other player of the map, each followed by a read; then one `addtile` per
tile, each followed by a read; one `addmaplight` per light, not followed by a
read; one `addroom` per room, one `addclass` per class and one `addcreature`
per creature, each followed by a read.  When `k` is at least the number
`transcriptReads` of reads it sends all the frames, consumes that many reads
and goes on to the next iteration; otherwise it waits in the read that follows
the last frame sent. -/
theorem C15_handshake_transcript (ext : Externals) (st : Streams) (now : Nat) (w : World)
    (h : Handler) (r : ParseResult) (b : Bool) (s : Socket)
    (hr : r.returned = some b)
    (hs : w.clientSockets.get? h.curSock = some s)
    (hne : ∀ d ∈ s.incoming, d ≠ [])
    (htiles : (ext.addPlayer w.gameMap { Player.new with nick := r.arguments }).1.tiles ≠ []
      ∨ (ext.addPlayer w.gameMap { Player.new with nick := r.arguments }).1.mapLights = []) :
    ∃ w1 h1,
      handshakeAfterNick ext st now w h r
        = (if transcriptReads (ext.addPlayer w.gameMap { Player.new with nick := r.arguments }).1
              (ext.addPlayer w.gameMap { Player.new with nick := r.arguments }).2
            ≤ s.incoming.length
          then .next (w1, h1) else .blocked (w1, h1))
      ∧ w1.log = w.log ++ (sentWith (transcript st
          (ext.addPlayer w.gameMap { Player.new with nick := r.arguments }).1
          (ext.addPlayer w.gameMap { Player.new with nick := r.arguments }).2
          w.turnsPerSecond) s.incoming.length).map (Effect.send s.fd)
      ∧ (transcriptReads (ext.addPlayer w.gameMap { Player.new with nick := r.arguments }).1
            (ext.addPlayer w.gameMap { Player.new with nick := r.arguments }).2
          ≤ s.incoming.length →
          sentWith (transcript st
            (ext.addPlayer w.gameMap { Player.new with nick := r.arguments }).1
            (ext.addPlayer w.gameMap { Player.new with nick := r.arguments }).2
            w.turnsPerSecond) s.incoming.length
          = transcriptFrames st
            (ext.addPlayer w.gameMap { Player.new with nick := r.arguments }).1
            (ext.addPlayer w.gameMap { Player.new with nick := r.arguments }).2
            w.turnsPerSecond)
      ∧ (w1.clientSockets.get? h.curSock).map (fun t => t.incoming)
          = some (s.incoming.drop (transcriptReads
              (ext.addPlayer w.gameMap { Player.new with nick := r.arguments }).1
              (ext.addPlayer w.gameMap { Player.new with nick := r.arguments }).2)) := by
  obtain ⟨w1, h1, e1, e2, e3⟩ := handshakeAfterNick_sent ext st now w h r b s hr hs hne htiles
  refine ⟨w1, h1, e1, e2, fun hk => ?_, e3⟩
  rw [sentWith_all _ _ (by rw [acksOf_transcript]; exact hk), frames_transcript]

/-- Witness of C15 (amended): a map with one tile, one room and one creature,
and a peer that delivers one acknowledgement: the handshake sends the four
opening frames, `addtile` and `addroom`, and waits for the read that follows
`addroom`. -/
theorem C15_handshake_transcript_witness :
    sentWith (transcript demoStreams
        (demoExternals.addPlayer demoWorld.gameMap { Player.new with nick := "bob".toList }).1
        (demoExternals.addPlayer demoWorld.gameMap { Player.new with nick := "bob".toList }).2
        demoWorld.turnsPerSecond) 1
      = ["<newmap:>".toList, "<addseat:1>".toList, "<turnsPerSecond:2>".toList,
         "<addplayer:host>".toList, "<addtile:3:4>".toList, "<addroom:treasury>".toList]
    ∧ ∃ w1 h1,
      handshakeAfterNick demoExternals demoStreams 0
          { demoWorld with clientSockets := [⟨4, 0, true, ["<ok:>".toList]⟩] }
          (Handler.new 0) ⟨some false, [], "setnick".toList, "bob".toList⟩
        = (if transcriptReads
              (demoExternals.addPlayer demoWorld.gameMap
                { Player.new with nick := "bob".toList }).1
              (demoExternals.addPlayer demoWorld.gameMap
                { Player.new with nick := "bob".toList }).2
            ≤ ["<ok:>".toList].length
          then .next (w1, h1) else .blocked (w1, h1))
      ∧ w1.log = demoWorld.log ++ (sentWith (transcript demoStreams
          (demoExternals.addPlayer demoWorld.gameMap { Player.new with nick := "bob".toList }).1
          (demoExternals.addPlayer demoWorld.gameMap { Player.new with nick := "bob".toList }).2
          demoWorld.turnsPerSecond) ["<ok:>".toList].length).map (Effect.send 4)
      ∧ (transcriptReads
            (demoExternals.addPlayer demoWorld.gameMap
              { Player.new with nick := "bob".toList }).1
            (demoExternals.addPlayer demoWorld.gameMap
              { Player.new with nick := "bob".toList }).2
          ≤ ["<ok:>".toList].length →
          sentWith (transcript demoStreams
            (demoExternals.addPlayer demoWorld.gameMap
              { Player.new with nick := "bob".toList }).1
            (demoExternals.addPlayer demoWorld.gameMap
              { Player.new with nick := "bob".toList }).2
            demoWorld.turnsPerSecond) ["<ok:>".toList].length
          = transcriptFrames demoStreams
            (demoExternals.addPlayer demoWorld.gameMap
              { Player.new with nick := "bob".toList }).1
            (demoExternals.addPlayer demoWorld.gameMap
              { Player.new with nick := "bob".toList }).2
            demoWorld.turnsPerSecond)
      ∧ (w1.clientSockets.get? 0).map (fun t => t.incoming)
          = some (["<ok:>".toList].drop
              (transcriptReads
                (demoExternals.addPlayer demoWorld.gameMap
                  { Player.new with nick := "bob".toList }).1
                (demoExternals.addPlayer demoWorld.gameMap
                  { Player.new with nick := "bob".toList }).2)) :=
  ⟨by decide,
    C15_handshake_transcript demoExternals demoStreams 0
      { demoWorld with clientSockets := [⟨4, 0, true, ["<ok:>".toList]⟩] }
      (Handler.new 0) ⟨some false, [], "setnick".toList, "bob".toList⟩ false
      ⟨4, 0, true, ["<ok:>".toList]⟩
      rfl rfl (by decide) (Or.inl (by decide))⟩

/-- C20 (as stated, refuted): the handler of the first connection waits for a
handshake acknowledgement; a broadcast of the dispatcher is then blocked and
the second connection, of descriptor 5, is sent nothing. -/
theorem C20_stalled_handshake_counterexample :
    (clientHandlerIteration demoExternals demoStreams 0
        { demoWorld with
          clientSockets := [⟨4, 1, true, ["<hello:0.4>".toList, "<setnick:bob>".toList]⟩,
                            ⟨5, 1, true, []⟩] }
        (Handler.new 0)).isBlocked = true
      ∧ (sendToAllClients
          (clientHandlerIteration demoExternals demoStreams 0
            { demoWorld with
              clientSockets := [⟨4, 1, true, ["<hello:0.4>".toList, "<setnick:bob>".toList]⟩,
                                ⟨5, 1, true, []⟩] }
            (Handler.new 0)).state.1 "<newturn:8>".toList).isBlocked = true
      ∧ Effect.send 5 "<newturn:8>".toList
          ∉ (sendToAllClients
              (clientHandlerIteration demoExternals demoStreams 0
                { demoWorld with
                  clientSockets := [⟨4, 1, true, ["<hello:0.4>".toList, "<setnick:bob>".toList]⟩,
                                    ⟨5, 1, true, []⟩] }
                (Handler.new 0)).state.1 "<newturn:8>".toList).state.log := by
  decide

/-- C20 (amended): while a connection handler waits in the `hello` branch for
its peer (for the nickname or for a handshake acknowledgement), it holds the
send semaphore of its own connection, taken at the start of the branch; a
broadcast by `sendToAllClients` is then blocked: it sends to the connections
that come before the first held one in `clientSockets` and to no other. -/
theorem C20_handshake_holds_send_guard (ext : Externals) (st : Streams) (now : Nat)
    (w : World) (h : Handler) (s : Socket) (str : List Char)
    (hs : w.clientSockets.get? h.curSock = some s) (hsem : s.semaphore = 1)
    (hb : (handlerHello ext st now w h).isBlocked = true) :
    HeldAt (handlerHello ext st now w h).state.1 h.curSock
      ∧ sendToAllClients (handlerHello ext st now w h).state.1 str
        = .blocked { (handlerHello ext st now w h).state.1 with
            log := (handlerHello ext st now w h).state.1.log
              ++ ((handlerHello ext st now w h).state.1.clientSockets.takeWhile
                  (fun t => decide (0 < t.semaphore))).map (fun t => Effect.send t.fd str) } :=
  ⟨held_handlerHello ext st now w h s hs hsem hb,
    sendToAllClients_held _ h.curSock str (held_handlerHello ext st now w h s hs hsem hb)⟩

/-- Witness of C20 (amended): the peer has sent its nickname and nothing
else. -/
theorem C20_handshake_holds_send_guard_witness :
    HeldAt (handlerHello demoExternals demoStreams 0
        { demoWorld with
          clientSockets := [⟨4, 1, true, ["<setnick:bob>".toList]⟩, ⟨5, 1, true, []⟩] }
        (Handler.new 0)).state.1 0
      ∧ sendToAllClients (handlerHello demoExternals demoStreams 0
          { demoWorld with
            clientSockets := [⟨4, 1, true, ["<setnick:bob>".toList]⟩, ⟨5, 1, true, []⟩] }
          (Handler.new 0)).state.1 "<newturn:8>".toList
        = .blocked { (handlerHello demoExternals demoStreams 0
            { demoWorld with
              clientSockets := [⟨4, 1, true, ["<setnick:bob>".toList]⟩, ⟨5, 1, true, []⟩] }
            (Handler.new 0)).state.1 with
            log := (handlerHello demoExternals demoStreams 0
                { demoWorld with
                  clientSockets := [⟨4, 1, true, ["<setnick:bob>".toList]⟩, ⟨5, 1, true, []⟩] }
                (Handler.new 0)).state.1.log
              ++ ((handlerHello demoExternals demoStreams 0
                  { demoWorld with
                    clientSockets := [⟨4, 1, true, ["<setnick:bob>".toList]⟩,
                                      ⟨5, 1, true, []⟩] }
                  (Handler.new 0)).state.1.clientSockets.takeWhile
                  (fun t => decide (0 < t.semaphore))).map
                    (fun t => Effect.send t.fd "<newturn:8>".toList) } :=
  C20_handshake_holds_send_guard demoExternals demoStreams 0
    { demoWorld with
      clientSockets := [⟨4, 1, true, ["<setnick:bob>".toList]⟩, ⟨5, 1, true, []⟩] }
    (Handler.new 0) ⟨4, 1, true, ["<setnick:bob>".toList]⟩ "<newturn:8>".toList
    rfl rfl (by decide)

/-- C21 (as stated, refuted): one read delivers the two complete frames
`<chat:bob:hi><chat:bob:yo>`.  The handler relays `bob:hi` and goes back to
its `recv`; the frame `<chat:bob:yo>` is left undecoded in `tempString`, and
the handler waits for the peer with the second message neither relayed nor in
the chat log. -/
theorem C21_shared_read_counterexample :
    (clientHandlerIteration demoExternals demoStreams 0
        { demoWorld with
          clientSockets := [⟨4, 1, true, []⟩,
                            ⟨5, 1, true, ["<chat:bob:hi><chat:bob:yo>".toList]⟩] }
        (Handler.new 1)).state.1.chatMessages = [⟨"bob".toList, "hi".toList, 0⟩]
      ∧ (clientHandlerIteration demoExternals demoStreams 0
          { demoWorld with
            clientSockets := [⟨4, 1, true, []⟩,
                              ⟨5, 1, true, ["<chat:bob:hi><chat:bob:yo>".toList]⟩] }
          (Handler.new 1)).state.1.log
        = [Effect.send 4 "<chat:bob:hi>".toList, Effect.send 5 "<chat:bob:hi>".toList]
      ∧ (clientHandlerIteration demoExternals demoStreams 0
          { demoWorld with
            clientSockets := [⟨4, 1, true, []⟩,
                              ⟨5, 1, true, ["<chat:bob:hi><chat:bob:yo>".toList]⟩] }
          (Handler.new 1)).state.2.tempString = "<chat:bob:yo>".toList
      ∧ clientHandlerIteration demoExternals demoStreams 0
          (clientHandlerIteration demoExternals demoStreams 0
            { demoWorld with
              clientSockets := [⟨4, 1, true, []⟩,
                                ⟨5, 1, true, ["<chat:bob:hi><chat:bob:yo>".toList]⟩] }
            (Handler.new 1)).state.1
          (clientHandlerIteration demoExternals demoStreams 0
            { demoWorld with
              clientSockets := [⟨4, 1, true, []⟩,
                                ⟨5, 1, true, ["<chat:bob:hi><chat:bob:yo>".toList]⟩] }
            (Handler.new 1)).state.2
        = .blocked
            (clientHandlerIteration demoExternals demoStreams 0
              { demoWorld with
                clientSockets := [⟨4, 1, true, []⟩,
                                  ⟨5, 1, true, ["<chat:bob:hi><chat:bob:yo>".toList]⟩] }
              (Handler.new 1)).state := by
  decide

/-- C21 (amended): when a read delivers a complete frame `formatCommand c a`
followed by further bytes `more` (a second complete frame, for one), of at
most `INT_MAX` characters in all, the handler decodes and dispatches the
command `c` with the arguments `a` only: the iteration is the dispatch of that
one command, with `more` left in `tempString`.  When the dispatch ran to its
end and the peer has delivered nothing else, the next iteration waits in
`recv`, whatever `tempString` holds. -/
theorem C21_one_frame_per_read (ext : Externals) (st : Streams) (now later : Nat) (w : World)
    (h : Handler) (s : Socket) (c a more : List Char) (rest : List (List Char))
    (hs : w.clientSockets.get? h.curSock = some s)
    (hin : s.incoming = (formatCommand c a ++ more) :: rest)
    (hc : ':' ∉ c ∧ '>' ∉ c) (ha : '>' ∉ a)
    (hlen : (formatCommand c a ++ more).length ≤ INT_MAX) :
    clientHandlerIteration ext st now w h
        = dispatchCommand ext st now
            { w with clientSockets := w.clientSockets.set h.curSock { s with incoming := rest } }
            { h with tempString := more, clientCommand := c, arguments := a }
      ∧ ∀ w1 h1, clientHandlerIteration ext st now w h = .next (w1, h1) →
          recv w1 h1.curSock = none →
          clientHandlerIteration ext st later w1 h1 = .blocked (w1, h1) := by
  have hI : INT_MAX ≤ PTRDIFF_MAX := by decide
  have hL := formatCommand_length c a
  have hlen1 : (formatCommand c a).length ≤ INT_MAX := by
    rw [List.length_append] at hlen
    omega
  have hpos : ¬ toInt (formatCommand c a ++ more).length ≤ 0 := by
    rw [toInt_of_le _ hlen, List.length_append, hL]
    omega
  refine ⟨?_, fun w1 h1 _ hr => ?_⟩
  · unfold clientHandlerIteration
    rw [recv_of_get w h.curSock s '<' (c ++ ':' :: (a ++ ['>']) ++ more) rest hs hin]
    show afterRecv ext st now _ h (formatCommand c a ++ more) = _
    unfold afterRecv
    rw [if_neg hpos, if_neg (toUInt_ne_npos _),
      parseCommand_frame c a more _ _ hc.1 hc.2 ha hlen1 (le_trans hlen hI)]
    rfl
  · unfold clientHandlerIteration
    rw [hr]

/-- Witness of C21 (amended): the read `<ok:><chat:bob:hi>`. -/
theorem C21_one_frame_per_read_witness :
    clientHandlerIteration demoExternals demoStreams 0
        { demoWorld with clientSockets := [⟨4, 1, true, ["<ok:><chat:bob:hi>".toList]⟩] }
        (Handler.new 0)
        = dispatchCommand demoExternals demoStreams 0
            { demoWorld with
              clientSockets :=
                ({ demoWorld with
                    clientSockets := [⟨4, 1, true, ["<ok:><chat:bob:hi>".toList]⟩]
                  }).clientSockets.set (Handler.new 0).curSock
                  { (⟨4, 1, true, ["<ok:><chat:bob:hi>".toList]⟩ : Socket) with incoming := [] } }
            { Handler.new 0 with
              tempString := "<chat:bob:hi>".toList, clientCommand := "ok".toList,
              arguments := [] }
      ∧ ∀ w1 h1,
          clientHandlerIteration demoExternals demoStreams 0
              { demoWorld with clientSockets := [⟨4, 1, true, ["<ok:><chat:bob:hi>".toList]⟩] }
              (Handler.new 0) = .next (w1, h1) →
          recv w1 h1.curSock = none →
          clientHandlerIteration demoExternals demoStreams 1 w1 h1 = .blocked (w1, h1) :=
  C21_one_frame_per_read demoExternals demoStreams 0 1
    { demoWorld with clientSockets := [⟨4, 1, true, ["<ok:><chat:bob:hi>".toList]⟩] }
    (Handler.new 0) ⟨4, 1, true, ["<ok:><chat:bob:hi>".toList]⟩
    "ok".toList [] "<chat:bob:hi>".toList [] rfl rfl (by decide) (by decide) (by decide)

/-! ## Claims on the hand of a player -/

/-- C22 (as stated, refuted): with a hand of 2^32 creatures the index
`unsigned int j = creaturesInHand.size() - 1` of `addCreatureToHand` is 0, no
element is moved back, and the new creature overwrites the first one: the
vector is the new creature, the creatures of the hand but the first, and the
null pointer that was pushed back.  The hand after `pickUpCreature` is not the
creature followed by the hand as it was. -/
theorem C22_pick_up_counterexample :
    (demoImp :: demoImps (2 ^ 32 - 1)).length = 2 ^ 32
      ∧ addCreatureToHand (demoImp :: demoImps (2 ^ 32 - 1)) demoGoblin
        = some demoGoblin :: ((demoImps (2 ^ 32 - 1)).map some ++ [none])
      ∧ (pickUpCreature demoExternals
            (demoWorldWithHand (demoImp :: demoImps (2 ^ 32 - 1)))
            PlayerRef.me 0).state.gameMap.localPlayer.creaturesInHand
          ≠ demoGoblin :: demoImp :: demoImps (2 ^ 32 - 1) := by
  have hsz : (demoImp :: demoImps (2 ^ 32 - 1)).length = 2 ^ 32 := by
    rw [List.length_cons, demoImps_length]
    decide
  refine ⟨hsz, addCreatureToHand_overlong _ _ _ hsz, ?_⟩
  rw [pickUpCreature_overlong_hand demoExternals
    (demoWorldWithHand (demoImp :: demoImps (2 ^ 32 - 1))) 0 demoGoblin demoGoblin
    demoImp (demoImps (2 ^ 32 - 1)) rfl rfl (by decide) rfl rfl hsz]
  exact cons_ne_cons_cons demoGoblin demoImp (demoImps (2 ^ 32 - 1))

/-- C22 (amended): for every player attached to the map with a hand `h` of
fewer than 2^32 creatures and every creature `c` of the map,
`addCreatureToHand` leaves the vector `c` followed by the elements of `h` in
their order; if the hit points of `c` are `<= 0`, `pickUpCreature` changes
nothing (map, hands, notification queue); otherwise `c` is removed from the
creatures of the map and the hand of the player becomes `c`, its destinations
and action queue cleared, followed by the elements of `h` in their previous
order. -/
theorem C22_pick_up_front (ext : Externals) (w : World) (this : PlayerRef) (ci : Nat)
    (player : Player) (c : Creature)
    (hp : getPlayerByRef w.gameMap this = some player)
    (hc : w.gameMap.creatures.get? ci = some c)
    (hmap : player.gameMapSet = true)
    (hsz : player.creaturesInHand.length < 2 ^ 32) :
    (∀ x, addCreatureToHand player.creaturesInHand x = (x :: player.creaturesInHand).map some)
      ∧ (c.hp ≤ 0 → pickUpCreature ext w this ci = .next w)
      ∧ (0 < c.hp → ∃ w1, pickUpCreature ext w this ci = .next w1
          ∧ w1.gameMap.creatures = w.gameMap.creatures.eraseIdx ci
          ∧ getPlayerByRef w1.gameMap this
              = some { player with
                  creaturesInHand :=
                    ext.clearActionQueue (ext.clearDestinations c) :: player.creaturesInHand }) := by
  refine ⟨fun x => addCreatureToHand_front _ x hsz, fun hle => ?_, fun hpos => ?_⟩
  · unfold pickUpCreature
    simp only [hp, hc, hmap]
    rw [if_neg (by decide), if_pos hle]
  · obtain ⟨w1, e1, e2⟩ := pickUpCreature_alive ext w this ci player c hp hc hmap hpos
    have hp1 : getPlayerByRef (removeCreature w.gameMap ci) this = some player := by
      cases this <;> exact hp
    refine ⟨w1, e1, ?_, ?_⟩
    · rw [e2, setPlayerByRef_creatures]
      rfl
    · rw [e2, getPlayerByRef_set _ _ _ _ hp1, addCreatureToHand_front _ _ hsz,
        reduceOption_map_some]

/-- Witness of C22 (amended): the local player holds one creature and picks
up the creature of the example map. -/
theorem C22_pick_up_front_witness :
    (∀ x, addCreatureToHand [demoImp] x = (x :: [demoImp]).map some)
      ∧ (demoGoblin.hp ≤ 0 →
          pickUpCreature demoExternals (demoWorldWithHand [demoImp]) PlayerRef.me 0
            = .next (demoWorldWithHand [demoImp]))
      ∧ (0 < demoGoblin.hp → ∃ w1,
          pickUpCreature demoExternals (demoWorldWithHand [demoImp]) PlayerRef.me 0 = .next w1
          ∧ w1.gameMap.creatures = (demoWorldWithHand [demoImp]).gameMap.creatures.eraseIdx 0
          ∧ getPlayerByRef w1.gameMap PlayerRef.me
              = some { (demoWorldWithHand [demoImp]).gameMap.localPlayer with
                  creaturesInHand :=
                    demoExternals.clearActionQueue (demoExternals.clearDestinations demoGoblin)
                      :: [demoImp] }) :=
  C22_pick_up_front demoExternals (demoWorldWithHand [demoImp]) PlayerRef.me 0
    (demoWorldWithHand [demoImp]).gameMap.localPlayer demoGoblin rfl rfl rfl (by decide)

/-- C23 (as stated, refuted): the local player drops a creature on the dirt
tile `(16777217, 4)`.  The call returns `true` and the creature joins the map
positioned at `(16777216, 4, 0)`: the conversion of the coordinate to
`Ogre::Real` has rounded it, and the position is not `(t.x, t.y, 0)`. -/
theorem C23_drop_creature_counterexample :
    (dropCreature (demoWorldWithTile 16777217 [demoImp]) PlayerRef.me 0 0).state.1 = true
      ∧ (dropCreature (demoWorldWithTile 16777217 [demoImp]) PlayerRef.me 0
          0).state.2.gameMap.creatures
        = [demoGoblin, { demoImp with position := ⟨16777216, 4, 0⟩ }]
      ∧ (⟨16777216, 4, 0⟩ : Vector3) ≠ ⟨((16777217 : Int) : ℚ), ((4 : Int) : ℚ), 0⟩ := by
  have e : dropCreature (demoWorldWithTile 16777217 [demoImp]) PlayerRef.me 0 0
      = .next (true, dropCreatureOnTile (demoWorldWithTile 16777217 [demoImp]) PlayerRef.me
          (demoWorldWithTile 16777217 [demoImp]).gameMap.localPlayer
          ⟨16777217, 4, 0, TileType.dirt, 0⟩ 0 demoImp) := by
    rw [dropCreature_eval (demoWorldWithTile 16777217 [demoImp]) PlayerRef.me 0 0
      (demoWorldWithTile 16777217 [demoImp]).gameMap.localPlayer
      ⟨16777217, 4, 0, TileType.dirt, 0⟩ ⟨0⟩ demoImp rfl rfl rfl rfl rfl]
    rw [if_pos ⟨show (0 : ℚ) < 1 by norm_num,
      Or.inl ⟨show (1 : ℚ) > pointOne by unfold pointOne; norm_num, rfl⟩⟩]
  refine ⟨by rw [e]; rfl, ?_, ?_⟩
  · rw [e]
    show (dropCreatureOnTile (demoWorldWithTile 16777217 [demoImp]) PlayerRef.me
      (demoWorldWithTile 16777217 [demoImp]).gameMap.localPlayer
      ⟨16777217, 4, 0, TileType.dirt, 0⟩ 0 demoImp).gameMap.creatures = _
    rw [dropCreatureOnTile_gameMap]
    show [demoGoblin, { demoImp with position := ⟨toReal 16777217, toReal 4, 0⟩ }] = _
    rw [toReal_rounds, toReal_exact 4 (by decide)]
    norm_num
  · intro h
    have hx := congrArg Vector3.x h
    norm_num at hx

/-- C23 (amended): for every player attached to the map, every tile `t` of
the map and every index inside the hand (or any index when the hand is empty),
the local player having a seat, `dropCreature(t, index)` returns, and it
returns `true` if and only if the hand is not empty, the fullness of `t` is
`< 1`, and either the creature at `index` has a dig rate `> 0.1` and `t` is
dirt, or `t` is claimed and its colour is that of the seat of the local
player.  When it returns `true` the creature at `index` leaves the hand, the
others keeping their order, and joins the creatures of the map, positioned at
`(t.x, t.y, 0)` with the two coordinates converted to `Ogre::Real`, which
leaves a coordinate of magnitude at most 2^24 as it is; when it returns
`false` the whole state is unchanged. -/
theorem C23_drop_creature (w : World) (this : PlayerRef) (ti index : Nat) (player : Player)
    (t : Tile) (seat : Seat)
    (hp : getPlayerByRef w.gameMap this = some player)
    (ht : w.gameMap.tiles.get? ti = some t)
    (hmap : player.gameMapSet = true)
    (hseat : w.gameMap.localPlayer.seat = some seat)
    (hidx : index < player.creaturesInHand.length ∨ player.creaturesInHand = []) :
    ∃ b w1, dropCreature w this ti index = .next (b, w1)
      ∧ (b = true ↔
          player.creaturesInHand ≠ [] ∧ t.fullness < 1
            ∧ ((∃ c, player.creaturesInHand.get? index = some c
                  ∧ c.digRate > pointOne ∧ t.type = TileType.dirt)
              ∨ (t.type = TileType.claimed ∧ t.color = seat.color)))
      ∧ (b = true → ∃ c, player.creaturesInHand.get? index = some c
          ∧ getPlayerByRef w1.gameMap this
              = some { player with creaturesInHand := player.creaturesInHand.eraseIdx index }
          ∧ w1.gameMap.creatures
              = w.gameMap.creatures ++ [{ c with position := ⟨toReal t.x, toReal t.y, 0⟩ }])
      ∧ (b = false → w1 = w)
      ∧ (t.x.natAbs ≤ 2 ^ 24 → toReal t.x = (t.x : ℚ))
      ∧ (t.y.natAbs ≤ 2 ^ 24 → toReal t.y = (t.y : ℚ)) := by
  have hxy : (t.x.natAbs ≤ 2 ^ 24 → toReal t.x = (t.x : ℚ))
      ∧ (t.y.natAbs ≤ 2 ^ 24 → toReal t.y = (t.y : ℚ)) :=
    ⟨toReal_exact t.x, toReal_exact t.y⟩
  rcases hidx with hlt | hnil
  · obtain ⟨c, hc⟩ : ∃ c, player.creaturesInHand.get? index = some c :=
      ⟨_, List.get?_eq_get hlt⟩
    have hne : player.creaturesInHand ≠ [] := by
      intro e
      rw [e] at hc
      cases hc
    rw [dropCreature_eval w this ti index player t seat c hp ht hmap hseat hc]
    by_cases hcond : t.fullness < 1 ∧ ((c.digRate > pointOne ∧ t.type = TileType.dirt)
        ∨ (t.type = TileType.claimed ∧ t.color = seat.color))
    · refine ⟨true, _, if_pos hcond, ?_, fun _ => ⟨c, hc, ?_, ?_⟩, fun e => Bool.noConfusion e,
        hxy⟩
      · refine ⟨fun _ => ⟨hne, hcond.1, ?_⟩, fun _ => rfl⟩
        rcases hcond.2 with hd | hcl
        · exact Or.inl ⟨c, hc, hd⟩
        · exact Or.inr hcl
      · rw [dropCreatureOnTile_gameMap, getPlayerByRef_addCreature,
          getPlayerByRef_set _ _ _ _ hp]
      · rw [dropCreatureOnTile_gameMap]
        show (setPlayerByRef w.gameMap this _).creatures ++ _ = _
        rw [setPlayerByRef_creatures]
    · refine ⟨false, w, if_neg hcond, ?_, fun e => Bool.noConfusion e, fun _ => rfl, hxy⟩
      refine ⟨fun e => Bool.noConfusion e, fun hr => absurd ⟨hr.2.1, ?_⟩ hcond⟩
      rcases hr.2.2 with ⟨c1, hc1, hd⟩ | hcl
      · rw [hc] at hc1
        cases hc1
        exact Or.inl hd
      · exact Or.inr hcl
  · refine ⟨false, w, ?_, ?_, fun e => Bool.noConfusion e, fun _ => rfl, hxy⟩
    · unfold dropCreature
      simp only [hp, ht, hnil]
      rfl
    · exact ⟨fun e => Bool.noConfusion e, fun hr => absurd hnil hr.1⟩

/-- Witness of C23 (amended): the local player holds one creature, of dig rate 1, and
drops it on the dirt tile `(3, 4)` of the example map: the call returns
`true`. -/
theorem C23_drop_creature_witness :
    (dropCreature (demoWorldWithHand [demoImp]) PlayerRef.me 0 0).state.1 = true
      ∧ ∃ b w1, dropCreature (demoWorldWithHand [demoImp]) PlayerRef.me 0 0 = .next (b, w1)
        ∧ (b = true ↔
            (demoWorldWithHand [demoImp]).gameMap.localPlayer.creaturesInHand ≠ []
              ∧ (⟨3, 4, 0, TileType.dirt, 0⟩ : Tile).fullness < 1
              ∧ ((∃ c, (demoWorldWithHand [demoImp]).gameMap.localPlayer.creaturesInHand.get? 0
                      = some c
                    ∧ c.digRate > pointOne
                    ∧ (⟨3, 4, 0, TileType.dirt, 0⟩ : Tile).type = TileType.dirt)
                ∨ ((⟨3, 4, 0, TileType.dirt, 0⟩ : Tile).type = TileType.claimed
                    ∧ (⟨3, 4, 0, TileType.dirt, 0⟩ : Tile).color = (⟨0⟩ : Seat).color)))
        ∧ (b = true → ∃ c,
            (demoWorldWithHand [demoImp]).gameMap.localPlayer.creaturesInHand.get? 0 = some c
            ∧ getPlayerByRef w1.gameMap PlayerRef.me
                = some { (demoWorldWithHand [demoImp]).gameMap.localPlayer with
                    creaturesInHand :=
                      (demoWorldWithHand [demoImp]).gameMap.localPlayer.creaturesInHand.eraseIdx
                        0 }
            ∧ w1.gameMap.creatures
                = (demoWorldWithHand [demoImp]).gameMap.creatures
                  ++ [{ c with
                        position := ⟨toReal (⟨3, 4, 0, TileType.dirt, 0⟩ : Tile).x,
                                     toReal (⟨3, 4, 0, TileType.dirt, 0⟩ : Tile).y, 0⟩ }])
        ∧ (b = false → w1 = demoWorldWithHand [demoImp])
        ∧ ((⟨3, 4, 0, TileType.dirt, 0⟩ : Tile).x.natAbs ≤ 2 ^ 24 →
            toReal (⟨3, 4, 0, TileType.dirt, 0⟩ : Tile).x
              = ((⟨3, 4, 0, TileType.dirt, 0⟩ : Tile).x : ℚ))
        ∧ ((⟨3, 4, 0, TileType.dirt, 0⟩ : Tile).y.natAbs ≤ 2 ^ 24 →
            toReal (⟨3, 4, 0, TileType.dirt, 0⟩ : Tile).y
              = ((⟨3, 4, 0, TileType.dirt, 0⟩ : Tile).y : ℚ)) :=
  ⟨by
      rw [dropCreature_eval (demoWorldWithHand [demoImp]) PlayerRef.me 0 0
        (demoWorldWithHand [demoImp]).gameMap.localPlayer ⟨3, 4, 0, TileType.dirt, 0⟩ ⟨0⟩ demoImp
        rfl rfl rfl rfl rfl]
      rw [if_pos ⟨show (0 : ℚ) < 1 by norm_num,
        Or.inl ⟨show (1 : ℚ) > pointOne by unfold pointOne; norm_num, rfl⟩⟩]
      rfl,
    C23_drop_creature (demoWorldWithHand [demoImp]) PlayerRef.me 0 0
      (demoWorldWithHand [demoImp]).gameMap.localPlayer ⟨3, 4, 0, TileType.dirt, 0⟩ ⟨0⟩
      rfl rfl rfl rfl (Or.inl (by decide))⟩

/-- C24 (as stated, refuted): with a hand of 2^32 + 1 creatures the index
`unsigned int j = creaturesInHand.size() - 1` of `rotateCreaturesInHand(1)` is
0: no element is moved back and the last creature overwrites the first one.
The first creature of the hand is lost and the result is not a permutation of
the hand. -/
theorem C24_rotation_counterexample :
    (demoGoblin :: (demoImps (2 ^ 32 - 1) ++ [demoImp])).length = 2 ^ 32 + 1
      ∧ rotateCreaturesInHand 1 (demoGoblin :: (demoImps (2 ^ 32 - 1) ++ [demoImp]))
        = demoImp :: (demoImps (2 ^ 32 - 1) ++ [demoImp])
      ∧ ¬ List.Perm
          (rotateCreaturesInHand 1 (demoGoblin :: (demoImps (2 ^ 32 - 1) ++ [demoImp])))
          (demoGoblin :: (demoImps (2 ^ 32 - 1) ++ [demoImp])) := by
  have hsz : (demoGoblin :: (demoImps (2 ^ 32 - 1) ++ [demoImp])).length = 2 ^ 32 + 1 := by
    rw [List.length_cons, List.length_append, demoImps_length, List.length_singleton]
    decide
  have hname : ∀ z : Creature, z.name.head? = some 'i' → z ≠ demoGoblin := by
    intro z hz e
    rw [e] at hz
    revert hz
    decide
  refine ⟨hsz, rotateCreaturesInHand_overlong _ _ _ hsz, fun hperm => ?_⟩
  rw [rotateCreaturesInHand_overlong _ _ _ hsz] at hperm
  have hm : demoGoblin ∈ demoImp :: (demoImps (2 ^ 32 - 1) ++ [demoImp]) :=
    hperm.symm.subset (List.mem_cons_self _ _)
  rcases List.mem_cons.mp hm with e | hm1
  · exact hname demoImp rfl e.symm
  · rcases List.mem_append.mp hm1 with h1 | h2
    · exact hname demoGoblin (demoImps_name _ _ h1) rfl
    · exact hname demoImp rfl (List.mem_singleton.mp h2).symm

/-- C24 (amended): for every hand `h` of at most 2^32 creatures and every
`int` `n` whose negation is representable, `rotateCreaturesInHand(n)` leaves a
hand of fewer than two creatures unchanged; a pass of its loop moves the last
creature to the front for `n > 0` and the first creature to the back for
`n < 0`; for `n < 0` the result is `h` rotated towards the front by `|n|`
positions, for `n > 0` it is `h` rotated towards the back by `|n|` positions
(rotating it towards the front by `|n|` gives `h` again); the result is a
permutation of `h` of the same length, rotating by a multiple of the size of
the hand changes nothing, and `rotateCreaturesInHand(n)` followed by
`rotateCreaturesInHand(-n)` restores `h`. -/
theorem C24_rotation (n : Int) (hand : List Creature)
    (h1 : -(2 ^ 31) < n) (h2 : n < 2 ^ 31) (hsz : hand.length ≤ 2 ^ 32) :
    (hand.length < 2 → rotateCreaturesInHand n hand = hand)
      ∧ (0 < n → ∀ (front : List Creature) (last : Creature), front.length < 2 ^ 32 →
          rotateStep n (front ++ [last]) = last :: front)
      ∧ (n < 0 → ∀ (first : Creature) (back : List Creature),
          rotateStep n (first :: back) = back ++ [first])
      ∧ (n < 0 → rotateCreaturesInHand n hand = hand.rotate n.natAbs)
      ∧ (0 < n → (rotateCreaturesInHand n hand).rotate n.natAbs = hand)
      ∧ List.Perm (rotateCreaturesInHand n hand) hand
      ∧ (rotateCreaturesInHand n hand).length = hand.length
      ∧ (hand.length ∣ n.natAbs → rotateCreaturesInHand n hand = hand)
      ∧ rotateCreaturesInHand (-n) (rotateCreaturesInHand n hand) = hand := by
  have hshort : hand.length < 2 → rotateCreaturesInHand n hand = hand := by
    intro hs
    unfold rotateCreaturesInHand
    rw [if_pos hs]
  have hstep : n < 0 → ∀ (first : Creature) (back : List Creature),
      rotateStep n (first :: back) = back ++ [first] := by
    intro hn first back
    rw [rotateStep_front n _ (by omega), List.rotate_cons_succ, List.rotate_zero]
  rcases lt_or_le 0 n with hpos | hle
  · obtain ⟨hb, hl⟩ := rotateCreaturesInHand_back n hand hpos h2 hsz
    have hperm : List.Perm (rotateCreaturesInHand n hand) hand := by
      have hr := (List.rotate_perm (rotateCreaturesInHand n hand) n.natAbs).symm
      rw [hb] at hr
      exact hr
    refine ⟨hshort, fun hn front last hf => rotateStep_back n front last hn hf, hstep,
      fun hn => absurd hn (by omega), fun _ => hb, hperm, hl, fun hd => ?_, ?_⟩
    · have hd1 : (rotateCreaturesInHand n hand).length ∣ n.natAbs := by
        rw [hl]
        exact hd
      rw [rotate_of_dvd _ _ hd1] at hb
      exact hb
    · rw [rotateCreaturesInHand_front (-n) _ (by omega) (by omega), Int.natAbs_neg]
      exact hb
  · have hf := rotateCreaturesInHand_front n hand h1 hle
    refine ⟨hshort, fun hn => absurd hn (by omega), hstep, fun _ => hf,
      fun hn => absurd hn (by omega), ?_, ?_, fun hd => ?_, ?_⟩
    · rw [hf]
      exact List.rotate_perm hand n.natAbs
    · rw [hf]
      exact List.length_rotate hand n.natAbs
    · rw [hf]
      exact rotate_of_dvd hand _ hd
    · rcases lt_or_eq_of_le hle with hneg | hzero
      · obtain ⟨hb, _⟩ := rotateCreaturesInHand_back (-n) (rotateCreaturesInHand n hand)
          (by omega) (by omega) (by rw [hf, List.length_rotate]; exact hsz)
        rw [Int.natAbs_neg] at hb
        apply List.rotate_injective n.natAbs
        show (rotateCreaturesInHand (-n) (rotateCreaturesInHand n hand)).rotate n.natAbs
          = hand.rotate n.natAbs
        rw [hb, hf]
      · rw [hzero]
        show rotateCreaturesInHand 0 (rotateCreaturesInHand 0 hand) = hand
        rw [rotateCreaturesInHand_front 0 _ (by decide) (le_refl 0),
          rotateCreaturesInHand_front 0 _ (by decide) (le_refl 0)]
        exact (List.rotate_zero _).trans (List.rotate_zero hand)

/-- Witness of C24 (amended): the hand `goblin1`, `imp0`, `imp1` and `n = 2`;
the hand becomes `imp0`, `imp1`, `goblin1`. -/
theorem C24_rotation_witness :
    (rotateCreaturesInHand 2 (demoGoblin :: demoImps 2)).map (fun c => c.name)
        = ["imp0".toList, "imp1".toList, "goblin1".toList]
      ∧ ((demoGoblin :: demoImps 2).length < 2 →
        rotateCreaturesInHand 2 (demoGoblin :: demoImps 2)
          = (demoGoblin :: demoImps 2))
      ∧ ((0 : Int) < 2 → ∀ (front : List Creature) (last : Creature), front.length < 2 ^ 32 →
          rotateStep 2 (front ++ [last]) = last :: front)
      ∧ ((2 : Int) < 0 → ∀ (first : Creature) (back : List Creature),
          rotateStep 2 (first :: back) = back ++ [first])
      ∧ ((2 : Int) < 0 → rotateCreaturesInHand 2 (demoGoblin :: demoImps 2)
          = (demoGoblin :: demoImps 2).rotate (2 : Int).natAbs)
      ∧ ((0 : Int) < 2 →
          (rotateCreaturesInHand 2 (demoGoblin :: demoImps 2)).rotate (2 : Int).natAbs
            = (demoGoblin :: demoImps 2))
      ∧ List.Perm (rotateCreaturesInHand 2 (demoGoblin :: demoImps 2))
          (demoGoblin :: demoImps 2)
      ∧ (rotateCreaturesInHand 2 (demoGoblin :: demoImps 2)).length
          = (demoGoblin :: demoImps 2).length
      ∧ ((demoGoblin :: demoImps 2).length ∣ (2 : Int).natAbs →
          rotateCreaturesInHand 2 (demoGoblin :: demoImps 2)
            = (demoGoblin :: demoImps 2))
      ∧ rotateCreaturesInHand (-2) (rotateCreaturesInHand 2 (demoGoblin :: demoImps 2))
          = (demoGoblin :: demoImps 2) :=
  ⟨by decide,
    C24_rotation 2 (demoGoblin :: demoImps 2) (by decide) (by decide) (by decide)⟩

end OpenDungeons
